import Mathlib

/-! The texture loader basis_loader.js: worker and main thread.

A shallow embedding of `webgl/transcoder/build/basis_loader.js`: on the worker
side (lines 206-493) the constant tables `BASIS_FORMAT` and
`BASIS_WEBGL_FORMAT_MAP`, the helpers `fail` and `basisFileFail`, the function
`transcode` and the handler `onmessage`; on the main thread (lines 44-204) the
classes `PendingTextureRequest` and `BasisLoader` with the handler of the
worker's messages.

Modelling conventions.

* JavaScript numbers that the code handles (ids, counts, sizes, offsets,
  format values) are natural numbers; in particular the id counter
  `nextPendingTextureId` is taken to stay within the range in which `++` is
  exact.
* `undefined` is `none`.  Reading a property that an object literal does not
  have gives `undefined`, so the table `BASIS_FORMAT` is a function from
  property names to `Option Nat`.
* The native container `BasisFile` is an external collaborator.  It is a
  parameter of the model: a record giving the answer of every method for every
  argument list.  One run of `transcode` issues every query at most once per
  argument list, so a record of answers describes any deterministic container.
* Everything `transcode` does to the outside world (method calls on the
  container handle and `postMessage`) is recorded, in program order, in a
  trace of `Event`s; what the main thread does is recorded in a trace of
  `MainEvent`s.
* An `ArrayBuffer` is represented by its byte length.
* The memory of the worker is a parameter of the model (`Heap`): it says for
  which lengths the buffers of lines 420-421 can be allocated.
  `new Uint8Array(length)` throws a RangeError when the length is 2^53 or more
  and when the memory does not have the bytes.  `transcode` catches nothing,
  so an exception is the last event of the trace of its run.
* A promise of the environment (`fetch`, `arrayBuffer`, the initialisation of
  the transcoder module) is given by how it ends: with a value, or without
  one, in which case the callbacks registered with `then` never run.
-/

namespace BasisLoader

/-! ## Constant tables (lines 219-303) -/

/-- The object literal `BASIS_FORMAT` (lines 220-248): the value stored under
each property name, and `none` (JavaScript `undefined`) for every name that is
not a property of the object. -/
def BASIS_FORMAT : String → Option Nat
  | "cTFETC1_RGB" => some 0
  | "cTFETC2_RGBA" => some 1
  | "cTFBC1_RGB" => some 2
  | "cTFBC3_RGBA" => some 3
  | "cTFBC4_R" => some 4
  | "cTFBC5_RG" => some 5
  | "cTFBC7_RGBA" => some 6
  | "cTFPVRTC1_4_RGB" => some 8
  | "cTFPVRTC1_4_RGBA" => some 9
  | "cTFASTC_4x4_RGBA" => some 10
  | "cTFRGBA32" => some 13
  | "cTFRGB565" => some 14
  | "cTFBGR565" => some 15
  | "cTFRGBA4444" => some 16
  | "cTFTotalTextureFormats" => some 22
  | _ => none

def COMPRESSED_RGB_S3TC_DXT1_EXT : Nat := 0x83F0
def COMPRESSED_RGBA_S3TC_DXT5_EXT : Nat := 0x83F3
def COMPRESSED_RGB_ETC1_WEBGL : Nat := 0x8D64
def COMPRESSED_RGBA8_ETC2_EAC : Nat := 0x9278
def COMPRESSED_RGBA_ASTC_4x4_KHR : Nat := 0x93B0
def COMPRESSED_RGB_PVRTC_4BPPV1_IMG : Nat := 0x8C00
def COMPRESSED_RGBA_PVRTC_4BPPV1_IMG : Nat := 0x8C02
def COMPRESSED_RGBA_BPTC_UNORM_EXT : Nat := 0x8E8C

/-- The constants of `WebGLRenderingContext` that lines 301-303 read; their
values are those of the WebGL 1.0 interface. -/
def WebGLRenderingContext_RGB : Nat := 0x1907
def WebGLRenderingContext_RGBA : Nat := 0x1908
def WebGLRenderingContext_UNSIGNED_BYTE : Nat := 0x1401
def WebGLRenderingContext_UNSIGNED_SHORT_4_4_4_4 : Nat := 0x8033
def WebGLRenderingContext_UNSIGNED_SHORT_5_6_5 : Nat := 0x8363

/-- An entry of `BASIS_WEBGL_FORMAT_MAP`.  The compressed entries have no
`uncompressed` and no `type` property: an absent `uncompressed` is falsy
(`false`), an absent `type` is `none`. -/
structure WebGLFormat where
  uncompressed : Bool := false
  format : Nat
  type : Option Nat := none
deriving DecidableEq, Repr

/-- The table `BASIS_WEBGL_FORMAT_MAP` (lines 289-303) as the list of its
assignments, each key being the value read from `BASIS_FORMAT`. -/
def BASIS_WEBGL_FORMAT_MAP : List (Option Nat × WebGLFormat) :=
  [ (BASIS_FORMAT "cTFBC1_RGB", { format := COMPRESSED_RGB_S3TC_DXT1_EXT }),
    (BASIS_FORMAT "cTFBC3_RGBA", { format := COMPRESSED_RGBA_S3TC_DXT5_EXT }),
    (BASIS_FORMAT "cTFBC7_RGBA", { format := COMPRESSED_RGBA_BPTC_UNORM_EXT }),
    (BASIS_FORMAT "cTFETC1_RGB", { format := COMPRESSED_RGB_ETC1_WEBGL }),
    (BASIS_FORMAT "cTFETC2_RGBA", { format := COMPRESSED_RGBA8_ETC2_EAC }),
    (BASIS_FORMAT "cTFASTC_4x4_RGBA", { format := COMPRESSED_RGBA_ASTC_4x4_KHR }),
    (BASIS_FORMAT "cTFPVRTC1_4_RGB", { format := COMPRESSED_RGB_PVRTC_4BPPV1_IMG }),
    (BASIS_FORMAT "cTFPVRTC1_4_RGBA", { format := COMPRESSED_RGBA_PVRTC_4BPPV1_IMG }),
    (BASIS_FORMAT "cTFRGBA32",
      { uncompressed := true, format := WebGLRenderingContext_RGBA,
        type := some WebGLRenderingContext_UNSIGNED_BYTE }),
    (BASIS_FORMAT "cTFRGB565",
      { uncompressed := true, format := WebGLRenderingContext_RGB,
        type := some WebGLRenderingContext_UNSIGNED_SHORT_5_6_5 }),
    (BASIS_FORMAT "cTFRGBA4444",
      { uncompressed := true, format := WebGLRenderingContext_RGBA,
        type := some WebGLRenderingContext_UNSIGNED_SHORT_4_4_4_4 }) ]

/-- The lookup `BASIS_WEBGL_FORMAT_MAP[basisFormat]` (line 395); `none` is
`undefined`.  The keys of the table are pairwise distinct, so the first
assignment found is the only one. -/
def webglFormatOf (basisFormat : Nat) : Option WebGLFormat :=
  BASIS_WEBGL_FORMAT_MAP.lookup (some basisFormat)

/-- The constant `IMAGE_INDEX` (line 320). -/
def IMAGE_INDEX : Nat := 0

/-- The constant `TOP_LEVEL_MIP` (line 321). -/
def TOP_LEVEL_MIP : Nat := 0

/-! ## Data -/

/-- The `supportedFormats` object of a request (lines 172-179). -/
structure SupportedFormats where
  s3tc : Bool
  etc1 : Bool
  etc2 : Bool
  pvrtc : Bool
  astc : Bool
  bptc : Bool
deriving DecidableEq, Repr

/-- One element of `mipLevels` (lines 409-415). -/
structure MipLevel where
  level : Nat
  offset : Nat
  size : Nat
  width : Nat
  height : Nat
deriving DecidableEq, Repr

/-- The two output buffers of `transcode` (lines 420-421). -/
inductive BufferName where
  | transcodeData
  | alphaTranscodeData
deriving DecidableEq, Repr

/-- The view `new Uint8Array(buffer, byteOffset, length)` handed to
`transcodeImage` (lines 425 and 431), with the byte length of the buffer it
is taken from. -/
structure Uint8ArrayView where
  buffer : BufferName
  bufferByteLength : Nat
  byteOffset : Nat
  length : Nat
deriving DecidableEq, Repr

/-- The memory of the worker, as far as `transcode` meets it: whether the
bytes for a buffer of a given length are available when the buffer is
allocated. -/
structure Heap where
  available : BufferName → Nat → Bool

/-- Whether `new Uint8Array(length)` (lines 420-421) returns.  It throws a
RangeError when the length exceeds 2^53 - 1 and when the bytes cannot be
allocated. -/
def Heap.allocates (heap : Heap) (buffer : BufferName) (length : Nat) : Bool :=
  decide (length < 2 ^ 53) && heap.available buffer length

/-- The answers of the native container handle `BasisFile`. -/
structure BasisFile where
  getNumImages : Nat
  getNumLevels : Nat → Nat
  getHasAlpha : Bool
  startTranscoding : Bool
  getImageTranscodedSizeInBytes : Nat → Nat → Nat → Nat
  getImageWidth : Nat → Nat → Nat
  getImageHeight : Nat → Nat → Nat
  transcodeImage : Uint8ArrayView → Nat → Nat → Nat → Nat → Nat → Bool

/-- A message posted by the worker: the error message of `fail`
(lines 307-310) or the success message of `transcode` (lines 447-454).
Buffers are given by their byte length; `alphaBuffer = none` is `null`. -/
inductive Message where
  | error (id : Nat) (error : String)
  | success (id : Nat) (buffer : Nat) (alphaBuffer : Option Nat)
      (webglFormat : WebGLFormat) (mipLevels : List MipLevel) (hasAlpha : Bool)
deriving DecidableEq, Repr

/-- What `transcode` does to the outside world. -/
inductive Event where
  | construct
  | getNumImages
  | getNumLevels (imageIndex : Nat)
  | getHasAlpha
  | startTranscoding
  | getImageTranscodedSizeInBytes (imageIndex levelIndex format : Nat)
  | getImageWidth (imageIndex levelIndex : Nat)
  | getImageHeight (imageIndex levelIndex : Nat)
  | transcodeImage (dst : Uint8ArrayView)
      (imageIndex levelIndex format unused getAlphaForOpaqueFormats : Nat)
  | close
  | delete
  | postMessage (message : Message)
  | throwTypeError
  | throwRangeError
deriving DecidableEq, Repr

/-! ## The worker code (lines 305-455) -/

/-- The function `fail` (lines 306-311). -/
def fail (id : Nat) (errorMsg : String) : List Event :=
  [Event.postMessage (Message.error id errorMsg)]

/-- The function `basisFileFail` (lines 313-317). -/
def basisFileFail (id : Nat) (errorMsg : String) : List Event :=
  fail id errorMsg ++ [Event.close, Event.delete]

/-- The format selection of `transcode` (lines 340-388): the values of
`basisFormat` and `needsSecondaryAlpha` when line 390 is reached. -/
def selectFormat (hasAlpha : Bool) (supportedFormats : SupportedFormats)
    (allowSeparateAlpha : Bool) : Option Nat × Bool :=
  if hasAlpha then
    if supportedFormats.etc2 then (BASIS_FORMAT "cTFETC2_RGBA", false)
    else if supportedFormats.bptc then (BASIS_FORMAT "cTFBC7_RGBA", false)
    else if supportedFormats.s3tc then (BASIS_FORMAT "cTFBC3_RGBA", false)
    else if supportedFormats.astc then (BASIS_FORMAT "cTFASTC_4x4_RGBA", false)
    else if supportedFormats.pvrtc then
      if allowSeparateAlpha then (BASIS_FORMAT "cTFPVRTC1_4_RGB", true)
      else (BASIS_FORMAT "cTFPVRTC1_4_RGBA", false)
    else if supportedFormats.etc1 && allowSeparateAlpha then
      (BASIS_FORMAT "cTFETC1_RGB", true)
    else (BASIS_FORMAT "RGBA32", false)
  else
    if supportedFormats.etc1 then (BASIS_FORMAT "cTFETC1_RGB", false)
    else if supportedFormats.bptc then (BASIS_FORMAT "cTFBC7_RGBA", false)
    else if supportedFormats.s3tc then (BASIS_FORMAT "cTFBC1_RGB", false)
    else if supportedFormats.etc2 then (BASIS_FORMAT "cTFETC2_RGBA", false)
    else if supportedFormats.astc then (BASIS_FORMAT "cTFASTC_4x4_RGBA", false)
    else if supportedFormats.pvrtc then (BASIS_FORMAT "cTFPVRTC1_4_RGB", false)
    else (BASIS_FORMAT "cTFRGB565", false)

/-- The loop of lines 407-417.  The first argument counts the iterations that
remain (`levels - mipLevel`); the others are the loop variable `mipLevel`,
the accumulators `mipLevels` and `totalTranscodeSize`, and the trace of the
queries made so far. -/
def gatherMipLevels (basisFile : BasisFile) (basisFormat : Nat) :
    Nat → Nat → List MipLevel → Nat → List Event → List MipLevel × Nat × List Event
  | 0, _, mipLevels, totalTranscodeSize, trace => (mipLevels, totalTranscodeSize, trace)
  | remaining + 1, mipLevel, mipLevels, totalTranscodeSize, trace =>
    let transcodeSize :=
      basisFile.getImageTranscodedSizeInBytes IMAGE_INDEX mipLevel basisFormat
    gatherMipLevels basisFile basisFormat remaining (mipLevel + 1)
      (mipLevels ++
        [{ level := mipLevel
           offset := totalTranscodeSize
           size := transcodeSize
           width := basisFile.getImageWidth IMAGE_INDEX mipLevel
           height := basisFile.getImageHeight IMAGE_INDEX mipLevel }])
      (totalTranscodeSize + transcodeSize)
      (trace ++
        [Event.getImageTranscodedSizeInBytes IMAGE_INDEX mipLevel basisFormat,
         Event.getImageWidth IMAGE_INDEX mipLevel,
         Event.getImageHeight IMAGE_INDEX mipLevel])

/-- The loop of lines 424-437 over `mipLevels`: the trace of the
`transcodeImage` calls made, and the error message with which the loop was
left early (`none` when every call returned true). -/
def transcodeLevels (basisFile : BasisFile) (basisFormat : Nat)
    (needsSecondaryAlpha : Bool) (totalTranscodeSize : Nat) :
    List MipLevel → List Event × Option String
  | [] => ([], none)
  | mipLevel :: rest =>
    let levelData : Uint8ArrayView :=
      { buffer := BufferName.transcodeData
        bufferByteLength := totalTranscodeSize
        byteOffset := mipLevel.offset
        length := mipLevel.size }
    let primary := Event.transcodeImage levelData IMAGE_INDEX mipLevel.level basisFormat 1 0
    if !basisFile.transcodeImage levelData IMAGE_INDEX mipLevel.level basisFormat 1 0 then
      ([primary], some "transcodeImage failed")
    else if needsSecondaryAlpha then
      let alphaLevelData : Uint8ArrayView :=
        { buffer := BufferName.alphaTranscodeData
          bufferByteLength := totalTranscodeSize
          byteOffset := mipLevel.offset
          length := mipLevel.size }
      let alpha :=
        Event.transcodeImage alphaLevelData IMAGE_INDEX mipLevel.level basisFormat 1 1
      if !basisFile.transcodeImage alphaLevelData IMAGE_INDEX mipLevel.level basisFormat 1 1 then
        ([primary, alpha], some "alpha transcodeImage failed")
      else
        let r := transcodeLevels basisFile basisFormat needsSecondaryAlpha totalTranscodeSize rest
        (primary :: alpha :: r.1, r.2)
    else
      let r := transcodeLevels basisFile basisFormat needsSecondaryAlpha totalTranscodeSize rest
      (primary :: r.1, r.2)

/-- What one call of `transcode` leaves behind: the trace of its effects and
the values of its local variables at the two points the properties below
speak about (`none` when the run ended before the point). -/
structure Run where
  /-- The effects of the call, in program order. -/
  trace : List Event
  /-- The variables `basisFormat` and `needsSecondaryAlpha` at line 390. -/
  selected : Option (Option Nat × Bool) := none
  /-- The variables `mipLevels` and `totalTranscodeSize` at line 420. -/
  plan : Option (List MipLevel × Nat) := none

/-- The function `transcode` (lines 323-455), in a worker with the given
memory.  An allocation that throws (lines 420-421) ends the run there: the
RangeError is not caught, so nothing more is done. -/
def transcode (heap : Heap) (id : Nat) (basisFile : BasisFile)
    (supportedFormats : SupportedFormats) (allowSeparateAlpha : Bool) : Run :=
  let images := basisFile.getNumImages
  let levels := basisFile.getNumLevels IMAGE_INDEX
  let hasAlpha := basisFile.getHasAlpha
  let opened : List Event :=
    [Event.construct, Event.getNumImages, Event.getNumLevels IMAGE_INDEX, Event.getHasAlpha]
  if images == 0 || levels == 0 then
    { trace := opened ++ basisFileFail id "Invalid Basis data" }
  else
    let started := opened ++ [Event.startTranscoding]
    if !basisFile.startTranscoding then
      { trace := started ++ basisFileFail id "startTranscoding failed" }
    else
      let selection := selectFormat hasAlpha supportedFormats allowSeparateAlpha
      let needsSecondaryAlpha := selection.2
      match selection.1 with
      | none =>
        { trace := started ++ basisFileFail id "No supported transcode formats"
          selected := some selection }
      | some basisFormat =>
        match webglFormatOf basisFormat with
        | none =>
          { trace := started ++ [Event.throwTypeError]
            selected := some selection }
        | some webglFormat =>
          let levels := if webglFormat.uncompressed then 1 else levels
          let gathered := gatherMipLevels basisFile basisFormat levels 0 [] 0 []
          let mipLevels := gathered.1
          let totalTranscodeSize := gathered.2.1
          if !heap.allocates BufferName.transcodeData totalTranscodeSize then
            { trace := started ++ gathered.2.2 ++ [Event.throwRangeError]
              selected := some selection
              plan := some (mipLevels, totalTranscodeSize) }
          else if needsSecondaryAlpha &&
              !heap.allocates BufferName.alphaTranscodeData totalTranscodeSize then
            { trace := started ++ gathered.2.2 ++ [Event.throwRangeError]
              selected := some selection
              plan := some (mipLevels, totalTranscodeSize) }
          else
            let done :=
              transcodeLevels basisFile basisFormat needsSecondaryAlpha totalTranscodeSize
                mipLevels
            match done.2 with
            | some errorMsg =>
              { trace := started ++ gathered.2.2 ++ done.1 ++ basisFileFail id errorMsg
                selected := some selection
                plan := some (mipLevels, totalTranscodeSize) }
            | none =>
              { trace := started ++ gathered.2.2 ++ done.1 ++
                  [Event.close, Event.delete,
                   Event.postMessage
                     (Message.success id totalTranscodeSize
                       (if needsSecondaryAlpha then some totalTranscodeSize else none)
                       webglFormat mipLevels hasAlpha)]
                selected := some selection
                plan := some (mipLevels, totalTranscodeSize) }

/-! ## Vocabulary of the properties -/

/-- Both allocations of lines 420-421 return: the primary buffer and, when
`needsSecondaryAlpha`, the secondary one. -/
def allocated (heap : Heap) (needsSecondaryAlpha : Bool) (totalTranscodeSize : Nat) : Bool :=
  heap.allocates BufferName.transcodeData totalTranscodeSize &&
    (!needsSecondaryAlpha || heap.allocates BufferName.alphaTranscodeData totalTranscodeSize)

/-- The event is a call of `transcodeImage`. -/
def Event.isTranscodeImage : Event → Bool
  | Event.transcodeImage _ _ _ _ _ _ => true
  | _ => false

/-- The event is a `postMessage`. -/
def Event.isPostMessage : Event → Bool
  | Event.postMessage _ => true
  | _ => false

/-- The event is one of the size and dimension queries of lines 408-414. -/
def Event.isQuery : Event → Bool
  | Event.getImageTranscodedSizeInBytes _ _ _ => true
  | Event.getImageWidth _ _ => true
  | Event.getImageHeight _ _ => true
  | _ => false

/-- The event is the construction of the container handle or a call of one of
its methods. -/
def Event.onHandle : Event → Bool
  | Event.postMessage _ => false
  | Event.throwTypeError => false
  | Event.throwRangeError => false
  | _ => true

/-- The messages posted by a trace, in order. -/
def posted : List Event → List Message
  | [] => []
  | Event.postMessage message :: rest => message :: posted rest
  | _ :: rest => posted rest

/-- The formats of `BASIS_FORMAT` that hold alpha together with colour, by the
comments of lines 225-245 ("Opaque+alpha", "RGB or RGBA", the RGBA rasters):
cTFETC2_RGBA, cTFBC3_RGBA, cTFBC7_RGBA, cTFPVRTC1_4_RGBA, cTFASTC_4x4_RGBA,
cTFRGBA32 and cTFRGBA4444. -/
def carriesAlpha (basisFormat : Nat) : Bool :=
  decide (basisFormat ∈ [1, 3, 6, 9, 10, 13, 16])

/-- The levels of a list lie one after the other, from byte `first` up to
byte `last`. -/
def Contiguous : Nat → List MipLevel → Nat → Prop
  | first, [], last => first = last
  | first, m :: rest, last => m.offset = first ∧ Contiguous (first + m.size) rest last

/-- Every descriptor of a list sits at the index that is its level and holds
what the container reports for image 0 at that level. -/
def Described (basisFile : BasisFile) (basisFormat : Nat) (l : List MipLevel) : Prop :=
  ∀ (i : Nat) (m : MipLevel), l[i]? = some m →
    m.level = i ∧
    m.size = basisFile.getImageTranscodedSizeInBytes IMAGE_INDEX i basisFormat ∧
    m.width = basisFile.getImageWidth IMAGE_INDEX i ∧
    m.height = basisFile.getImageHeight IMAGE_INDEX i

/-- The `transcodeImage` calls that a plan asks for, in plan order: for each
level the primary call (image 0, that level, the selected format, last
argument 0) into the level's slice of the primary buffer, followed, when
`needsSecondaryAlpha`, by the alpha call for the same level and format (last
argument 1) into the same slice of the secondary buffer. -/
def plannedCalls (basisFormat : Nat) (needsSecondaryAlpha : Bool) (totalTranscodeSize : Nat) :
    List MipLevel → List Event
  | [] => []
  | m :: rest =>
    Event.transcodeImage ⟨BufferName.transcodeData, totalTranscodeSize, m.offset, m.size⟩
        0 m.level basisFormat 1 0 ::
      ((if needsSecondaryAlpha then
          [Event.transcodeImage
            ⟨BufferName.alphaTranscodeData, totalTranscodeSize, m.offset, m.size⟩
            0 m.level basisFormat 1 1]
        else []) ++
        plannedCalls basisFormat needsSecondaryAlpha totalTranscodeSize rest)

/-- What the container answers to a `transcodeImage` call. -/
def BasisFile.answer (basisFile : BasisFile) : Event → Bool
  | Event.transcodeImage dst imageIndex levelIndex format unused getAlphaForOpaqueFormats =>
    basisFile.transcodeImage dst imageIndex levelIndex format unused getAlphaForOpaqueFormats
  | _ => true

/-- A call sequence cut after its first call that is answered false. -/
def untilFirstFailure (answer : Event → Bool) : List Event → List Event
  | [] => []
  | call :: rest =>
    if answer call then call :: untilFirstFailure answer rest else [call]

/-- The error text for a failed `transcodeImage` call: that of the primary
call when the last argument is 0, that of the alpha call otherwise. -/
def failureMessage : Event → String
  | Event.transcodeImage _ _ _ _ _ getAlphaForOpaqueFormats =>
    if getAlphaForOpaqueFormats = 0 then "transcodeImage failed"
    else "alpha transcodeImage failed"
  | _ => ""

/-! ## Sample inputs -/

/-- A container with one image of three mip levels (16x16, 8x8, 4x4) of 128,
32 and 8 bytes, on which every call succeeds. -/
def sampleFile (hasAlpha : Bool) : BasisFile :=
  { getNumImages := 1
    getNumLevels := fun _ => 3
    getHasAlpha := hasAlpha
    startTranscoding := true
    getImageTranscodedSizeInBytes := fun _ levelIndex _ => 8 * 4 ^ (2 - levelIndex)
    getImageWidth := fun _ levelIndex => 16 / 2 ^ levelIndex
    getImageHeight := fun _ levelIndex => 16 / 2 ^ levelIndex
    transcodeImage := fun _ _ _ _ _ _ => true }

/-- The sample container with alpha, on which the alpha call of level 1 fails. -/
def alphaFailingFile : BasisFile :=
  { sampleFile true with
    transcodeImage := fun _ _ levelIndex _ _ getAlphaForOpaqueFormats =>
      !(levelIndex == 1 && getAlphaForOpaqueFormats == 1) }

/-- A memory in which every buffer can be allocated. -/
def plentiful : Heap := { available := fun _ _ => true }

/-- A memory in which no buffer can be allocated. -/
def exhausted : Heap := { available := fun _ _ => false }

/-- A container with one image of one level and no alpha that reports a
transcoded size of 2^53 bytes. -/
def hugeFile : BasisFile :=
  { sampleFile false with
    getNumLevels := fun _ => 1
    getImageTranscodedSizeInBytes := fun _ _ _ => 2 ^ 53 }

/-- A container that reports no image. -/
def emptyFile : BasisFile :=
  { sampleFile false with getNumImages := 0 }

/-- A device that supports no compressed format. -/
def noFormats : SupportedFormats :=
  { s3tc := false, etc1 := false, etc2 := false, pvrtc := false, astc := false, bptc := false }

/-- A device that supports s3tc only. -/
def onlyS3tc : SupportedFormats := { noFormats with s3tc := true }

/-- A device that supports pvrtc only. -/
def onlyPvrtc : SupportedFormats := { noFormats with pvrtc := true }

/-! ## Vocabulary of the message properties -/

/-- The `id` field of a message. -/
def Message.id : Message → Nat
  | Message.error id _ => id
  | Message.success id _ _ _ _ _ => id

/-- The event is neither a `postMessage` nor the `close` or `delete` of the
container handle. -/
def Event.isQuiet : Event → Bool
  | Event.postMessage _ => false
  | Event.close => false
  | Event.delete => false
  | _ => true

/-- In a trace the container handle is closed before any message is posted:
whenever a `postMessage` occurs, a `close` occurs earlier in the trace. -/
def ClosedBeforePosted (trace : List Event) : Prop :=
  ∀ before message after,
    trace = before ++ Event.postMessage message :: after → Event.close ∈ before

/-- The sample container without alpha, reporting a transcoded size of 0 bytes
for every level. -/
def zeroSizeFile : BasisFile :=
  { sampleFile false with getImageTranscodedSizeInBytes := fun _ _ _ => 0 }

/-! ## The worker's message handler (lines 457-493) -/

/-- The response that a `fetch` promise resolves with.  `arrayBuffer` is the
container held by the bytes that `response.arrayBuffer()` resolves with, and
`none` when that promise does not resolve. -/
structure Response where
  ok : Bool
  status : Nat
  statusText : String
  arrayBuffer : Option BasisFile

/-- The state of the transcoder module when a request is ready to be
transcoded: `BasisFile` is already set, or it is still null and the promise
`BASIS_INITIALIZED` (lines 214-217) later resolves or does not. -/
inductive ModuleState where
  | ready
  | loading (resolves : Bool)
deriving DecidableEq, Repr

/-- What surrounds the worker: the result of `fetch(url)` (`none` when the
promise is rejected, as on a network failure), the state of the module and
the memory. -/
structure WorkerEnv where
  fetch : String → Option Response
  module : ModuleState
  heap : Heap

/-- The data of a request message (lines 459-463).  A `buffer` is given by the
container that its bytes hold. -/
structure Request where
  id : Nat
  url : Option String
  buffer : Option BasisFile
  allowSeparateAlpha : Bool
  supportedFormats : SupportedFormats

/-- The branches `if (BasisFile) transcode(...) else BASIS_INITIALIZED.then(...)`
(lines 470-476 and 483-489). -/
def transcodeWhenReady (env : WorkerEnv) (id : Nat) (arrayBuffer : BasisFile)
    (supportedFormats : SupportedFormats) (allowSeparateAlpha : Bool) : List Event :=
  match env.module with
  | ModuleState.ready =>
    (transcode env.heap id arrayBuffer supportedFormats allowSeparateAlpha).trace
  | ModuleState.loading true =>
    (transcode env.heap id arrayBuffer supportedFormats allowSeparateAlpha).trace
  | ModuleState.loading false => []

/-- The worker's `onmessage` (lines 457-493): everything the worker does for
one request, up to the end of the promise chains it starts.  A url is truthy
when it is present and not the empty string. -/
def Worker.onmessage (env : WorkerEnv) (data : Request) : List Event :=
  let url := data.url
  let buffer := data.buffer
  let allowSeparateAlpha := data.allowSeparateAlpha
  let supportedFormats := data.supportedFormats
  let id := data.id
  if url.isSome && url != some "" then
    match env.fetch (url.getD "") with
    | none => []
    | some response =>
      if response.ok then
        match response.arrayBuffer with
        | none => []
        | some arrayBuffer =>
          transcodeWhenReady env id arrayBuffer supportedFormats allowSeparateAlpha
      else
        fail id ("Fetch failed: " ++ toString response.status ++ ", " ++ response.statusText)
  else
    match buffer with
    | some arrayBuffer =>
      transcodeWhenReady env id arrayBuffer supportedFormats allowSeparateAlpha
    | none => fail id "No url or buffer specified"

/-! ## The main thread (lines 44-204) -/

/-- A WebGL context: an identity and, for each extension that
`setWebGLContext` asks for, whether `getExtension` returns an object. -/
structure GLContext where
  ident : Nat
  s3tc : Bool
  etc1 : Bool
  etc2 : Bool
  pvrtc : Bool
  astc : Bool
  bptc : Bool
deriving DecidableEq, Repr

/-- The constant `WebGLRenderingContext.UNSIGNED_SHORT_5_5_5_1`. -/
def WebGLRenderingContext_UNSIGNED_SHORT_5_5_5_1 : Nat := 0x8034

/-- The minification and magnification filters used by `uploadImageData`. -/
inductive Filter where
  | LINEAR
  | LINEAR_MIPMAP_LINEAR
deriving DecidableEq, Repr

/-- A typed-array view on the received buffer (lines 71, 85, 88): the element
size in bytes, the byte offset and the length in elements. -/
structure LevelData where
  bytesPerElement : Nat
  byteOffset : Nat
  length : Nat
deriving DecidableEq, Repr

/-- The texture object returned by `uploadImageData`, given by what was
uploaded into it. -/
structure Texture where
  webglFormat : WebGLFormat
  buffer : Nat
  mipLevels : List MipLevel
deriving DecidableEq, Repr

/-- The object a request's promise is resolved with (lines 157-164). -/
structure LoadResult where
  mipLevels : Nat
  width : Nat
  height : Nat
  alpha : Bool
  texture : Texture
  alphaTexture : Option Texture
deriving DecidableEq, Repr

/-- What the main thread does to the outside world. -/
inductive MainEvent where
  | postMessage (id : Nat) (url : String) (allowSeparateAlpha : Bool)
      (supportedFormats : SupportedFormats)
  | consoleError (text : String)
  | uploadImageData (arguments : Option (WebGLFormat × Nat × List MipLevel))
  | createTexture
  | bindTexture
  | texParameteriMag (value : Filter)
  | texParameteriMin (value : Filter)
  | compressedTexImage2D (level internalformat width height : Nat) (levelData : LevelData)
  | texImage2D (level internalformat width height format : Nat) (type : Option Nat)
      (levelData : LevelData)
  | generateMipmap
  | resolve (id : Nat) (result : LoadResult)
  | reject (id : Nat) (reason : String)
  | throwTypeError
  | throwRangeError
deriving DecidableEq, Repr

/-- The typed-array view of one mip level (lines 70-71 and 81-90); `none` is
the RangeError of a view that does not fit the buffer or is misaligned. -/
def levelDataOf (webglFormat : WebGLFormat) (buffer : Nat) (mipLevel : MipLevel) :
    Option LevelData :=
  if !webglFormat.uncompressed then
    if mipLevel.offset + mipLevel.size ≤ buffer then
      some { bytesPerElement := 1, byteOffset := mipLevel.offset, length := mipLevel.size }
    else none
  else if webglFormat.type = some WebGLRenderingContext_UNSIGNED_SHORT_4_4_4_4 ∨
      webglFormat.type = some WebGLRenderingContext_UNSIGNED_SHORT_5_5_5_1 ∨
      webglFormat.type = some WebGLRenderingContext_UNSIGNED_SHORT_5_6_5 then
    if mipLevel.offset % 2 = 0 ∧ mipLevel.offset + 2 * (mipLevel.size / 2) ≤ buffer then
      some { bytesPerElement := 2, byteOffset := mipLevel.offset, length := mipLevel.size / 2 }
    else none
  else
    if mipLevel.offset + mipLevel.size ≤ buffer then
      some { bytesPerElement := 1, byteOffset := mipLevel.offset, length := mipLevel.size }
    else none

/-- The loop of lines 69-102 of `uploadImageData`: the calls made, and whether
the loop ran to its end. -/
def uploadLevels (webglFormat : WebGLFormat) (buffer : Nat) :
    List MipLevel → List MainEvent × Bool
  | [] => ([], true)
  | mipLevel :: rest =>
    match levelDataOf webglFormat buffer mipLevel with
    | none => ([MainEvent.throwRangeError], false)
    | some levelData =>
      let call :=
        if !webglFormat.uncompressed then
          MainEvent.compressedTexImage2D mipLevel.level webglFormat.format mipLevel.width
            mipLevel.height levelData
        else
          MainEvent.texImage2D mipLevel.level webglFormat.format mipLevel.width
            mipLevel.height webglFormat.format webglFormat.type levelData
      let r := uploadLevels webglFormat buffer rest
      (call :: r.1, r.2)

/-- The method `PendingTextureRequest.uploadImageData` (lines 60-109) for the
`gl` of the request: the calls made, and the texture returned (`none` when the
method throws). -/
def uploadImageData (gl : Option GLContext) (webglFormat : WebGLFormat) (buffer : Nat)
    (mipLevels : List MipLevel) : List MainEvent × Option Texture :=
  let entry := MainEvent.uploadImageData (some (webglFormat, buffer, mipLevels))
  match gl with
  | none => ([entry, MainEvent.throwTypeError], none)
  | some _ =>
    let setup :=
      [entry, MainEvent.createTexture, MainEvent.bindTexture,
       MainEvent.texParameteriMag Filter.LINEAR,
       MainEvent.texParameteriMin
         (if decide (mipLevels.length > 1) || webglFormat.uncompressed then
            Filter.LINEAR_MIPMAP_LINEAR
          else Filter.LINEAR)]
    let levels := uploadLevels webglFormat buffer mipLevels
    if levels.2 then
      (setup ++ levels.1 ++
        (if webglFormat.uncompressed && mipLevels.length == 1 then
           [MainEvent.generateMipmap]
         else []),
       some { webglFormat := webglFormat, buffer := buffer, mipLevels := mipLevels })
    else (setup ++ levels.1, none)

/-- The call `uploadImageData(undefined, undefined, undefined)` that the
handler makes for a message without `webglFormat`, `buffer` and `mipLevels`:
it throws a TypeError, at `gl.createTexture()` without a context and at
`mipLevels.length` with one. -/
def uploadImageDataUndefined (gl : Option GLContext) : List MainEvent :=
  match gl with
  | none => [MainEvent.uploadImageData none, MainEvent.throwTypeError]
  | some _ =>
    [MainEvent.uploadImageData none, MainEvent.createTexture, MainEvent.bindTexture,
     MainEvent.texParameteriMag Filter.LINEAR, MainEvent.throwTypeError]

/-- The statement `if (msg.data.alphaBuffer) { ... }` of the handler (lines
150-155): the calls made and the resulting `alphaTexture`, which stays null
(`some none`) without an alpha buffer; `none` when the upload throws. -/
def uploadAlphaTexture (gl : Option GLContext) (webglFormat : WebGLFormat)
    (alphaBuffer : Option Nat) (mipLevels : List MipLevel) :
    List MainEvent × Option (Option Texture) :=
  match alphaBuffer with
  | none => ([], some none)
  | some alphaBytes =>
    let second := uploadImageData gl webglFormat alphaBytes mipLevels
    (second.1, second.2.map some)

/-- The class `PendingTextureRequest` (lines 48-58): the fields set by the
caller.  `texture` and `alphaTexture` start as null and the promise as
pending. -/
structure PendingTextureRequest where
  gl : Option GLContext
  url : String
deriving DecidableEq, Repr

set_option linter.dupNamespace false

/-- The fields of the class `BasisLoader` (lines 113-118).  The object
`pendingTextures` is given by the value stored under each id (`none` for an
id that is not a key). -/
structure BasisLoader where
  gl : Option GLContext
  supportedFormats : SupportedFormats
  pendingTextures : Nat → Option PendingTextureRequest
  nextPendingTextureId : Nat
  allowSeparateAlpha : Bool

/-- The fields set by the constructor of `BasisLoader` (lines 113-118); the
empty object `supportedFormats` has no truthy flag. -/
def BasisLoader.constructor : BasisLoader :=
  { gl := none
    supportedFormats :=
      { s3tc := false, etc1 := false, etc2 := false, pvrtc := false, astc := false,
        bptc := false }
    pendingTextures := fun _ => none
    nextPendingTextureId := 1
    allowSeparateAlpha := false }

/-- The method `setWebGLContext` (lines 168-184). -/
def BasisLoader.setWebGLContext (this : BasisLoader) (gl : Option GLContext) : BasisLoader :=
  if this.gl != gl then
    match gl with
    | some context =>
      { this with
        gl := gl
        supportedFormats :=
          { s3tc := context.s3tc, etc1 := context.etc1, etc2 := context.etc2,
            pvrtc := context.pvrtc, astc := context.astc, bptc := context.bptc } }
    | none =>
      { this with
        gl := gl
        supportedFormats :=
          { s3tc := false, etc1 := false, etc2 := false, pvrtc := false, astc := false,
            bptc := false } }
  else this

/-- The method `loadFromUrl` (lines 188-201): the new state and the message
sent to the worker.  The returned promise is the one of the request stored
under the id. -/
def BasisLoader.loadFromUrl (this : BasisLoader) (url : String) :
    BasisLoader × List MainEvent :=
  let pendingTexture : PendingTextureRequest := { gl := this.gl, url := url }
  ({ this with
     pendingTextures := fun id =>
       if id = this.nextPendingTextureId then some pendingTexture
       else this.pendingTextures id
     nextPendingTextureId := this.nextPendingTextureId + 1 },
   [MainEvent.postMessage this.nextPendingTextureId url this.allowSeparateAlpha
      this.supportedFormats])

/-- The handler `worker.onmessage` (lines 122-165) for a message of the
worker.  The `error` field of a message is truthy when the message is an error
message with a text other than the empty string. -/
def BasisLoader.onmessage (this : BasisLoader) (data : Message) :
    BasisLoader × List MainEvent :=
  match this.pendingTextures data.id with
  | none =>
    (this,
     (match data with
      | Message.error _ error =>
        if error ≠ "" then [MainEvent.consoleError ("Basis transcode failed: " ++ error)]
        else []
      | Message.success _ _ _ _ _ _ => []) ++
     [MainEvent.consoleError ("Invalid pending texture ID: " ++ toString data.id)])
  | some pendingTexture =>
    let removed : BasisLoader :=
      { this with
        pendingTextures := fun id => if id = data.id then none else this.pendingTextures id }
    match data with
    | Message.error id error =>
      if error ≠ "" then
        (removed,
         [MainEvent.consoleError ("Basis transcode failed: " ++ error),
          MainEvent.reject id error])
      else (removed, uploadImageDataUndefined pendingTexture.gl)
    | Message.success id buffer alphaBuffer webglFormat mipLevels hasAlpha =>
      let upload := uploadImageData pendingTexture.gl webglFormat buffer mipLevels
      match upload.2 with
      | none => (removed, upload.1)
      | some texture =>
        let alphaUpload :=
          uploadAlphaTexture pendingTexture.gl webglFormat alphaBuffer mipLevels
        match alphaUpload.2 with
        | none => (removed, upload.1 ++ alphaUpload.1)
        | some alphaTexture =>
          match mipLevels with
          | [] => (removed, upload.1 ++ alphaUpload.1 ++ [MainEvent.throwTypeError])
          | first :: _ =>
            (removed,
             upload.1 ++ alphaUpload.1 ++
               [MainEvent.resolve id
                 { mipLevels := mipLevels.length
                   width := first.width
                   height := first.height
                   alpha := hasAlpha
                   texture := texture
                   alphaTexture := alphaTexture }])

/-- What can happen to a `BasisLoader`: a call of one of its methods, an
assignment to `allowSeparateAlpha`, or the delivery of a worker message. -/
inductive Action where
  | loadFromUrl (url : String)
  | setWebGLContext (gl : Option GLContext)
  | setAllowSeparateAlpha (value : Bool)
  | receive (data : Message)

/-- One action on a `BasisLoader`. -/
def BasisLoader.step (this : BasisLoader) : Action → BasisLoader × List MainEvent
  | Action.loadFromUrl url => this.loadFromUrl url
  | Action.setWebGLContext gl => (this.setWebGLContext gl, [])
  | Action.setAllowSeparateAlpha value => ({ this with allowSeparateAlpha := value }, [])
  | Action.receive data => this.onmessage data

/-- A sequence of actions on a `BasisLoader`: the final state and all events. -/
def BasisLoader.run (this : BasisLoader) : List Action → BasisLoader × List MainEvent
  | [] => (this, [])
  | action :: rest =>
    let first := this.step action
    let later := first.1.run rest
    (later.1, first.2 ++ later.2)

/-- The ids of the requests sent to the worker, in order. -/
def sentIds : List MainEvent → List Nat
  | [] => []
  | MainEvent.postMessage id _ _ _ :: rest => id :: sentIds rest
  | _ :: rest => sentIds rest

/-- The event settles the promise of request `id`: it resolves or rejects it. -/
def MainEvent.settles (id : Nat) : MainEvent → Bool
  | MainEvent.resolve id' _ => id' == id
  | MainEvent.reject id' _ => id' == id
  | _ => false

/-- The event is a `console.error`. -/
def MainEvent.isConsoleError : MainEvent → Bool
  | MainEvent.consoleError _ => true
  | _ => false

/-- The event is a call of `uploadImageData` or one of the calls made in it. -/
def MainEvent.isUpload : MainEvent → Bool
  | MainEvent.uploadImageData _ => true
  | MainEvent.createTexture => true
  | MainEvent.bindTexture => true
  | MainEvent.texParameteriMag _ => true
  | MainEvent.texParameteriMin _ => true
  | MainEvent.compressedTexImage2D _ _ _ _ _ => true
  | MainEvent.texImage2D _ _ _ _ _ _ _ => true
  | MainEvent.generateMipmap => true
  | _ => false

/-- A request with the given id has been sent to the worker. -/
def Issued (id : Nat) (events : List MainEvent) : Prop :=
  id ∈ sentIds events

/-- A WebGL context with the s3tc extension only. -/
def s3tcContext : GLContext :=
  { ident := 1, s3tc := true, etc1 := false, etc2 := false, pvrtc := false, astc := false,
    bptc := false }

/-- A worker environment whose `fetch` is rejected for every url. -/
def offlineEnv : WorkerEnv :=
  { fetch := fun _ => none, module := ModuleState.ready, heap := plentiful }

/-- A worker environment whose `fetch` finds nothing: status 404. -/
def notFoundEnv : WorkerEnv :=
  { fetch := fun _ =>
      some { ok := false, status := 404, statusText := "Not Found", arrayBuffer := none }
    module := ModuleState.ready
    heap := plentiful }

/-- A request for a url, without a buffer, from a device with s3tc only. -/
def urlRequest : Request :=
  { id := 1, url := some "texture.basis", buffer := none, allowSeparateAlpha := false,
    supportedFormats := onlyS3tc }

/-- The event neither sends a request to the worker nor settles a promise. -/
def MainEvent.isLocal : MainEvent → Bool
  | MainEvent.postMessage _ _ _ _ => false
  | MainEvent.resolve _ _ => false
  | MainEvent.reject _ _ => false
  | _ => true

/-- The event is a primary `transcodeImage` call (last argument 0). -/
def Event.isPrimaryCall : Event → Bool
  | Event.transcodeImage _ _ _ _ _ getAlphaForOpaqueFormats => getAlphaForOpaqueFormats == 0
  | _ => false

/-- What holds of a `BasisLoader` and the events it has produced since its
construction: the next id is at least 1; every pending id lies from 1 up to
the next id, exclusive; the ids sent so far are 1, 2, ... up to the next id,
exclusive; no promise has been settled twice; and no promise of a pending id
or of an id not yet issued has been settled. -/
def LoaderInvariant (loader : BasisLoader) (events : List MainEvent) : Prop :=
  1 ≤ loader.nextPendingTextureId ∧
  (∀ id, loader.pendingTextures id ≠ none → 1 ≤ id ∧ id < loader.nextPendingTextureId) ∧
  sentIds events = List.range' 1 (loader.nextPendingTextureId - 1) ∧
  (∀ id, (events.filter (MainEvent.settles id)).length ≤ 1) ∧
  (∀ id, loader.pendingTextures id ≠ none → events.filter (MainEvent.settles id) = []) ∧
  (∀ id, loader.nextPendingTextureId ≤ id → events.filter (MainEvent.settles id) = [])

/-- A context is set, two requests are issued, and the first one is answered
with an error. -/
def sampleActions : List Action :=
  [Action.setWebGLContext (some s3tcContext),
   Action.loadFromUrl "a.basis",
   Action.loadFromUrl "b.basis",
   Action.receive (Message.error 1 "Invalid Basis data")]

/-! ## The paths of `transcode` -/

/-- The selection chain with the table values read out. -/
theorem selectFormat_eq (hasAlpha : Bool) (sf : SupportedFormats) (asa : Bool) :
    selectFormat hasAlpha sf asa =
      if hasAlpha then
        if sf.etc2 then (some 1, false)
        else if sf.bptc then (some 6, false)
        else if sf.s3tc then (some 3, false)
        else if sf.astc then (some 10, false)
        else if sf.pvrtc then (if asa then (some 8, true) else (some 9, false))
        else if sf.etc1 && asa then (some 0, true)
        else (none, false)
      else
        if sf.etc1 then (some 0, false)
        else if sf.bptc then (some 6, false)
        else if sf.s3tc then (some 2, false)
        else if sf.etc2 then (some 1, false)
        else if sf.astc then (some 10, false)
        else if sf.pvrtc then (some 8, false)
        else (some 14, false) := rfl

/-- Every format the chain selects has an entry in `BASIS_WEBGL_FORMAT_MAP`. -/
theorem selectFormat_mapped (hasAlpha : Bool) (sf : SupportedFormats) (asa : Bool)
    (basisFormat : Nat) (h : (selectFormat hasAlpha sf asa).1 = some basisFormat) :
    ∃ webglFormat, webglFormatOf basisFormat = some webglFormat := by
  have hmem : basisFormat ∈ [0, 1, 2, 3, 6, 8, 9, 10, 14] := by
    rw [selectFormat_eq] at h
    obtain ⟨s3tc, etc1, etc2, pvrtc, astc, bptc⟩ := sf
    revert h
    cases hasAlpha <;> cases asa <;> cases s3tc <;> cases etc1 <;> cases etc2 <;>
      cases pvrtc <;> cases astc <;> cases bptc <;> intro h <;>
      simp at h <;> subst h <;> decide
  simp only [List.mem_cons, List.mem_singleton, List.not_mem_nil, or_false] at hmem
  rcases hmem with h | h | h | h | h | h | h | h | h <;> subst h <;> exact ⟨_, rfl⟩

theorem valid_cond (basisFile : BasisFile) (hImages : basisFile.getNumImages ≠ 0)
    (hLevels : basisFile.getNumLevels IMAGE_INDEX ≠ 0) :
    (basisFile.getNumImages == 0 || basisFile.getNumLevels IMAGE_INDEX == 0) = false := by
  simp [hImages, hLevels]

/-- The run on a container without images or without levels. -/
theorem transcode_invalid (heap : Heap) (id : Nat) (basisFile : BasisFile) (sf : SupportedFormats)
    (asa : Bool) (h : basisFile.getNumImages = 0 ∨ basisFile.getNumLevels IMAGE_INDEX = 0) :
    transcode heap id basisFile sf asa =
      { trace := [Event.construct, Event.getNumImages, Event.getNumLevels IMAGE_INDEX,
          Event.getHasAlpha, Event.postMessage (Message.error id "Invalid Basis data"),
          Event.close, Event.delete] } := by
  have h' : (basisFile.getNumImages == 0 || basisFile.getNumLevels IMAGE_INDEX == 0) = true := by
    simpa using h
  unfold transcode
  simp only [h', if_true]
  rfl

/-- The run on a valid container whose `startTranscoding` fails. -/
theorem transcode_start_failed (heap : Heap) (id : Nat) (basisFile : BasisFile) (sf : SupportedFormats)
    (asa : Bool) (hImages : basisFile.getNumImages ≠ 0)
    (hLevels : basisFile.getNumLevels IMAGE_INDEX ≠ 0)
    (hStart : basisFile.startTranscoding = false) :
    transcode heap id basisFile sf asa =
      { trace := [Event.construct, Event.getNumImages, Event.getNumLevels IMAGE_INDEX,
          Event.getHasAlpha, Event.startTranscoding,
          Event.postMessage (Message.error id "startTranscoding failed"),
          Event.close, Event.delete] } := by
  unfold transcode
  simp only [valid_cond basisFile hImages hLevels, hStart, Bool.false_eq_true, if_false,
    Bool.not_false, if_true]
  rfl

/-- The run on a valid, started container for which `basisFormat` stays undefined. -/
theorem transcode_no_format (heap : Heap) (id : Nat) (basisFile : BasisFile) (sf : SupportedFormats)
    (asa : Bool) (hImages : basisFile.getNumImages ≠ 0)
    (hLevels : basisFile.getNumLevels IMAGE_INDEX ≠ 0)
    (hStart : basisFile.startTranscoding = true)
    (hSel : (selectFormat basisFile.getHasAlpha sf asa).1 = none) :
    transcode heap id basisFile sf asa =
      { trace := [Event.construct, Event.getNumImages, Event.getNumLevels IMAGE_INDEX,
          Event.getHasAlpha, Event.startTranscoding,
          Event.postMessage (Message.error id "No supported transcode formats"),
          Event.close, Event.delete]
        selected := some (selectFormat basisFile.getHasAlpha sf asa) } := by
  unfold transcode
  simp only [valid_cond basisFile hImages hLevels, hStart, Bool.false_eq_true, if_false,
    Bool.not_true, hSel]
  rfl

/-- The run on a valid, started container for which a format is selected and
both buffers can be allocated. -/
theorem transcode_planned (heap : Heap) (id : Nat) (basisFile : BasisFile) (sf : SupportedFormats)
    (asa : Bool) (hImages : basisFile.getNumImages ≠ 0)
    (hLevels : basisFile.getNumLevels IMAGE_INDEX ≠ 0)
    (hStart : basisFile.startTranscoding = true) (basisFormat : Nat) (webglFormat : WebGLFormat)
    (hSel : (selectFormat basisFile.getHasAlpha sf asa).1 = some basisFormat)
    (hMap : webglFormatOf basisFormat = some webglFormat)
    (hAlloc : allocated heap (selectFormat basisFile.getHasAlpha sf asa).2
      (gatherMipLevels basisFile basisFormat
        (if webglFormat.uncompressed then 1 else basisFile.getNumLevels IMAGE_INDEX)
        0 [] 0 []).2.1 = true) :
    transcode heap id basisFile sf asa =
      (let needs := (selectFormat basisFile.getHasAlpha sf asa).2
       let levels := if webglFormat.uncompressed then 1 else basisFile.getNumLevels IMAGE_INDEX
       let gathered := gatherMipLevels basisFile basisFormat levels 0 [] 0 []
       let done := transcodeLevels basisFile basisFormat needs gathered.2.1 gathered.1
       { trace := [Event.construct, Event.getNumImages, Event.getNumLevels IMAGE_INDEX,
            Event.getHasAlpha, Event.startTranscoding] ++ gathered.2.2 ++ done.1 ++
            (match done.2 with
             | some errorMsg =>
               [Event.postMessage (Message.error id errorMsg), Event.close, Event.delete]
             | none =>
               [Event.close, Event.delete, Event.postMessage
                 (Message.success id gathered.2.1 (if needs then some gathered.2.1 else none)
                   webglFormat gathered.1 basisFile.getHasAlpha)])
         selected := some (selectFormat basisFile.getHasAlpha sf asa)
         plan := some (gathered.1, gathered.2.1) }) := by
  unfold allocated at hAlloc
  rw [Bool.and_eq_true] at hAlloc
  obtain ⟨hFirst, hSecond⟩ := hAlloc
  have hSecond' : ((selectFormat basisFile.getHasAlpha sf asa).2 &&
      !heap.allocates BufferName.alphaTranscodeData
        (gatherMipLevels basisFile basisFormat
          (if webglFormat.uncompressed then 1 else basisFile.getNumLevels IMAGE_INDEX)
          0 [] 0 []).2.1) = false := by
    cases hN : (selectFormat basisFile.getHasAlpha sf asa).2 with
    | false => rfl
    | true =>
      rw [hN] at hSecond
      simpa using hSecond
  unfold transcode
  simp only [valid_cond basisFile hImages hLevels, hStart, Bool.false_eq_true, if_false,
    Bool.not_true, hSel, hMap, hFirst, hSecond']
  split <;> rfl

/-- The run on a valid, started container for which a format is selected and
one of the buffers cannot be allocated: it ends with the RangeError. -/
theorem transcode_unallocated (heap : Heap) (id : Nat) (basisFile : BasisFile)
    (sf : SupportedFormats)
    (asa : Bool) (hImages : basisFile.getNumImages ≠ 0)
    (hLevels : basisFile.getNumLevels IMAGE_INDEX ≠ 0)
    (hStart : basisFile.startTranscoding = true) (basisFormat : Nat) (webglFormat : WebGLFormat)
    (hSel : (selectFormat basisFile.getHasAlpha sf asa).1 = some basisFormat)
    (hMap : webglFormatOf basisFormat = some webglFormat)
    (hAlloc : allocated heap (selectFormat basisFile.getHasAlpha sf asa).2
      (gatherMipLevels basisFile basisFormat
        (if webglFormat.uncompressed then 1 else basisFile.getNumLevels IMAGE_INDEX)
        0 [] 0 []).2.1 = false) :
    transcode heap id basisFile sf asa =
      (let levels := if webglFormat.uncompressed then 1 else basisFile.getNumLevels IMAGE_INDEX
       let gathered := gatherMipLevels basisFile basisFormat levels 0 [] 0 []
       { trace := [Event.construct, Event.getNumImages, Event.getNumLevels IMAGE_INDEX,
            Event.getHasAlpha, Event.startTranscoding] ++ gathered.2.2 ++
            [Event.throwRangeError]
         selected := some (selectFormat basisFile.getHasAlpha sf asa)
         plan := some (gathered.1, gathered.2.1) }) := by
  unfold allocated at hAlloc
  unfold transcode
  simp only [valid_cond basisFile hImages hLevels, hStart, Bool.false_eq_true, if_false,
    Bool.not_true, hSel, hMap]
  cases hFirst : heap.allocates BufferName.transcodeData
      (gatherMipLevels basisFile basisFormat
        (if webglFormat.uncompressed then 1 else basisFile.getNumLevels IMAGE_INDEX)
        0 [] 0 []).2.1 with
  | false =>
    simp only [Bool.not_false, if_true]
    rfl
  | true =>
    rw [hFirst, Bool.true_and] at hAlloc
    cases hN : (selectFormat basisFile.getHasAlpha sf asa).2 with
    | false =>
      rw [hN] at hAlloc
      simp at hAlloc
    | true =>
      rw [hN] at hAlloc
      simp only [Bool.not_true, Bool.false_or] at hAlloc
      simp only [Bool.not_true, Bool.false_eq_true, if_false, hAlloc, Bool.not_false,
        Bool.and_self, if_true]
      rfl

/-- The two runs of a valid, started container for which a format is selected. -/
theorem transcode_formatted (heap : Heap) (id : Nat) (basisFile : BasisFile)
    (sf : SupportedFormats)
    (asa : Bool) (hImages : basisFile.getNumImages ≠ 0)
    (hLevels : basisFile.getNumLevels IMAGE_INDEX ≠ 0)
    (hStart : basisFile.startTranscoding = true) (basisFormat : Nat) (webglFormat : WebGLFormat)
    (hSel : (selectFormat basisFile.getHasAlpha sf asa).1 = some basisFormat)
    (hMap : webglFormatOf basisFormat = some webglFormat) :
    (allocated heap (selectFormat basisFile.getHasAlpha sf asa).2
        (gatherMipLevels basisFile basisFormat
          (if webglFormat.uncompressed then 1 else basisFile.getNumLevels IMAGE_INDEX)
          0 [] 0 []).2.1 = true ∧
      transcode heap id basisFile sf asa =
        (let needs := (selectFormat basisFile.getHasAlpha sf asa).2
         let levels := if webglFormat.uncompressed then 1 else basisFile.getNumLevels IMAGE_INDEX
         let gathered := gatherMipLevels basisFile basisFormat levels 0 [] 0 []
         let done := transcodeLevels basisFile basisFormat needs gathered.2.1 gathered.1
         { trace := [Event.construct, Event.getNumImages, Event.getNumLevels IMAGE_INDEX,
              Event.getHasAlpha, Event.startTranscoding] ++ gathered.2.2 ++ done.1 ++
              (match done.2 with
               | some errorMsg =>
                 [Event.postMessage (Message.error id errorMsg), Event.close, Event.delete]
               | none =>
                 [Event.close, Event.delete, Event.postMessage
                   (Message.success id gathered.2.1 (if needs then some gathered.2.1 else none)
                     webglFormat gathered.1 basisFile.getHasAlpha)])
           selected := some (selectFormat basisFile.getHasAlpha sf asa)
           plan := some (gathered.1, gathered.2.1) })) ∨
    (allocated heap (selectFormat basisFile.getHasAlpha sf asa).2
        (gatherMipLevels basisFile basisFormat
          (if webglFormat.uncompressed then 1 else basisFile.getNumLevels IMAGE_INDEX)
          0 [] 0 []).2.1 = false ∧
      transcode heap id basisFile sf asa =
        (let levels := if webglFormat.uncompressed then 1 else basisFile.getNumLevels IMAGE_INDEX
         let gathered := gatherMipLevels basisFile basisFormat levels 0 [] 0 []
         { trace := [Event.construct, Event.getNumImages, Event.getNumLevels IMAGE_INDEX,
              Event.getHasAlpha, Event.startTranscoding] ++ gathered.2.2 ++
              [Event.throwRangeError]
           selected := some (selectFormat basisFile.getHasAlpha sf asa)
           plan := some (gathered.1, gathered.2.1) })) := by
  cases hAlloc : allocated heap (selectFormat basisFile.getHasAlpha sf asa).2
      (gatherMipLevels basisFile basisFormat
        (if webglFormat.uncompressed then 1 else basisFile.getNumLevels IMAGE_INDEX)
        0 [] 0 []).2.1 with
  | true =>
    exact Or.inl ⟨rfl, transcode_planned heap id basisFile sf asa hImages hLevels hStart _ _
      hSel hMap hAlloc⟩
  | false =>
    exact Or.inr ⟨rfl, transcode_unallocated heap id basisFile sf asa hImages hLevels hStart _ _
      hSel hMap hAlloc⟩

/-- The selection and the plan of a run for which a format is selected. -/
theorem transcode_fields (heap : Heap) (id : Nat) (basisFile : BasisFile)
    (sf : SupportedFormats)
    (asa : Bool) (hImages : basisFile.getNumImages ≠ 0)
    (hLevels : basisFile.getNumLevels IMAGE_INDEX ≠ 0)
    (hStart : basisFile.startTranscoding = true) (basisFormat : Nat) (webglFormat : WebGLFormat)
    (hSel : (selectFormat basisFile.getHasAlpha sf asa).1 = some basisFormat)
    (hMap : webglFormatOf basisFormat = some webglFormat) :
    (transcode heap id basisFile sf asa).selected =
      some (selectFormat basisFile.getHasAlpha sf asa) ∧
    (transcode heap id basisFile sf asa).plan =
      some ((gatherMipLevels basisFile basisFormat
          (if webglFormat.uncompressed then 1 else basisFile.getNumLevels IMAGE_INDEX)
          0 [] 0 []).1,
        (gatherMipLevels basisFile basisFormat
          (if webglFormat.uncompressed then 1 else basisFile.getNumLevels IMAGE_INDEX)
          0 [] 0 []).2.1) := by
  rcases transcode_formatted heap id basisFile sf asa hImages hLevels hStart _ _ hSel hMap with
    ⟨_, hRun⟩ | ⟨_, hRun⟩ <;> rw [hRun] <;> exact ⟨rfl, rfl⟩

/-- The events of a run that ends with the RangeError of an allocation: none
posts a message, calls `transcodeImage`, closes or deletes the handle, or is
the TypeError. -/
theorem unallocated_event (queries : List Event) (hQueries : ∀ e ∈ queries, e.isQuery = true)
    (e : Event)
    (h : e ∈ [Event.construct, Event.getNumImages, Event.getNumLevels IMAGE_INDEX,
      Event.getHasAlpha, Event.startTranscoding] ++ queries ++ [Event.throwRangeError]) :
    e.isPostMessage = false ∧ e.isTranscodeImage = false ∧ e.isQuiet = true ∧
      e ≠ Event.throwTypeError := by
  simp only [List.mem_append, List.mem_cons, List.mem_singleton, List.not_mem_nil,
    or_false] at h
  rcases h with (h | h) | h
  · rcases h with h | h | h | h | h <;> subst h <;> exact ⟨rfl, rfl, rfl, by simp⟩
  · have := hQueries e h
    cases e <;> simp_all [Event.isQuery, Event.isPostMessage, Event.isTranscodeImage,
      Event.isQuiet]
  · subst h
    exact ⟨rfl, rfl, rfl, by simp⟩

/-- A run that reached the selection ran on a valid, started container. -/
theorem selected_reached (heap : Heap) (id : Nat) (basisFile : BasisFile) (sf : SupportedFormats)
    (asa : Bool) (selection : Option Nat × Bool)
    (h : (transcode heap id basisFile sf asa).selected = some selection) :
    basisFile.getNumImages ≠ 0 ∧ basisFile.getNumLevels IMAGE_INDEX ≠ 0 ∧
      basisFile.startTranscoding = true ∧
      selection = selectFormat basisFile.getHasAlpha sf asa := by
  by_cases hv : basisFile.getNumImages = 0 ∨ basisFile.getNumLevels IMAGE_INDEX = 0
  · rw [transcode_invalid heap id basisFile sf asa hv] at h
    exact absurd h (by simp)
  · have hImages : basisFile.getNumImages ≠ 0 := fun h0 => hv (Or.inl h0)
    have hLevels : basisFile.getNumLevels IMAGE_INDEX ≠ 0 := fun h0 => hv (Or.inr h0)
    cases hStart : basisFile.startTranscoding with
    | false =>
      rw [transcode_start_failed heap id basisFile sf asa hImages hLevels hStart] at h
      exact absurd h (by simp)
    | true =>
      refine ⟨hImages, hLevels, rfl, ?_⟩
      cases hSel : (selectFormat basisFile.getHasAlpha sf asa).1 with
      | none =>
        rw [transcode_no_format heap id basisFile sf asa hImages hLevels hStart hSel] at h
        simpa using h.symm
      | some basisFormat =>
        obtain ⟨webglFormat, hMap⟩ := selectFormat_mapped _ _ _ _ hSel
        rw [(transcode_fields heap id basisFile sf asa hImages hLevels hStart _ _ hSel hMap).1]
          at h
        simpa using h.symm

/-- A run on a valid, started container reaches the selection. -/
theorem transcode_selected (heap : Heap) (id : Nat) (basisFile : BasisFile) (sf : SupportedFormats)
    (asa : Bool) (hImages : basisFile.getNumImages ≠ 0)
    (hLevels : basisFile.getNumLevels IMAGE_INDEX ≠ 0)
    (hStart : basisFile.startTranscoding = true) :
    (transcode heap id basisFile sf asa).selected =
      some (selectFormat basisFile.getHasAlpha sf asa) := by
  cases hSel : (selectFormat basisFile.getHasAlpha sf asa).1 with
  | none => rw [transcode_no_format heap id basisFile sf asa hImages hLevels hStart hSel]
  | some basisFormat =>
    obtain ⟨webglFormat, hMap⟩ := selectFormat_mapped _ _ _ _ hSel
    exact (transcode_fields heap id basisFile sf asa hImages hLevels hStart _ _ hSel hMap).1

/-! ## Format selection -/

/-- C1: on a valid, started container with alpha the selection is reached and
follows the first-match chain: etc2 gives cTFETC2_RGBA (1); else bptc gives
cTFBC7_RGBA (6); else s3tc gives cTFBC3_RGBA (3); else astc gives
cTFASTC_4x4_RGBA (10), each without a secondary pass; else pvrtc gives
cTFPVRTC1_4_RGB (8) with `needsSecondaryAlpha` when `allowSeparateAlpha` and
cTFPVRTC1_4_RGBA (9) without it otherwise; else etc1 together with
`allowSeparateAlpha` gives cTFETC1_RGB (0) with `needsSecondaryAlpha`. -/
theorem transcode_alpha_chain (heap : Heap) (id : Nat) (basisFile : BasisFile)
    (supportedFormats : SupportedFormats) (allowSeparateAlpha : Bool)
    (hImages : basisFile.getNumImages ≠ 0)
    (hLevels : basisFile.getNumLevels IMAGE_INDEX ≠ 0)
    (hStart : basisFile.startTranscoding = true)
    (hAlpha : basisFile.getHasAlpha = true) :
    ∃ basisFormat needsSecondaryAlpha,
      (transcode heap id basisFile supportedFormats allowSeparateAlpha).selected =
        some (basisFormat, needsSecondaryAlpha) ∧
      (supportedFormats.etc2 = true →
        basisFormat = some 1 ∧ needsSecondaryAlpha = false) ∧
      (supportedFormats.etc2 = false → supportedFormats.bptc = true →
        basisFormat = some 6 ∧ needsSecondaryAlpha = false) ∧
      (supportedFormats.etc2 = false → supportedFormats.bptc = false →
        supportedFormats.s3tc = true →
        basisFormat = some 3 ∧ needsSecondaryAlpha = false) ∧
      (supportedFormats.etc2 = false → supportedFormats.bptc = false →
        supportedFormats.s3tc = false → supportedFormats.astc = true →
        basisFormat = some 10 ∧ needsSecondaryAlpha = false) ∧
      (supportedFormats.etc2 = false → supportedFormats.bptc = false →
        supportedFormats.s3tc = false → supportedFormats.astc = false →
        supportedFormats.pvrtc = true → allowSeparateAlpha = true →
        basisFormat = some 8 ∧ needsSecondaryAlpha = true) ∧
      (supportedFormats.etc2 = false → supportedFormats.bptc = false →
        supportedFormats.s3tc = false → supportedFormats.astc = false →
        supportedFormats.pvrtc = true → allowSeparateAlpha = false →
        basisFormat = some 9 ∧ needsSecondaryAlpha = false) ∧
      (supportedFormats.etc2 = false → supportedFormats.bptc = false →
        supportedFormats.s3tc = false → supportedFormats.astc = false →
        supportedFormats.pvrtc = false → supportedFormats.etc1 = true →
        allowSeparateAlpha = true →
        basisFormat = some 0 ∧ needsSecondaryAlpha = true) := by
  refine ⟨(selectFormat basisFile.getHasAlpha supportedFormats allowSeparateAlpha).1,
    (selectFormat basisFile.getHasAlpha supportedFormats allowSeparateAlpha).2,
    transcode_selected heap id basisFile supportedFormats allowSeparateAlpha hImages hLevels hStart,
    ?_⟩
  rw [selectFormat_eq, hAlpha]
  refine ⟨?_, ?_, ?_, ?_, ?_, ?_, ?_⟩ <;> intros <;> simp [*]

/-- C1, the scenario of the specification: a container with alpha on a device
with s3tc only and `allowSeparateAlpha = false` selects cTFBC3_RGBA (3) with
no secondary pass. -/
theorem transcode_alpha_chain_witness :
    (transcode plentiful 1 (sampleFile true) onlyS3tc false).selected = some (some 3, false) := by
  obtain ⟨basisFormat, needs, hSel, _, _, h3, _⟩ :=
    transcode_alpha_chain plentiful 1 (sampleFile true) onlyS3tc false (by decide) (by decide) rfl rfl
  obtain ⟨hf, hn⟩ := h3 rfl rfl rfl
  rw [hSel, hf, hn]

/-- C2: on a valid, started container without alpha the selection is reached
and follows the first-match chain etc1 -> cTFETC1_RGB (0), bptc ->
cTFBC7_RGBA (6), s3tc -> cTFBC1_RGB (2), etc2 -> cTFETC2_RGBA (1), astc ->
cTFASTC_4x4_RGBA (10), pvrtc -> cTFPVRTC1_4_RGB (8), otherwise cTFRGB565 (14);
`needsSecondaryAlpha` is false in every case, and the whole run is the same
for both values of `allowSeparateAlpha`. -/
theorem transcode_opaque_chain (heap : Heap) (id : Nat) (basisFile : BasisFile)
    (supportedFormats : SupportedFormats) (allowSeparateAlpha : Bool)
    (hImages : basisFile.getNumImages ≠ 0)
    (hLevels : basisFile.getNumLevels IMAGE_INDEX ≠ 0)
    (hStart : basisFile.startTranscoding = true)
    (hAlpha : basisFile.getHasAlpha = false) :
    (transcode heap id basisFile supportedFormats allowSeparateAlpha).selected =
      some (some
        (if supportedFormats.etc1 then 0
         else if supportedFormats.bptc then 6
         else if supportedFormats.s3tc then 2
         else if supportedFormats.etc2 then 1
         else if supportedFormats.astc then 10
         else if supportedFormats.pvrtc then 8
         else 14), false) ∧
    transcode heap id basisFile supportedFormats allowSeparateAlpha =
      transcode heap id basisFile supportedFormats (!allowSeparateAlpha) := by
  constructor
  · rw [transcode_selected heap id basisFile supportedFormats allowSeparateAlpha hImages hLevels
      hStart, selectFormat_eq, hAlpha]
    simp only [Bool.false_eq_true, if_false]
    repeat' split
    all_goals rfl
  · have hSame : selectFormat basisFile.getHasAlpha supportedFormats allowSeparateAlpha =
        selectFormat basisFile.getHasAlpha supportedFormats (!allowSeparateAlpha) := by
      rw [hAlpha]
      rfl
    simp only [transcode, hSame]

/-- C2 on the sample container without alpha and a device with s3tc only:
cTFBC1_RGB (2) is selected, without a secondary pass, and the run with
`allowSeparateAlpha = true` is the run with `allowSeparateAlpha = false`. -/
theorem transcode_opaque_chain_witness :
    (transcode plentiful 1 (sampleFile false) onlyS3tc true).selected = some (some 2, false) ∧
    transcode plentiful 1 (sampleFile false) onlyS3tc true =
      transcode plentiful 1 (sampleFile false) onlyS3tc false :=
  transcode_opaque_chain plentiful 1 (sampleFile false) onlyS3tc true (by decide) (by decide) rfl rfl

/-- C3, the code at the failing input: on the valid sample container with
alpha and a device without any compressed format, `basisFormat` is left
undefined (line 367 reads `BASIS_FORMAT.RGBA32`, which is not a property of
`BASIS_FORMAT`), and the run posts 'No supported transcode formats' instead of
falling back to cTFRGBA32. -/
theorem transcode_alpha_fallback_undefined :
    BASIS_FORMAT "RGBA32" = none ∧
    BASIS_FORMAT "cTFRGBA32" = some 13 ∧
    (transcode plentiful 1 (sampleFile true) noFormats false).selected = some (none, false) ∧
    (transcode plentiful 1 (sampleFile true) noFormats false).trace =
      [Event.construct, Event.getNumImages, Event.getNumLevels 0, Event.getHasAlpha,
       Event.startTranscoding,
       Event.postMessage (Message.error 1 "No supported transcode formats"),
       Event.close, Event.delete] := by
  refine ⟨by decide, by decide, by decide, by decide⟩

/-! ## The two loops -/

theorem contiguous_snoc (l : List MipLevel) (first last : Nat) (m : MipLevel)
    (h : Contiguous first l last) (hm : m.offset = last) :
    Contiguous first (l ++ [m]) (last + m.size) := by
  induction l generalizing first with
  | nil =>
    simp only [Contiguous] at h
    subst h
    simp [Contiguous, hm]
  | cons a l ih =>
    obtain ⟨h1, h2⟩ := h
    exact ⟨h1, ih _ h2⟩

theorem contiguous_head (l : List MipLevel) (first last : Nat) (h : Contiguous first l last)
    (m : MipLevel) (hm : l.head? = some m) : m.offset = first := by
  cases l with
  | nil => simp at hm
  | cons a l =>
    simp only [List.head?_cons, Option.some.injEq] at hm
    subst hm
    exact h.1

theorem contiguous_sum (l : List MipLevel) (first last : Nat) (h : Contiguous first l last) :
    first + (l.map (fun m => m.size)).sum = last := by
  induction l generalizing first with
  | nil => simpa [Contiguous] using h
  | cons a l ih =>
    have := ih _ h.2
    simp only [List.map_cons, List.sum_cons]
    omega

theorem contiguous_adjacent (l : List MipLevel) (first last : Nat) (h : Contiguous first l last)
    (i : Nat) (a b : MipLevel) (ha : l[i]? = some a) (hb : l[i + 1]? = some b) :
    a.offset + a.size = b.offset := by
  induction l generalizing first i with
  | nil => simp at ha
  | cons x l ih =>
    cases i with
    | zero =>
      simp only [List.getElem?_cons_zero, Option.some.injEq] at ha
      simp only [List.getElem?_cons_succ] at hb
      subst ha
      have h2 := contiguous_head l _ last h.2 b (by rw [List.head?_eq_getElem?]; exact hb)
      rw [h2, h.1]
    | succ i =>
      simp only [List.getElem?_cons_succ] at ha hb
      exact ih _ h.2 i ha hb

/-- The gathering loop keeps the levels contiguous from byte 0 to the running total. -/
theorem gather_contiguous (basisFile : BasisFile) (basisFormat : Nat) (n start : Nat)
    (acc : List MipLevel) (total : Nat) (trace : List Event) (h : Contiguous 0 acc total) :
    Contiguous 0 (gatherMipLevels basisFile basisFormat n start acc total trace).1
      (gatherMipLevels basisFile basisFormat n start acc total trace).2.1 := by
  induction n generalizing start acc total trace with
  | zero => exact h
  | succ n ih =>
    simp only [gatherMipLevels]
    exact ih _ _ _ _ (contiguous_snoc acc 0 total _ h rfl)

/-- The gathering loop appends one descriptor per iteration, each at the index
of its level and with the container's answers for that level. -/
theorem gather_described (basisFile : BasisFile) (basisFormat : Nat) (n start : Nat)
    (acc : List MipLevel) (total : Nat) (trace : List Event) (hs : start = acc.length)
    (h : Described basisFile basisFormat acc) :
    (gatherMipLevels basisFile basisFormat n start acc total trace).1.length = acc.length + n ∧
    Described basisFile basisFormat
      (gatherMipLevels basisFile basisFormat n start acc total trace).1 := by
  induction n generalizing start acc total trace with
  | zero => exact ⟨rfl, h⟩
  | succ n ih =>
    simp only [gatherMipLevels]
    have := ih (start + 1)
      (acc ++ [{ level := start, offset := total
                 size := basisFile.getImageTranscodedSizeInBytes IMAGE_INDEX start basisFormat
                 width := basisFile.getImageWidth IMAGE_INDEX start
                 height := basisFile.getImageHeight IMAGE_INDEX start }])
      (total + basisFile.getImageTranscodedSizeInBytes IMAGE_INDEX start basisFormat)
      (trace ++ [Event.getImageTranscodedSizeInBytes IMAGE_INDEX start basisFormat,
         Event.getImageWidth IMAGE_INDEX start, Event.getImageHeight IMAGE_INDEX start])
      (by simp [hs])
      (by
        intro i m hm
        by_cases hi : i < acc.length
        · rw [List.getElem?_append_left hi] at hm
          exact h i m hm
        · have hi' : acc.length ≤ i := Nat.le_of_not_lt hi
          rw [List.getElem?_append_right hi'] at hm
          have h0 : i - acc.length = 0 := by
            by_contra hne
            obtain ⟨k, hk⟩ := Nat.exists_eq_succ_of_ne_zero hne
            rw [hk] at hm
            simp at hm
          rw [h0] at hm
          simp only [List.getElem?_cons_zero, Option.some.injEq] at hm
          have hi2 : i = start := by omega
          subst hm
          subst hi2
          exact ⟨rfl, rfl, rfl, rfl⟩)
    refine ⟨?_, this.2⟩
    rw [this.1]
    simp
    omega

/-- The gathering loop only queries sizes and dimensions. -/
theorem gather_trace (basisFile : BasisFile) (basisFormat : Nat) (n start : Nat)
    (acc : List MipLevel) (total : Nat) (trace : List Event)
    (h : ∀ e ∈ trace, e.isQuery = true) :
    ∀ e ∈ (gatherMipLevels basisFile basisFormat n start acc total trace).2.2,
      e.isQuery = true := by
  induction n generalizing start acc total trace with
  | zero => exact h
  | succ n ih =>
    simp only [gatherMipLevels]
    apply ih
    intro e he
    simp only [List.mem_append, List.mem_cons, List.mem_singleton, List.not_mem_nil,
      or_false] at he
    rcases he with he | he | he | he
    · exact h e he
    all_goals subst he; rfl

/-- The transcoding loop makes the planned calls up to the first failure. -/
theorem transcodeLevels_calls (basisFile : BasisFile) (basisFormat : Nat) (needs : Bool)
    (total : Nat) (l : List MipLevel) :
    (transcodeLevels basisFile basisFormat needs total l).1 =
      untilFirstFailure basisFile.answer (plannedCalls basisFormat needs total l) := by
  induction l with
  | nil => rfl
  | cons m rest ih =>
    rw [transcodeLevels, plannedCalls]
    by_cases h1 : basisFile.transcodeImage ⟨BufferName.transcodeData, total, m.offset, m.size⟩
      IMAGE_INDEX m.level basisFormat 1 0 = true
    · by_cases h2 : basisFile.transcodeImage
          ⟨BufferName.alphaTranscodeData, total, m.offset, m.size⟩
          IMAGE_INDEX m.level basisFormat 1 1 = true
      · cases needs <;>
          simp_all [untilFirstFailure, BasisFile.answer, IMAGE_INDEX]
      · cases needs <;>
          simp_all [untilFirstFailure, BasisFile.answer, IMAGE_INDEX]
    · simp_all [untilFirstFailure, BasisFile.answer, IMAGE_INDEX]

/-- The transcoding loop ends with the error text of the first failed call. -/
theorem transcodeLevels_result (basisFile : BasisFile) (basisFormat : Nat) (needs : Bool)
    (total : Nat) (l : List MipLevel) :
    (transcodeLevels basisFile basisFormat needs total l).2 =
      ((plannedCalls basisFormat needs total l).find? (fun call => !basisFile.answer call)).map
        failureMessage := by
  induction l with
  | nil => rfl
  | cons m rest ih =>
    rw [transcodeLevels, plannedCalls]
    by_cases h1 : basisFile.transcodeImage ⟨BufferName.transcodeData, total, m.offset, m.size⟩
      IMAGE_INDEX m.level basisFormat 1 0 = true
    · by_cases h2 : basisFile.transcodeImage
          ⟨BufferName.alphaTranscodeData, total, m.offset, m.size⟩
          IMAGE_INDEX m.level basisFormat 1 1 = true
      · cases needs <;>
          simp_all [List.find?_cons, failureMessage, BasisFile.answer, IMAGE_INDEX]
      · cases needs <;>
          simp_all [List.find?_cons, failureMessage, BasisFile.answer, IMAGE_INDEX]
    · simp_all [List.find?_cons, failureMessage, BasisFile.answer, IMAGE_INDEX]

theorem plannedCalls_isTranscodeImage (basisFormat : Nat) (needs : Bool) (total : Nat)
    (l : List MipLevel) :
    ∀ e ∈ plannedCalls basisFormat needs total l, e.isTranscodeImage = true := by
  induction l with
  | nil => intro e he; simp [plannedCalls] at he
  | cons m rest ih =>
    intro e he
    simp only [plannedCalls, List.mem_cons, List.mem_append] at he
    rcases he with he | he | he
    · subst he; rfl
    · cases needs
      · simp at he
      · simp only [if_true, List.mem_singleton] at he
        subst he; rfl
    · exact ih e he

theorem untilFirstFailure_subset (answer : Event → Bool) (l : List Event) :
    ∀ e ∈ untilFirstFailure answer l, e ∈ l := by
  induction l with
  | nil => intro e he; simp [untilFirstFailure] at he
  | cons c rest ih =>
    intro e he
    simp only [untilFirstFailure] at he
    split at he
    · simp only [List.mem_cons] at he
      rcases he with he | he
      · simp [he]
      · exact List.mem_cons_of_mem _ (ih e he)
    · simp only [List.mem_singleton] at he
      simp [he]

/-- The transcoding loop only calls `transcodeImage`. -/
theorem transcodeLevels_trace (basisFile : BasisFile) (basisFormat : Nat) (needs : Bool)
    (total : Nat) (l : List MipLevel) :
    ∀ e ∈ (transcodeLevels basisFile basisFormat needs total l).1,
      e.isTranscodeImage = true := by
  intro e he
  rw [transcodeLevels_calls] at he
  exact plannedCalls_isTranscodeImage _ _ _ _ e (untilFirstFailure_subset _ _ e he)

/-- The chain asks for a secondary pass only in its two separate-alpha branches. -/
theorem selectFormat_needs (hasAlpha : Bool) (sf : SupportedFormats) (asa : Bool)
    (basisFormat : Option Nat) (h : selectFormat hasAlpha sf asa = (basisFormat, true)) :
    hasAlpha = true ∧ asa = true ∧
      ((basisFormat = some 8 ∧ sf.pvrtc = true) ∨ (basisFormat = some 0 ∧ sf.etc1 = true)) := by
  rw [selectFormat_eq] at h
  obtain ⟨s3tc, etc1, etc2, pvrtc, astc, bptc⟩ := sf
  revert h
  cases hasAlpha <;> cases asa <;> cases s3tc <;> cases etc1 <;> cases etc2 <;>
    cases pvrtc <;> cases astc <;> cases bptc <;> intro h <;> simp at h <;> simp [← h]

/-- A success message is posted only by a run that went through the whole
plan, and its fields are the values of that run. -/
theorem success_posted (heap : Heap) (id : Nat) (basisFile : BasisFile)
    (sf : SupportedFormats) (asa : Bool)
    (id' buffer : Nat) (alphaBuffer : Option Nat) (webglFormat : WebGLFormat)
    (mipLevels : List MipLevel) (hasAlpha : Bool)
    (h : Event.postMessage (Message.success id' buffer alphaBuffer webglFormat mipLevels hasAlpha)
      ∈ (transcode heap id basisFile sf asa).trace) :
    ∃ basisFormat,
      (transcode heap id basisFile sf asa).selected =
        some (some basisFormat, (selectFormat basisFile.getHasAlpha sf asa).2) ∧
      (selectFormat basisFile.getHasAlpha sf asa).1 = some basisFormat ∧
      webglFormatOf basisFormat = some webglFormat ∧
      (transcode heap id basisFile sf asa).plan = some (mipLevels, buffer) ∧
      (transcodeLevels basisFile basisFormat (selectFormat basisFile.getHasAlpha sf asa).2
        buffer mipLevels).2 = none ∧
      alphaBuffer =
        (if (selectFormat basisFile.getHasAlpha sf asa).2 then some buffer else none) ∧
      id' = id ∧ hasAlpha = basisFile.getHasAlpha := by
  by_cases hv : basisFile.getNumImages = 0 ∨ basisFile.getNumLevels IMAGE_INDEX = 0
  · rw [transcode_invalid heap id basisFile sf asa hv] at h
    simp at h
  · have hImages : basisFile.getNumImages ≠ 0 := fun h0 => hv (Or.inl h0)
    have hLevels : basisFile.getNumLevels IMAGE_INDEX ≠ 0 := fun h0 => hv (Or.inr h0)
    cases hStart : basisFile.startTranscoding with
    | false =>
      rw [transcode_start_failed heap id basisFile sf asa hImages hLevels hStart] at h
      simp at h
    | true =>
      cases hSel : (selectFormat basisFile.getHasAlpha sf asa).1 with
      | none =>
        rw [transcode_no_format heap id basisFile sf asa hImages hLevels hStart hSel] at h
        simp at h
      | some basisFormat =>
        obtain ⟨wf, hMap⟩ := selectFormat_mapped _ _ _ _ hSel
        rcases transcode_formatted heap id basisFile sf asa hImages hLevels hStart _ _ hSel
          hMap with ⟨_, hRun⟩ | ⟨_, hRun⟩
        swap
        · rw [hRun] at h
          have := (unallocated_event _
            (gather_trace basisFile basisFormat _ 0 [] 0 [] (by simp)) _ h).1
          simp [Event.isPostMessage] at this
        rw [hRun] at h
        simp only [List.mem_append, List.mem_cons, List.mem_singleton, List.not_mem_nil,
          or_false] at h
        rcases h with ((h | h) | h) | h
        · rcases h with h | h | h | h | h <;> simp at h
        · have := gather_trace basisFile basisFormat _ 0 [] 0 [] (by simp) _ h
          simp [Event.isQuery] at this
        · have := transcodeLevels_trace basisFile basisFormat _ _ _ _ h
          simp [Event.isTranscodeImage] at this
        · refine ⟨basisFormat, ?_⟩
          rw [hRun]
          split at h
          · simp at h
          · rename_i hDone
            simp only [List.mem_cons, List.mem_singleton, List.not_mem_nil, or_false,
              reduceCtorEq, false_or, Event.postMessage.injEq, Message.success.injEq] at h
            obtain ⟨h1, h2, h3, h4, h5, h6⟩ := h
            subst h1 h2 h3 h4 h5 h6
            refine ⟨?_, rfl, hMap, rfl, hDone, rfl, rfl, rfl⟩
            rw [← hSel]

/-- C4: `needsSecondaryAlpha` is true only when the container has alpha,
`allowSeparateAlpha` is true and the selected format is cTFPVRTC1_4_RGB (8, in
the pvrtc branch) or cTFETC1_RGB (0, in the etc1 branch); and the `alphaBuffer`
of a posted success message is null whenever `allowSeparateAlpha` is false, the
container has no alpha, the format of the message is uncompressed, or the
selected format holds alpha itself. -/
theorem secondary_alpha_only_when_separate (heap : Heap) (id : Nat) (basisFile : BasisFile)
    (supportedFormats : SupportedFormats) (allowSeparateAlpha : Bool) :
    (∀ basisFormat,
      (transcode heap id basisFile supportedFormats allowSeparateAlpha).selected =
        some (basisFormat, true) →
      basisFile.getHasAlpha = true ∧ allowSeparateAlpha = true ∧
        ((basisFormat = some 8 ∧ supportedFormats.pvrtc = true) ∨
         (basisFormat = some 0 ∧ supportedFormats.etc1 = true))) ∧
    (∀ id' buffer alphaBuffer webglFormat mipLevels hasAlpha,
      Event.postMessage (Message.success id' buffer alphaBuffer webglFormat mipLevels hasAlpha)
        ∈ (transcode heap id basisFile supportedFormats allowSeparateAlpha).trace →
      (allowSeparateAlpha = false ∨ basisFile.getHasAlpha = false ∨
        webglFormat.uncompressed = true ∨
        ∃ basisFormat needsSecondaryAlpha,
          (transcode heap id basisFile supportedFormats allowSeparateAlpha).selected =
            some (some basisFormat, needsSecondaryAlpha) ∧
          carriesAlpha basisFormat = true) →
      alphaBuffer = none) := by
  constructor
  · intro basisFormat h
    obtain ⟨_, _, _, hEq⟩ := selected_reached heap id basisFile supportedFormats allowSeparateAlpha _ h
    exact selectFormat_needs _ _ _ _ hEq.symm
  · intro id' buffer alphaBuffer webglFormat mipLevels hasAlpha hMem hCond
    obtain ⟨basisFormat, hSelected, hSel, hMap, _, _, hAlphaBuffer, _, _⟩ :=
      success_posted heap id basisFile supportedFormats allowSeparateAlpha _ _ _ _ _ _ hMem
    rw [hAlphaBuffer]
    cases hNeeds : (selectFormat basisFile.getHasAlpha supportedFormats allowSeparateAlpha).2
    · rfl
    · exfalso
      have hPair : selectFormat basisFile.getHasAlpha supportedFormats allowSeparateAlpha =
          (some basisFormat, true) := by
        rw [← hSel, ← hNeeds]
      obtain ⟨hA, hS, hF⟩ := selectFormat_needs _ _ _ _ hPair
      rcases hCond with hC | hC | hC | ⟨basisFormat', needs', hC, hCarries⟩
      · rw [hS] at hC
        exact absurd hC (by decide)
      · rw [hA] at hC
        exact absurd hC (by decide)
      · rcases hF with ⟨hF, _⟩ | ⟨hF, _⟩
        · obtain rfl : basisFormat = 8 := by simpa using hF
          have : webglFormat = { format := COMPRESSED_RGB_PVRTC_4BPPV1_IMG } := by
            have h8 : webglFormatOf 8 = some { format := COMPRESSED_RGB_PVRTC_4BPPV1_IMG } := rfl
            rw [h8] at hMap
            exact (Option.some.inj hMap).symm
          rw [this] at hC
          exact absurd hC (by decide)
        · obtain rfl : basisFormat = 0 := by simpa using hF
          have : webglFormat = { format := COMPRESSED_RGB_ETC1_WEBGL } := by
            have h0 : webglFormatOf 0 = some { format := COMPRESSED_RGB_ETC1_WEBGL } := rfl
            rw [h0] at hMap
            exact (Option.some.inj hMap).symm
          rw [this] at hC
          exact absurd hC (by decide)
      · rw [hSelected] at hC
        have hSame : basisFormat = basisFormat' := by
          simp only [Option.some.injEq, Prod.mk.injEq] at hC
          exact hC.1
        subst hSame
        rcases hF with ⟨hF, _⟩ | ⟨hF, _⟩
        · obtain rfl : basisFormat = 8 := by simpa using hF
          exact absurd hCarries (by decide)
        · obtain rfl : basisFormat = 0 := by simpa using hF
          exact absurd hCarries (by decide)

/-- C4 on the sample container with alpha: with pvrtc only and
`allowSeparateAlpha = true` the secondary pass is asked for, in the pvrtc
branch with cTFPVRTC1_4_RGB (8). -/
theorem secondary_alpha_only_when_separate_witness :
    (transcode plentiful 1 (sampleFile true) onlyPvrtc true).selected = some (some 8, true) ∧
    ((sampleFile true).getHasAlpha = true ∧ true = true ∧
      ((some 8 = some 8 ∧ onlyPvrtc.pvrtc = true) ∨
       ((some 8 : Option Nat) = some 0 ∧ onlyPvrtc.etc1 = true))) :=
  ⟨by decide,
   (secondary_alpha_only_when_separate plentiful 1 (sampleFile true) onlyPvrtc true).1 (some 8)
     (by decide)⟩

/-- C5: a selected compressed format belongs to a family the device supports:
cTFETC1_RGB (0) to etc1, cTFETC2_RGBA (1) to etc2, cTFBC1_RGB (2) and
cTFBC3_RGBA (3) to s3tc, cTFBC7_RGBA (6) to bptc, cTFASTC_4x4_RGBA (10) to
astc, cTFPVRTC1_4_RGB (8) and cTFPVRTC1_4_RGBA (9) to pvrtc. -/
theorem selected_format_supported (heap : Heap) (id : Nat) (basisFile : BasisFile)
    (supportedFormats : SupportedFormats) (allowSeparateAlpha : Bool)
    (basisFormat : Nat) (needsSecondaryAlpha : Bool)
    (hSelected : (transcode heap id basisFile supportedFormats allowSeparateAlpha).selected =
      some (some basisFormat, needsSecondaryAlpha)) :
    (basisFormat = 0 → supportedFormats.etc1 = true) ∧
    (basisFormat = 1 → supportedFormats.etc2 = true) ∧
    (basisFormat = 2 → supportedFormats.s3tc = true) ∧
    (basisFormat = 3 → supportedFormats.s3tc = true) ∧
    (basisFormat = 6 → supportedFormats.bptc = true) ∧
    (basisFormat = 10 → supportedFormats.astc = true) ∧
    (basisFormat = 8 → supportedFormats.pvrtc = true) ∧
    (basisFormat = 9 → supportedFormats.pvrtc = true) := by
  obtain ⟨_, _, _, hEq⟩ :=
    selected_reached heap id basisFile supportedFormats allowSeparateAlpha _ hSelected
  rw [selectFormat_eq] at hEq
  obtain ⟨s3tc, etc1, etc2, pvrtc, astc, bptc⟩ := supportedFormats
  revert hEq
  cases basisFile.getHasAlpha <;> cases allowSeparateAlpha <;> cases s3tc <;> cases etc1 <;>
    cases etc2 <;> cases pvrtc <;> cases astc <;> cases bptc <;> intro hEq <;>
    simp at hEq <;> simp [hEq.1]

/-- C5 on the sample container without alpha and a device with s3tc only: the
selected cTFBC1_RGB (2) is a format of the supported s3tc family. -/
theorem selected_format_supported_witness :
    (transcode plentiful 1 (sampleFile false) onlyS3tc false).selected = some (some 2, false) ∧
    onlyS3tc.s3tc = true :=
  ⟨by decide,
   (selected_format_supported plentiful 1 (sampleFile false) onlyS3tc false 2 false
     (by decide)).2.2.1 rfl⟩

/-! ## The mip-level plan -/

/-- C6: in the mip-level list built by `transcode` the first descriptor has
offset 0, each descriptor ends where its successor starts
(`offset[i] + size[i] = offset[i+1]`), and the sizes add up to
`totalTranscodeSize`. -/
theorem plan_contiguous (heap : Heap) (id : Nat) (basisFile : BasisFile)
    (supportedFormats : SupportedFormats) (allowSeparateAlpha : Bool)
    (mipLevels : List MipLevel) (totalTranscodeSize : Nat)
    (hPlan : (transcode heap id basisFile supportedFormats allowSeparateAlpha).plan =
      some (mipLevels, totalTranscodeSize)) :
    (∀ first, mipLevels.head? = some first → first.offset = 0) ∧
    (∀ i a b, mipLevels[i]? = some a → mipLevels[i + 1]? = some b →
      a.offset + a.size = b.offset) ∧
    (mipLevels.map (fun m => m.size)).sum = totalTranscodeSize := by
  have hContiguous : Contiguous 0 mipLevels totalTranscodeSize := by
    by_cases hv : basisFile.getNumImages = 0 ∨ basisFile.getNumLevels IMAGE_INDEX = 0
    · rw [transcode_invalid heap id basisFile supportedFormats allowSeparateAlpha hv] at hPlan
      simp at hPlan
    · have hImages : basisFile.getNumImages ≠ 0 := fun h0 => hv (Or.inl h0)
      have hLevels : basisFile.getNumLevels IMAGE_INDEX ≠ 0 := fun h0 => hv (Or.inr h0)
      cases hStart : basisFile.startTranscoding with
      | false =>
        rw [transcode_start_failed heap id basisFile supportedFormats allowSeparateAlpha hImages
          hLevels hStart] at hPlan
        simp at hPlan
      | true =>
        cases hSel : (selectFormat basisFile.getHasAlpha supportedFormats allowSeparateAlpha).1 with
        | none =>
          rw [transcode_no_format heap id basisFile supportedFormats allowSeparateAlpha hImages
            hLevels hStart hSel] at hPlan
          simp at hPlan
        | some basisFormat =>
          obtain ⟨wf, hMap⟩ := selectFormat_mapped _ _ _ _ hSel
          rw [(transcode_fields heap id basisFile supportedFormats allowSeparateAlpha hImages
            hLevels hStart _ _ hSel hMap).2] at hPlan
          simp only [Option.some.injEq, Prod.mk.injEq] at hPlan
          obtain ⟨h1, h2⟩ := hPlan
          rw [← h1, ← h2]
          exact gather_contiguous basisFile basisFormat _ 0 [] 0 [] rfl
  refine ⟨fun first hFirst => contiguous_head _ _ _ hContiguous first hFirst,
    fun i a b ha hb => contiguous_adjacent _ _ _ hContiguous i a b ha hb, ?_⟩
  simpa using contiguous_sum _ _ _ hContiguous

/-- C6 on the sample container (levels of 128, 32 and 8 bytes): the offsets
are 0, 128 and 160, and the sizes add up to 168. -/
theorem plan_contiguous_witness :
    (transcode plentiful 1 (sampleFile false) onlyS3tc false).plan =
      some ([⟨0, 0, 128, 16, 16⟩, ⟨1, 128, 32, 8, 8⟩, ⟨2, 160, 8, 4, 4⟩], 168) ∧
    ((∀ first, ([⟨0, 0, 128, 16, 16⟩, ⟨1, 128, 32, 8, 8⟩, ⟨2, 160, 8, 4, 4⟩] :
        List MipLevel).head? = some first → first.offset = 0) ∧
     (∀ i a b,
        ([⟨0, 0, 128, 16, 16⟩, ⟨1, 128, 32, 8, 8⟩, ⟨2, 160, 8, 4, 4⟩] :
          List MipLevel)[i]? = some a →
        ([⟨0, 0, 128, 16, 16⟩, ⟨1, 128, 32, 8, 8⟩, ⟨2, 160, 8, 4, 4⟩] :
          List MipLevel)[i + 1]? = some b →
        a.offset + a.size = b.offset) ∧
     (([⟨0, 0, 128, 16, 16⟩, ⟨1, 128, 32, 8, 8⟩, ⟨2, 160, 8, 4, 4⟩] :
        List MipLevel).map (fun m => m.size)).sum = 168) :=
  ⟨by decide,
   plan_contiguous plentiful 1 (sampleFile false) onlyS3tc false _ _ (by decide)⟩

/-- C7: when a format is selected it has an entry in `BASIS_WEBGL_FORMAT_MAP`
and a mip-level list is built; the list has exactly 1 descriptor when the
format is uncompressed and exactly `getNumLevels(0)` descriptors otherwise,
and the descriptor at index `i` has `level = i`,
`size = getImageTranscodedSizeInBytes(0, i, format)` and the width and height
the container reports for image 0, level `i`. -/
theorem plan_levels (heap : Heap) (id : Nat) (basisFile : BasisFile)
    (supportedFormats : SupportedFormats) (allowSeparateAlpha : Bool)
    (basisFormat : Nat) (needsSecondaryAlpha : Bool)
    (hSelected : (transcode heap id basisFile supportedFormats allowSeparateAlpha).selected =
      some (some basisFormat, needsSecondaryAlpha)) :
    ∃ webglFormat mipLevels totalTranscodeSize,
      webglFormatOf basisFormat = some webglFormat ∧
      (transcode heap id basisFile supportedFormats allowSeparateAlpha).plan =
        some (mipLevels, totalTranscodeSize) ∧
      mipLevels.length =
        (if webglFormat.uncompressed then 1 else basisFile.getNumLevels 0) ∧
      ∀ i m, mipLevels[i]? = some m →
        m.level = i ∧
        m.size = basisFile.getImageTranscodedSizeInBytes 0 i basisFormat ∧
        m.width = basisFile.getImageWidth 0 i ∧
        m.height = basisFile.getImageHeight 0 i := by
  obtain ⟨hImages, hLevels, hStart, hEq⟩ :=
    selected_reached heap id basisFile supportedFormats allowSeparateAlpha _ hSelected
  have hSel : (selectFormat basisFile.getHasAlpha supportedFormats allowSeparateAlpha).1 =
      some basisFormat := by rw [← hEq]
  obtain ⟨wf, hMap⟩ := selectFormat_mapped _ _ _ _ hSel
  have hGather := gather_described basisFile basisFormat
    (if wf.uncompressed then 1 else basisFile.getNumLevels IMAGE_INDEX) 0 [] 0 [] rfl
    (by intro i m hm; simp at hm)
  refine ⟨wf,
    (gatherMipLevels basisFile basisFormat
      (if wf.uncompressed then 1 else basisFile.getNumLevels IMAGE_INDEX) 0 [] 0 []).1,
    (gatherMipLevels basisFile basisFormat
      (if wf.uncompressed then 1 else basisFile.getNumLevels IMAGE_INDEX) 0 [] 0 []).2.1,
    hMap, ?_, ?_, ?_⟩
  · exact (transcode_fields heap id basisFile supportedFormats allowSeparateAlpha hImages
      hLevels hStart _ _ hSel hMap).2
  · simpa [IMAGE_INDEX] using hGather.1
  · exact hGather.2

/-- C7, the scenario of the specification: a container with one image, three
levels and no alpha on a device with s3tc only selects cTFBC1_RGB (2) without
a secondary pass, and the plan has three descriptors. -/
theorem plan_levels_witness :
    (transcode plentiful 1 (sampleFile false) onlyS3tc false).selected = some (some 2, false) ∧
    ∃ mipLevels totalTranscodeSize,
      (transcode plentiful 1 (sampleFile false) onlyS3tc false).plan =
        some (mipLevels, totalTranscodeSize) ∧
      mipLevels.length = 3 := by
  refine ⟨by decide, ?_⟩
  obtain ⟨wf, mipLevels, total, hMap, hPlan, hLength, _⟩ :=
    plan_levels plentiful 1 (sampleFile false) onlyS3tc false 2 false (by decide)
  have hwf : wf = { format := COMPRESSED_RGB_S3TC_DXT1_EXT } := by
    have h2 : webglFormatOf 2 = some { format := COMPRESSED_RGB_S3TC_DXT1_EXT } := rfl
    rw [h2] at hMap
    exact (Option.some.inj hMap).symm
  subst hwf
  exact ⟨mipLevels, total, hPlan, hLength⟩

/-! ## Failure paths and the container handle -/

/-- C8: on a container that reports no image or no level for image 0 the run
is: open the container, read the three properties, post 'Invalid Basis data'
for the request id, close and delete the handle; `startTranscoding` and
`transcodeImage` are never called. -/
theorem invalid_container_rejected (heap : Heap) (id : Nat) (basisFile : BasisFile)
    (supportedFormats : SupportedFormats) (allowSeparateAlpha : Bool)
    (hInvalid : basisFile.getNumImages = 0 ∨ basisFile.getNumLevels 0 = 0) :
    (transcode heap id basisFile supportedFormats allowSeparateAlpha).trace =
      [Event.construct, Event.getNumImages, Event.getNumLevels 0, Event.getHasAlpha,
       Event.postMessage (Message.error id "Invalid Basis data"),
       Event.close, Event.delete] ∧
    posted (transcode heap id basisFile supportedFormats allowSeparateAlpha).trace =
      [Message.error id "Invalid Basis data"] ∧
    Event.startTranscoding ∉ (transcode heap id basisFile supportedFormats allowSeparateAlpha).trace ∧
    ∀ e ∈ (transcode heap id basisFile supportedFormats allowSeparateAlpha).trace,
      e.isTranscodeImage = false := by
  rw [transcode_invalid heap id basisFile supportedFormats allowSeparateAlpha hInvalid]
  refine ⟨rfl, rfl, by simp, ?_⟩
  intro e he
  simp only [List.mem_cons, List.mem_singleton, List.not_mem_nil, or_false] at he
  rcases he with he | he | he | he | he | he | he <;> subst he <;> rfl

/-- C8 on a container that reports no image. -/
theorem invalid_container_rejected_witness :
    (emptyFile.getNumImages = 0 ∨ emptyFile.getNumLevels 0 = 0) ∧
    posted (transcode plentiful 5 emptyFile onlyS3tc false).trace =
      [Message.error 5 "Invalid Basis data"] ∧
    Event.startTranscoding ∉ (transcode plentiful 5 emptyFile onlyS3tc false).trace :=
  ⟨Or.inl rfl,
   (invalid_container_rejected plentiful 5 emptyFile onlyS3tc false (Or.inl rfl)).2.1,
   (invalid_container_rejected plentiful 5 emptyFile onlyS3tc false (Or.inl rfl)).2.2.1⟩

theorem filter_queries (l : List Event) (h : ∀ e ∈ l, e.isQuery = true) :
    l.filter (fun e => e.isTranscodeImage || e.isPostMessage) = [] := by
  rw [List.filter_eq_nil_iff]
  intro e he
  have := h e he
  cases e <;> simp_all [Event.isQuery, Event.isTranscodeImage, Event.isPostMessage]

theorem filter_calls (l : List Event) (h : ∀ e ∈ l, e.isTranscodeImage = true) :
    l.filter (fun e => e.isTranscodeImage || e.isPostMessage) = l := by
  rw [List.filter_eq_self]
  intro e he
  simp [h e he]

/-- C9, the claim fails: the sample container without alpha whose one level has
a transcoded size of 2^53 bytes, on a device with s3tc only, is valid and
starts transcoding; cTFBC1_RGB (2) is selected and the plan has the one level,
but the allocation of line 420 throws, so the planned primary call of level 0
is never made and no message is posted. -/
theorem planned_calls_not_made :
    hugeFile.getNumImages ≠ 0 ∧ hugeFile.getNumLevels 0 ≠ 0 ∧
    hugeFile.startTranscoding = true ∧
    (transcode plentiful 1 hugeFile onlyS3tc false).selected = some (some 2, false) ∧
    (transcode plentiful 1 hugeFile onlyS3tc false).plan =
      some ([⟨0, 0, 2 ^ 53, 16, 16⟩], 2 ^ 53) ∧
    plannedCalls 2 false (2 ^ 53) [⟨0, 0, 2 ^ 53, 16, 16⟩] =
      [Event.transcodeImage ⟨BufferName.transcodeData, 2 ^ 53, 0, 2 ^ 53⟩ 0 0 2 1 0] ∧
    (transcode plentiful 1 hugeFile onlyS3tc false).trace.filter
        (fun e => e.isTranscodeImage || e.isPostMessage) = [] ∧
    ¬ ∃ message,
      (transcode plentiful 1 hugeFile onlyS3tc false).trace.filter
          (fun e => e.isTranscodeImage || e.isPostMessage) =
        untilFirstFailure hugeFile.answer
            (plannedCalls 2 false (2 ^ 53) [⟨0, 0, 2 ^ 53, 16, 16⟩]) ++
          [Event.postMessage message] := by
  have hFilter : (transcode plentiful 1 hugeFile onlyS3tc false).trace.filter
      (fun e => e.isTranscodeImage || e.isPostMessage) = [] := by decide
  refine ⟨by decide, by decide, rfl, by decide, by decide, rfl, hFilter, ?_⟩
  rintro ⟨message, hMessage⟩
  rw [hFilter] at hMessage
  exact absurd (congrArg List.length hMessage) (by simp)

/-- C9 as amended: on a valid container, when `startTranscoding` returns false
the run posts 'startTranscoding failed' and never calls `transcodeImage`.
When it returns true the selection is reached; without a selected format
`transcodeImage` is never called; with one, the plan is built and, provided
the output buffers of `totalTranscodeSize` bytes can be allocated, the
`transcodeImage` calls and posted messages of the run are, in this order: the
planned calls (per level the primary call, then the alpha call when
`needsSecondaryAlpha`) up to and including the first call answered false, and
then one message, which is the error 'transcodeImage failed' or 'alpha
transcodeImage failed' of that failed call, or the success message when no
planned call fails.  When a buffer cannot be allocated, `transcodeImage` is
never called. -/
theorem transcode_call_protocol (heap : Heap) (id : Nat) (basisFile : BasisFile)
    (supportedFormats : SupportedFormats) (allowSeparateAlpha : Bool)
    (hImages : basisFile.getNumImages ≠ 0)
    (hLevels : basisFile.getNumLevels 0 ≠ 0) :
    (basisFile.startTranscoding = false →
      posted (transcode heap id basisFile supportedFormats allowSeparateAlpha).trace =
        [Message.error id "startTranscoding failed"] ∧
      ∀ e ∈ (transcode heap id basisFile supportedFormats allowSeparateAlpha).trace,
        e.isTranscodeImage = false) ∧
    (basisFile.startTranscoding = true →
      ∃ selection,
        (transcode heap id basisFile supportedFormats allowSeparateAlpha).selected =
          some selection ∧
        match selection with
        | (none, _) =>
          ∀ e ∈ (transcode heap id basisFile supportedFormats allowSeparateAlpha).trace,
            e.isTranscodeImage = false
        | (some basisFormat, needsSecondaryAlpha) =>
          ∃ mipLevels totalTranscodeSize,
            (transcode heap id basisFile supportedFormats allowSeparateAlpha).plan =
              some (mipLevels, totalTranscodeSize) ∧
            (allocated heap needsSecondaryAlpha totalTranscodeSize = true →
              ∃ message,
                (transcode heap id basisFile supportedFormats allowSeparateAlpha).trace.filter
                    (fun e => e.isTranscodeImage || e.isPostMessage) =
                  untilFirstFailure basisFile.answer
                      (plannedCalls basisFormat needsSecondaryAlpha totalTranscodeSize
                        mipLevels) ++
                    [Event.postMessage message] ∧
                (∀ failed,
                  (plannedCalls basisFormat needsSecondaryAlpha totalTranscodeSize
                      mipLevels).find?
                      (fun call => !basisFile.answer call) = some failed →
                  message = Message.error id (failureMessage failed)) ∧
                ((plannedCalls basisFormat needsSecondaryAlpha totalTranscodeSize
                    mipLevels).find?
                    (fun call => !basisFile.answer call) = none →
                  ∃ webglFormat,
                    message = Message.success id totalTranscodeSize
                      (if needsSecondaryAlpha then some totalTranscodeSize else none)
                      webglFormat mipLevels basisFile.getHasAlpha)) ∧
            (allocated heap needsSecondaryAlpha totalTranscodeSize = false →
              ∀ e ∈ (transcode heap id basisFile supportedFormats allowSeparateAlpha).trace,
                e.isTranscodeImage = false)) := by
  constructor
  · intro hStart
    rw [transcode_start_failed heap id basisFile supportedFormats allowSeparateAlpha hImages
      hLevels hStart]
    refine ⟨rfl, ?_⟩
    intro e he
    simp only [List.mem_cons, List.mem_singleton, List.not_mem_nil, or_false] at he
    rcases he with he | he | he | he | he | he | he | he <;> subst he <;> rfl
  · intro hStart
    refine ⟨selectFormat basisFile.getHasAlpha supportedFormats allowSeparateAlpha,
      transcode_selected heap id basisFile supportedFormats allowSeparateAlpha hImages hLevels
        hStart, ?_⟩
    cases hSel : (selectFormat basisFile.getHasAlpha supportedFormats allowSeparateAlpha).1 with
    | none =>
      have hPair : selectFormat basisFile.getHasAlpha supportedFormats allowSeparateAlpha =
          (none, (selectFormat basisFile.getHasAlpha supportedFormats allowSeparateAlpha).2) := by
        rw [← hSel]
      rw [hPair]
      simp only
      rw [transcode_no_format heap id basisFile supportedFormats allowSeparateAlpha hImages
        hLevels hStart hSel]
      intro e he
      simp only [List.mem_cons, List.mem_singleton, List.not_mem_nil, or_false] at he
      rcases he with he | he | he | he | he | he | he | he <;> subst he <;> rfl
    | some basisFormat =>
      have hPair : selectFormat basisFile.getHasAlpha supportedFormats allowSeparateAlpha =
          (some basisFormat,
            (selectFormat basisFile.getHasAlpha supportedFormats allowSeparateAlpha).2) := by
        rw [← hSel]
      obtain ⟨wf, hMap⟩ := selectFormat_mapped _ _ _ _ hSel
      rw [hPair]
      simp only
      refine ⟨_, _, (transcode_fields heap id basisFile supportedFormats allowSeparateAlpha
        hImages hLevels hStart _ _ hSel hMap).2, ?_, ?_⟩
      swap
      · intro hAlloc
        rw [transcode_unallocated heap id basisFile supportedFormats allowSeparateAlpha hImages
          hLevels hStart _ _ hSel hMap hAlloc]
        intro e he
        exact (unallocated_event _
          (gather_trace basisFile basisFormat _ 0 [] 0 [] (by simp)) e he).2.1
      intro hAlloc
      have hRun := transcode_planned heap id basisFile supportedFormats allowSeparateAlpha hImages
        hLevels hStart _ _ hSel hMap hAlloc
      rw [hRun]
      simp only
      clear hAlloc
      generalize hNeeds :
        (selectFormat basisFile.getHasAlpha supportedFormats allowSeparateAlpha).2 = needs
      generalize hGathered : gatherMipLevels basisFile basisFormat
        (if wf.uncompressed = true then 1 else basisFile.getNumLevels IMAGE_INDEX) 0 [] 0 [] =
        gathered
      have hQueries : ∀ e ∈ gathered.2.2, e.isQuery = true := by
        rw [← hGathered]
        exact gather_trace basisFile basisFormat _ 0 [] 0 [] (by simp)
      have hCalls := transcodeLevels_calls basisFile basisFormat needs gathered.2.1 gathered.1
      have hResult := transcodeLevels_result basisFile basisFormat needs gathered.2.1 gathered.1
      have hAll := transcodeLevels_trace basisFile basisFormat needs gathered.2.1 gathered.1
      have hFilterQueries := filter_queries gathered.2.2 hQueries
      have hFilterCalls := filter_calls _ hAll
      rw [hCalls] at hFilterCalls
      clear hRun hQueries hAll hGathered hNeeds
      cases hFind : (plannedCalls basisFormat needs gathered.2.1 gathered.1).find?
          (fun call => !basisFile.answer call) with
      | none =>
        rw [hFind] at hResult
        simp only [Option.map_none'] at hResult
        refine ⟨Message.success id gathered.2.1 (if needs then some gathered.2.1 else none) wf
            gathered.1 basisFile.getHasAlpha, ?_, ?_, ?_⟩
        · rw [hResult]
          simp only [List.filter_append, hFilterQueries, hCalls, hFilterCalls]
          rfl
        · intro failed hFailed
          exact Option.noConfusion hFailed
        · intro _
          exact ⟨wf, rfl⟩
      | some failed =>
        rw [hFind] at hResult
        simp only [Option.map_some'] at hResult
        refine ⟨Message.error id (failureMessage failed), ?_, ?_, ?_⟩
        · rw [hResult]
          simp only [List.filter_append, hFilterQueries, hCalls, hFilterCalls]
          rfl
        · intro failed' hFailed
          rw [Option.some.inj hFailed]
        · intro hNone
          exact Option.noConfusion hNone

/-- C9 as amended, on the sample container with alpha whose alpha call of level 1 fails,
on a device with pvrtc only and `allowSeparateAlpha = true`: the calls are
primary and alpha of level 0, primary and alpha of level 1, and then 'alpha
transcodeImage failed' is posted; level 2 is not transcoded. -/
theorem transcode_call_protocol_witness :
    (transcode plentiful 1 alphaFailingFile onlyPvrtc true).trace.filter
        (fun e => e.isTranscodeImage || e.isPostMessage) =
      [Event.transcodeImage ⟨BufferName.transcodeData, 168, 0, 128⟩ 0 0 8 1 0,
       Event.transcodeImage ⟨BufferName.alphaTranscodeData, 168, 0, 128⟩ 0 0 8 1 1,
       Event.transcodeImage ⟨BufferName.transcodeData, 168, 128, 32⟩ 0 1 8 1 0,
       Event.transcodeImage ⟨BufferName.alphaTranscodeData, 168, 128, 32⟩ 0 1 8 1 1,
       Event.postMessage (Message.error 1 "alpha transcodeImage failed")] := by
  obtain ⟨selection, hSelected, h⟩ :=
    (transcode_call_protocol plentiful 1 alphaFailingFile onlyPvrtc true (by decide) (by decide)).2 rfl
  have hSelection : selection = (some 8, true) := by
    have h2 : (transcode plentiful 1 alphaFailingFile onlyPvrtc true).selected =
        some (some 8, true) := by decide
    rw [h2] at hSelected
    exact (Option.some.inj hSelected).symm
  subst hSelection
  obtain ⟨mipLevels, total, hPlan, hCalls⟩ := h
  have h3 : (transcode plentiful 1 alphaFailingFile onlyPvrtc true).plan =
      some ([⟨0, 0, 128, 16, 16⟩, ⟨1, 128, 32, 8, 8⟩, ⟨2, 160, 8, 4, 4⟩], 168) := by decide
  rw [h3] at hPlan
  simp only [Option.some.injEq, Prod.mk.injEq] at hPlan
  obtain ⟨hLevels, hTotal⟩ := hPlan
  subst hLevels
  subst hTotal
  obtain ⟨message, hFilter, hFailed, _⟩ := hCalls.1 (by decide)
  rw [hFilter, hFailed
    (Event.transcodeImage ⟨BufferName.alphaTranscodeData, 168, 128, 32⟩ 0 1 8 1 1) (by decide)]
  decide

/-- C10: on every exit path of `transcode` (every run that returns, which is
every run that does not end in the RangeError of an allocation) the trace
holds `close` directly followed by `delete` exactly once: neither occurs
before that pair, and after it no event on the container handle occurs. -/
theorem handle_closed_once (heap : Heap) (id : Nat) (basisFile : BasisFile)
    (supportedFormats : SupportedFormats) (allowSeparateAlpha : Bool)
    (hReturns : Event.throwRangeError ∉
      (transcode heap id basisFile supportedFormats allowSeparateAlpha).trace) :
    ∃ before after,
      (transcode heap id basisFile supportedFormats allowSeparateAlpha).trace =
        before ++ [Event.close, Event.delete] ++ after ∧
      (∀ e ∈ before, e ≠ Event.close ∧ e ≠ Event.delete) ∧
      (∀ e ∈ after, e.onHandle = false) := by
  by_cases hv : basisFile.getNumImages = 0 ∨ basisFile.getNumLevels IMAGE_INDEX = 0
  · rw [transcode_invalid heap id basisFile supportedFormats allowSeparateAlpha hv]
    refine ⟨[Event.construct, Event.getNumImages, Event.getNumLevels IMAGE_INDEX,
      Event.getHasAlpha, Event.postMessage (Message.error id "Invalid Basis data")], [],
      rfl, ?_, by simp⟩
    intro e he
    simp only [List.mem_cons, List.mem_singleton, List.not_mem_nil, or_false] at he
    rcases he with he | he | he | he | he <;> subst he <;> simp
  · have hImages : basisFile.getNumImages ≠ 0 := fun h0 => hv (Or.inl h0)
    have hLevels : basisFile.getNumLevels IMAGE_INDEX ≠ 0 := fun h0 => hv (Or.inr h0)
    cases hStart : basisFile.startTranscoding with
    | false =>
      rw [transcode_start_failed heap id basisFile supportedFormats allowSeparateAlpha hImages
        hLevels hStart]
      refine ⟨[Event.construct, Event.getNumImages, Event.getNumLevels IMAGE_INDEX,
        Event.getHasAlpha, Event.startTranscoding,
        Event.postMessage (Message.error id "startTranscoding failed")], [], rfl, ?_, by simp⟩
      intro e he
      simp only [List.mem_cons, List.mem_singleton, List.not_mem_nil, or_false] at he
      rcases he with he | he | he | he | he | he <;> subst he <;> simp
    | true =>
      cases hSel : (selectFormat basisFile.getHasAlpha supportedFormats allowSeparateAlpha).1 with
      | none =>
        rw [transcode_no_format heap id basisFile supportedFormats allowSeparateAlpha hImages
          hLevels hStart hSel]
        refine ⟨[Event.construct, Event.getNumImages, Event.getNumLevels IMAGE_INDEX,
          Event.getHasAlpha, Event.startTranscoding,
          Event.postMessage (Message.error id "No supported transcode formats")], [],
          rfl, ?_, by simp⟩
        intro e he
        simp only [List.mem_cons, List.mem_singleton, List.not_mem_nil, or_false] at he
        rcases he with he | he | he | he | he | he <;> subst he <;> simp
      | some basisFormat =>
        obtain ⟨wf, hMap⟩ := selectFormat_mapped _ _ _ _ hSel
        rcases transcode_formatted heap id basisFile supportedFormats allowSeparateAlpha
          hImages hLevels hStart _ _ hSel hMap with ⟨_, hRun⟩ | ⟨_, hRun⟩
        swap
        · rw [hRun] at hReturns
          exact absurd (List.mem_append_right _ (List.mem_singleton.mpr rfl)) hReturns
        rw [hRun]
        clear hRun hReturns
        simp only
        generalize (selectFormat basisFile.getHasAlpha supportedFormats allowSeparateAlpha).2 =
          needs
        have hQueries := gather_trace basisFile basisFormat
          (if wf.uncompressed = true then 1 else basisFile.getNumLevels IMAGE_INDEX)
          0 [] 0 [] (by simp)
        generalize gatherMipLevels basisFile basisFormat
          (if wf.uncompressed = true then 1 else basisFile.getNumLevels IMAGE_INDEX) 0 [] 0 [] =
          gathered at hQueries ⊢
        have hAll := transcodeLevels_trace basisFile basisFormat needs gathered.2.1 gathered.1
        generalize transcodeLevels basisFile basisFormat needs gathered.2.1 gathered.1 =
          done at hAll ⊢
        have hBefore : ∀ e ∈ [Event.construct, Event.getNumImages,
            Event.getNumLevels IMAGE_INDEX, Event.getHasAlpha, Event.startTranscoding] ++
            gathered.2.2 ++ done.1, e ≠ Event.close ∧ e ≠ Event.delete := by
          intro e he
          simp only [List.mem_append, List.mem_cons, List.mem_singleton, List.not_mem_nil,
            or_false] at he
          rcases he with (he | he) | he
          · rcases he with he | he | he | he | he <;> subst he <;> simp
          · have := hQueries e he
            constructor <;> intro hEq <;> subst hEq <;> simp [Event.isQuery] at this
          · have := hAll e he
            constructor <;> intro hEq <;> subst hEq <;> simp [Event.isTranscodeImage] at this
        cases hDone : done.2 with
        | some errorMsg =>
          refine ⟨[Event.construct, Event.getNumImages, Event.getNumLevels IMAGE_INDEX,
            Event.getHasAlpha, Event.startTranscoding] ++ gathered.2.2 ++ done.1 ++
            [Event.postMessage (Message.error id errorMsg)], [], by simp, ?_, by simp⟩
          intro e he
          rw [List.mem_append] at he
          rcases he with he | he
          · exact hBefore e he
          · simp only [List.mem_singleton] at he
            subst he
            simp
        | none =>
          exact ⟨[Event.construct, Event.getNumImages, Event.getNumLevels IMAGE_INDEX,
            Event.getHasAlpha, Event.startTranscoding] ++ gathered.2.2 ++ done.1,
            [Event.postMessage (Message.success id gathered.2.1
              (if needs then some gathered.2.1 else none) wf gathered.1
              basisFile.getHasAlpha)],
            by simp, hBefore, by simp [Event.onHandle]⟩

/-- C10 on the sample container, s3tc only: the run returns, and its trace
ends with `close`, `delete` and the success message. -/
theorem handle_closed_once_witness :
    Event.throwRangeError ∉ (transcode plentiful 1 (sampleFile false) onlyS3tc false).trace ∧
    ∃ before after,
      (transcode plentiful 1 (sampleFile false) onlyS3tc false).trace =
        before ++ [Event.close, Event.delete] ++ after ∧
      (∀ e ∈ before, e ≠ Event.close ∧ e ≠ Event.delete) ∧
      (∀ e ∈ after, e.onHandle = false) :=
  ⟨by decide,
   handle_closed_once plentiful 1 (sampleFile false) onlyS3tc false (by decide)⟩

/-! ## The response message -/

theorem posted_append (a b : List Event) : posted (a ++ b) = posted a ++ posted b := by
  induction a with
  | nil => rfl
  | cons e rest ih =>
    cases e <;> simp [posted, ih]

theorem posted_quiet (l : List Event) (h : ∀ e ∈ l, e.isQuiet = true) : posted l = [] := by
  induction l with
  | nil => rfl
  | cons e rest ih =>
    have he := h e (List.mem_cons_self _ _)
    have hrest := ih (fun x hx => h x (List.mem_cons_of_mem _ hx))
    cases e <;> simp_all [posted, Event.isQuiet]

theorem quiet_of_query (e : Event) (h : e.isQuery = true) : e.isQuiet = true := by
  cases e <;> simp_all [Event.isQuery, Event.isQuiet]

theorem quiet_of_call (e : Event) (h : e.isTranscodeImage = true) : e.isQuiet = true := by
  cases e <;> simp_all [Event.isTranscodeImage, Event.isQuiet]

theorem closed_before_last_post (calls : List Event) (h : ∀ e ∈ calls, e.isQuiet = true)
    (last : Message) :
    ClosedBeforePosted (calls ++ [Event.close, Event.delete, Event.postMessage last]) := by
  induction calls with
  | nil =>
    intro before message after hSplit
    cases before with
    | nil => simp at hSplit
    | cons b bs =>
      simp only [List.nil_append, List.cons_append, List.cons.injEq] at hSplit
      rw [← hSplit.1]
      exact List.mem_cons_self _ _
  | cons c cs ih =>
    intro before message after hSplit
    cases before with
    | nil =>
      simp only [List.cons_append, List.nil_append, List.cons.injEq] at hSplit
      have hc := h c (List.mem_cons_self _ _)
      rw [hSplit.1] at hc
      simp [Event.isQuiet] at hc
    | cons b bs =>
      simp only [List.cons_append, List.cons.injEq] at hSplit
      exact List.mem_cons_of_mem _
        (ih (fun e he => h e (List.mem_cons_of_mem _ he)) bs message after hSplit.2)

/-- Every run is a sequence of quiet events followed by one of three endings:
the error message and then `close`, `delete`; or `close`, `delete` and then
the success message; or the RangeError of an allocation. -/
theorem transcode_shape (heap : Heap) (id : Nat) (basisFile : BasisFile) (sf : SupportedFormats)
    (asa : Bool) :
    ∃ calls, (∀ e ∈ calls, e.isQuiet = true) ∧
      ((∃ errorMsg, (transcode heap id basisFile sf asa).trace =
          calls ++ [Event.postMessage (Message.error id errorMsg), Event.close, Event.delete]) ∨
       (∃ buffer alphaBuffer webglFormat mipLevels,
          (transcode heap id basisFile sf asa).trace =
            calls ++ [Event.close, Event.delete,
              Event.postMessage (Message.success id buffer alphaBuffer webglFormat mipLevels
                basisFile.getHasAlpha)]) ∨
       (transcode heap id basisFile sf asa).trace = calls ++ [Event.throwRangeError]) := by
  by_cases hv : basisFile.getNumImages = 0 ∨ basisFile.getNumLevels IMAGE_INDEX = 0
  · rw [transcode_invalid heap id basisFile sf asa hv]
    refine ⟨[Event.construct, Event.getNumImages, Event.getNumLevels IMAGE_INDEX,
      Event.getHasAlpha], ?_, Or.inl ⟨_, rfl⟩⟩
    intro e he
    simp only [List.mem_cons, List.mem_singleton, List.not_mem_nil, or_false] at he
    rcases he with he | he | he | he <;> subst he <;> rfl
  · have hImages : basisFile.getNumImages ≠ 0 := fun h0 => hv (Or.inl h0)
    have hLevels : basisFile.getNumLevels IMAGE_INDEX ≠ 0 := fun h0 => hv (Or.inr h0)
    have hStarted : ∀ e ∈ [Event.construct, Event.getNumImages,
        Event.getNumLevels IMAGE_INDEX, Event.getHasAlpha, Event.startTranscoding],
        e.isQuiet = true := by
      intro e he
      simp only [List.mem_cons, List.mem_singleton, List.not_mem_nil, or_false] at he
      rcases he with he | he | he | he | he <;> subst he <;> rfl
    cases hStart : basisFile.startTranscoding with
    | false =>
      rw [transcode_start_failed heap id basisFile sf asa hImages hLevels hStart]
      exact ⟨_, hStarted, Or.inl ⟨_, rfl⟩⟩
    | true =>
      cases hSel : (selectFormat basisFile.getHasAlpha sf asa).1 with
      | none =>
        rw [transcode_no_format heap id basisFile sf asa hImages hLevels hStart hSel]
        exact ⟨_, hStarted, Or.inl ⟨_, rfl⟩⟩
      | some basisFormat =>
        obtain ⟨wf, hMap⟩ := selectFormat_mapped _ _ _ _ hSel
        have hQueries := gather_trace basisFile basisFormat
          (if wf.uncompressed = true then 1 else basisFile.getNumLevels IMAGE_INDEX)
          0 [] 0 [] (by simp)
        rcases transcode_formatted heap id basisFile sf asa hImages hLevels hStart _ _ hSel
          hMap with ⟨_, hRun⟩ | ⟨_, hRun⟩
        swap
        · rw [hRun]
          refine ⟨_, ?_, Or.inr (Or.inr rfl)⟩
          intro e he
          rw [List.mem_append] at he
          rcases he with he | he
          · exact hStarted e he
          · exact quiet_of_query e (hQueries e he)
        rw [hRun]
        clear hRun
        simp only
        generalize (selectFormat basisFile.getHasAlpha sf asa).2 = needs
        generalize gatherMipLevels basisFile basisFormat
          (if wf.uncompressed = true then 1 else basisFile.getNumLevels IMAGE_INDEX) 0 [] 0 [] =
          gathered at hQueries ⊢
        have hAll := transcodeLevels_trace basisFile basisFormat needs gathered.2.1 gathered.1
        generalize transcodeLevels basisFile basisFormat needs gathered.2.1 gathered.1 =
          done at hAll ⊢
        refine ⟨[Event.construct, Event.getNumImages, Event.getNumLevels IMAGE_INDEX,
          Event.getHasAlpha, Event.startTranscoding] ++ gathered.2.2 ++ done.1, ?_, ?_⟩
        · intro e he
          rw [List.mem_append, List.mem_append] at he
          rcases he with (he | he) | he
          · exact hStarted e he
          · exact quiet_of_query e (hQueries e he)
          · exact quiet_of_call e (hAll e he)
        · cases done.2 with
          | some errorMsg => exact Or.inl ⟨errorMsg, rfl⟩
          | none => exact Or.inr (Or.inl ⟨_, _, _, _, rfl⟩)

/-- C11, the claim fails: on the container that reports no image the error
message is posted while the handle is still open (`basisFileFail` calls `fail`
before `close`). -/
theorem error_posted_before_close :
    ¬ ClosedBeforePosted (transcode plentiful 5 emptyFile onlyS3tc false).trace := by
  intro h
  have hTrace : (transcode plentiful 5 emptyFile onlyS3tc false).trace =
      [Event.construct, Event.getNumImages, Event.getNumLevels 0, Event.getHasAlpha] ++
        Event.postMessage (Message.error 5 "Invalid Basis data") ::
          [Event.close, Event.delete] := by decide
  exact absurd (h _ _ _ hTrace) (by decide)

/-- C11 as amended: every run of `transcode` that returns (that does not end
in the RangeError of an allocation) ends in one of two ways.  On an error path
the error message is posted first and `close`, `delete` follow directly, as
the last actions of the run.  On the success path `close` and `delete` come
first and the success message is posted last, so there the handle is closed
before the message is posted.  Nothing before these endings posts a message
or closes or deletes the handle. -/
theorem close_and_post_order (heap : Heap) (id : Nat) (basisFile : BasisFile)
    (supportedFormats : SupportedFormats) (allowSeparateAlpha : Bool)
    (hReturns : Event.throwRangeError ∉
      (transcode heap id basisFile supportedFormats allowSeparateAlpha).trace) :
    ∃ calls, (∀ e ∈ calls, e.isQuiet = true) ∧
      ((∃ errorMsg,
          (transcode heap id basisFile supportedFormats allowSeparateAlpha).trace =
            calls ++ [Event.postMessage (Message.error id errorMsg),
              Event.close, Event.delete]) ∨
       (∃ buffer alphaBuffer webglFormat mipLevels hasAlpha,
          (transcode heap id basisFile supportedFormats allowSeparateAlpha).trace =
            calls ++ [Event.close, Event.delete,
              Event.postMessage
                (Message.success id buffer alphaBuffer webglFormat mipLevels hasAlpha)] ∧
          ClosedBeforePosted
            (transcode heap id basisFile supportedFormats allowSeparateAlpha).trace)) := by
  obtain ⟨calls, hQuiet, hShape⟩ :=
    transcode_shape heap id basisFile supportedFormats allowSeparateAlpha
  refine ⟨calls, hQuiet, ?_⟩
  rcases hShape with ⟨errorMsg, hTrace⟩ | ⟨buffer, alphaBuffer, wf, ml, hTrace⟩ | hTrace
  · exact Or.inl ⟨errorMsg, hTrace⟩
  · refine Or.inr ⟨buffer, alphaBuffer, wf, ml, _, hTrace, ?_⟩
    rw [hTrace]
    exact closed_before_last_post calls hQuiet _
  · rw [hTrace] at hReturns
    exact absurd (List.mem_append_right _ (List.mem_singleton.mpr rfl)) hReturns

/-- C11 as amended, on the sample container with alpha and a device without
any compressed format: the run returns on an error path, where 'No supported
transcode formats' is posted and `close`, `delete` follow. -/
theorem close_and_post_order_witness :
    Event.throwRangeError ∉ (transcode plentiful 1 (sampleFile true) noFormats false).trace ∧
    ∃ calls, (∀ e ∈ calls, e.isQuiet = true) ∧
      ((∃ errorMsg,
          (transcode plentiful 1 (sampleFile true) noFormats false).trace =
            calls ++ [Event.postMessage (Message.error 1 errorMsg),
              Event.close, Event.delete]) ∨
       (∃ buffer alphaBuffer webglFormat mipLevels hasAlpha,
          (transcode plentiful 1 (sampleFile true) noFormats false).trace =
            calls ++ [Event.close, Event.delete,
              Event.postMessage
                (Message.success 1 buffer alphaBuffer webglFormat mipLevels hasAlpha)] ∧
          ClosedBeforePosted
            (transcode plentiful 1 (sampleFile true) noFormats false).trace)) :=
  ⟨by decide,
   close_and_post_order plentiful 1 (sampleFile true) noFormats false (by decide)⟩

/-- The plan of a run is contiguous from byte 0 to `totalTranscodeSize`. -/
theorem plan_is_contiguous (heap : Heap) (id : Nat) (basisFile : BasisFile) (sf : SupportedFormats)
    (asa : Bool) (mipLevels : List MipLevel) (total : Nat)
    (hPlan : (transcode heap id basisFile sf asa).plan = some (mipLevels, total)) :
    Contiguous 0 mipLevels total := by
  by_cases hv : basisFile.getNumImages = 0 ∨ basisFile.getNumLevels IMAGE_INDEX = 0
  · rw [transcode_invalid heap id basisFile sf asa hv] at hPlan
    simp at hPlan
  · have hImages : basisFile.getNumImages ≠ 0 := fun h0 => hv (Or.inl h0)
    have hLevels : basisFile.getNumLevels IMAGE_INDEX ≠ 0 := fun h0 => hv (Or.inr h0)
    cases hStart : basisFile.startTranscoding with
    | false =>
      rw [transcode_start_failed heap id basisFile sf asa hImages hLevels hStart] at hPlan
      simp at hPlan
    | true =>
      cases hSel : (selectFormat basisFile.getHasAlpha sf asa).1 with
      | none =>
        rw [transcode_no_format heap id basisFile sf asa hImages hLevels hStart hSel] at hPlan
        simp at hPlan
      | some basisFormat =>
        obtain ⟨wf, hMap⟩ := selectFormat_mapped _ _ _ _ hSel
        rw [(transcode_fields heap id basisFile sf asa hImages hLevels hStart _ _ hSel
          hMap).2] at hPlan
        simp only [Option.some.injEq, Prod.mk.injEq] at hPlan
        obtain ⟨h1, h2⟩ := hPlan
        rw [← h1, ← h2]
        exact gather_contiguous basisFile basisFormat _ 0 [] 0 [] rfl

theorem contiguous_le (l : List MipLevel) (first last : Nat) (h : Contiguous first l last) :
    first ≤ last := by
  have := contiguous_sum l first last h
  omega

/-- Every level of a contiguous list lies between its two ends. -/
theorem contiguous_bound (l : List MipLevel) (first last : Nat) (h : Contiguous first l last) :
    ∀ m ∈ l, first ≤ m.offset ∧ m.offset + m.size ≤ last := by
  induction l generalizing first with
  | nil => intro m hm; simp at hm
  | cons a rest ih =>
    intro m hm
    rw [List.mem_cons] at hm
    have hRest := contiguous_le rest _ last h.2
    rcases hm with hm | hm
    · subst hm
      rw [h.1]
      exact ⟨Nat.le_refl _, hRest⟩
    · have := ih _ h.2 m hm
      omega

/-- The view of a planned call is the slice of a level of the plan. -/
theorem plannedCalls_views (basisFormat : Nat) (needs : Bool) (total : Nat)
    (l : List MipLevel) (dst : Uint8ArrayView) (i lvl f u a : Nat)
    (h : Event.transcodeImage dst i lvl f u a ∈ plannedCalls basisFormat needs total l) :
    ∃ m ∈ l, dst.bufferByteLength = total ∧ dst.byteOffset = m.offset ∧
      dst.length = m.size := by
  induction l with
  | nil => simp [plannedCalls] at h
  | cons m rest ih =>
    simp only [plannedCalls, List.mem_cons, List.mem_append] at h
    rcases h with h | h | h
    · simp only [Event.transcodeImage.injEq] at h
      refine ⟨m, List.mem_cons_self _ _, ?_⟩
      rw [h.1]
      exact ⟨rfl, rfl, rfl⟩
    · cases needs
      · simp at h
      · simp only [if_true, List.mem_singleton, Event.transcodeImage.injEq] at h
        refine ⟨m, List.mem_cons_self _ _, ?_⟩
        rw [h.1]
        exact ⟨rfl, rfl, rfl⟩
    · obtain ⟨m', hm', hv⟩ := ih h
      exact ⟨m', List.mem_cons_of_mem _ hm', hv⟩

/-- A `transcodeImage` call of a run is one of the planned calls of its plan. -/
theorem call_in_trace (heap : Heap) (id : Nat) (basisFile : BasisFile) (sf : SupportedFormats) (asa : Bool)
    (e : Event) (hCall : e.isTranscodeImage = true)
    (h : e ∈ (transcode heap id basisFile sf asa).trace) :
    ∃ basisFormat needs mipLevels total,
      (transcode heap id basisFile sf asa).selected = some (some basisFormat, needs) ∧
      (transcode heap id basisFile sf asa).plan = some (mipLevels, total) ∧
      e ∈ plannedCalls basisFormat needs total mipLevels := by
  by_cases hv : basisFile.getNumImages = 0 ∨ basisFile.getNumLevels IMAGE_INDEX = 0
  · rw [transcode_invalid heap id basisFile sf asa hv] at h
    simp only [List.mem_cons, List.mem_singleton, List.not_mem_nil, or_false] at h
    rcases h with h | h | h | h | h | h | h <;> subst h <;> simp [Event.isTranscodeImage] at hCall
  · have hImages : basisFile.getNumImages ≠ 0 := fun h0 => hv (Or.inl h0)
    have hLevels : basisFile.getNumLevels IMAGE_INDEX ≠ 0 := fun h0 => hv (Or.inr h0)
    cases hStart : basisFile.startTranscoding with
    | false =>
      rw [transcode_start_failed heap id basisFile sf asa hImages hLevels hStart] at h
      simp only [List.mem_cons, List.mem_singleton, List.not_mem_nil, or_false] at h
      rcases h with h | h | h | h | h | h | h | h <;> subst h <;>
        simp [Event.isTranscodeImage] at hCall
    | true =>
      cases hSel : (selectFormat basisFile.getHasAlpha sf asa).1 with
      | none =>
        rw [transcode_no_format heap id basisFile sf asa hImages hLevels hStart hSel] at h
        simp only [List.mem_cons, List.mem_singleton, List.not_mem_nil, or_false] at h
        rcases h with h | h | h | h | h | h | h | h <;> subst h <;>
          simp [Event.isTranscodeImage] at hCall
      | some basisFormat =>
        obtain ⟨wf, hMap⟩ := selectFormat_mapped _ _ _ _ hSel
        rcases transcode_formatted heap id basisFile sf asa hImages hLevels hStart _ _ hSel
          hMap with ⟨_, hRun⟩ | ⟨_, hRun⟩
        swap
        · rw [hRun] at h
          have := (unallocated_event _
            (gather_trace basisFile basisFormat _ 0 [] 0 [] (by simp)) _ h).2.1
          rw [hCall] at this
          exact absurd this (by decide)
        rw [hRun] at h
        refine ⟨basisFormat, (selectFormat basisFile.getHasAlpha sf asa).2,
          (gatherMipLevels basisFile basisFormat
            (if wf.uncompressed then 1 else basisFile.getNumLevels IMAGE_INDEX) 0 [] 0 []).1,
          (gatherMipLevels basisFile basisFormat
            (if wf.uncompressed then 1 else basisFile.getNumLevels IMAGE_INDEX) 0 [] 0 []).2.1,
          ?_, ?_, ?_⟩
        · rw [hRun, ← hSel]
        · rw [hRun]
        · simp only [List.mem_append, List.mem_cons, List.mem_singleton, List.not_mem_nil,
            or_false] at h
          rcases h with ((h | h) | h) | h
          · rcases h with h | h | h | h | h <;> subst h <;>
              simp [Event.isTranscodeImage] at hCall
          · have := gather_trace basisFile basisFormat _ 0 [] 0 [] (by simp) _ h
            cases e <;> simp_all [Event.isQuery, Event.isTranscodeImage]
          · rw [transcodeLevels_calls] at h
            exact untilFirstFailure_subset _ _ e h
          · split at h
            · simp only [List.mem_cons, List.mem_singleton, List.not_mem_nil, or_false] at h
              rcases h with h | h | h <;> subst h <;> simp [Event.isTranscodeImage] at hCall
            · simp only [List.mem_cons, List.mem_singleton, List.not_mem_nil, or_false] at h
              rcases h with h | h | h <;> subst h <;> simp [Event.isTranscodeImage] at hCall

/-- C12, the code departs from the claim: for the sample container without
alpha whose one level has a transcoded size of 2^53 bytes, on a device with
s3tc only, `new Uint8Array(totalTranscodeSize)` (line 420) throws a RangeError
that nothing catches.  The run posts no message at all, neither success nor
error, and never closes or deletes the container handle; its trace ends with
the RangeError.  The same happens for the ordinary sample container (168
bytes) in a worker whose memory is exhausted. -/
theorem failed_allocation_posts_nothing :
    (transcode plentiful 1 hugeFile onlyS3tc false).selected = some (some 2, false) ∧
    (transcode plentiful 1 hugeFile onlyS3tc false).plan =
      some ([⟨0, 0, 2 ^ 53, 16, 16⟩], 2 ^ 53) ∧
    plentiful.allocates BufferName.transcodeData (2 ^ 53) = false ∧
    posted (transcode plentiful 1 hugeFile onlyS3tc false).trace = [] ∧
    Event.close ∉ (transcode plentiful 1 hugeFile onlyS3tc false).trace ∧
    Event.delete ∉ (transcode plentiful 1 hugeFile onlyS3tc false).trace ∧
    (transcode plentiful 1 hugeFile onlyS3tc false).trace =
      [Event.construct, Event.getNumImages, Event.getNumLevels 0, Event.getHasAlpha,
        Event.startTranscoding, Event.getImageTranscodedSizeInBytes 0 0 2,
        Event.getImageWidth 0 0, Event.getImageHeight 0 0, Event.throwRangeError] ∧
    posted (transcode exhausted 1 (sampleFile false) onlyS3tc false).trace = [] ∧
    Event.close ∉ (transcode exhausted 1 (sampleFile false) onlyS3tc false).trace := by
  refine ⟨by decide, by decide, by decide, by decide, by decide, by decide, by decide,
    by decide, by decide⟩

/-- Every run of `transcode` that returns (that does not end in the RangeError
of an allocation) posts exactly one message, and it carries the request id.
The message is either an error message (id and error text, nothing else) or
the success message with its buffers; the success message is posted only by a
run whose planned `transcodeImage` calls were all answered true. -/
theorem returned_run_responds_once (heap : Heap) (id : Nat) (basisFile : BasisFile)
    (supportedFormats : SupportedFormats) (allowSeparateAlpha : Bool)
    (hReturns : Event.throwRangeError ∉
      (transcode heap id basisFile supportedFormats allowSeparateAlpha).trace) :
    ∃ message,
      posted (transcode heap id basisFile supportedFormats allowSeparateAlpha).trace = [message] ∧
      message.id = id ∧
      ((∃ errorMsg, message = Message.error id errorMsg) ∨
       (∃ basisFormat needsSecondaryAlpha webglFormat mipLevels totalTranscodeSize,
          message = Message.success id totalTranscodeSize
            (if needsSecondaryAlpha then some totalTranscodeSize else none)
            webglFormat mipLevels basisFile.getHasAlpha ∧
          (transcode heap id basisFile supportedFormats allowSeparateAlpha).selected =
            some (some basisFormat, needsSecondaryAlpha) ∧
          (transcode heap id basisFile supportedFormats allowSeparateAlpha).plan =
            some (mipLevels, totalTranscodeSize) ∧
          ∀ call ∈ plannedCalls basisFormat needsSecondaryAlpha totalTranscodeSize mipLevels,
            basisFile.answer call = true)) := by
  obtain ⟨calls, hQuiet, hShape⟩ :=
    transcode_shape heap id basisFile supportedFormats allowSeparateAlpha
  rcases hShape with ⟨errorMsg, hTrace⟩ | ⟨buffer, alphaBuffer, wf, ml, hTrace⟩ | hTrace
  rotate_left 2
  · rw [hTrace] at hReturns
    exact absurd (List.mem_append_right _ (List.mem_singleton.mpr rfl)) hReturns
  · refine ⟨Message.error id errorMsg, ?_, rfl, Or.inl ⟨errorMsg, rfl⟩⟩
    rw [hTrace, posted_append, posted_quiet calls hQuiet]
    rfl
  · refine ⟨Message.success id buffer alphaBuffer wf ml basisFile.getHasAlpha, ?_, rfl, ?_⟩
    · rw [hTrace, posted_append, posted_quiet calls hQuiet]
      rfl
    · have hMem : Event.postMessage
          (Message.success id buffer alphaBuffer wf ml basisFile.getHasAlpha) ∈
          (transcode heap id basisFile supportedFormats allowSeparateAlpha).trace := by
        rw [hTrace]
        simp
      obtain ⟨basisFormat, hSelected, _, _, hPlan, hDone, hAlphaBuffer, _, _⟩ :=
        success_posted heap id basisFile supportedFormats allowSeparateAlpha _ _ _ _ _ _ hMem
      refine Or.inr ⟨basisFormat, _, wf, ml, buffer, ?_, hSelected, hPlan, ?_⟩
      · rw [hAlphaBuffer]
      · rw [transcodeLevels_result] at hDone
        intro call hCall
        cases hFind : (plannedCalls basisFormat
            (selectFormat basisFile.getHasAlpha supportedFormats allowSeparateAlpha).2
            buffer ml).find? (fun call => !basisFile.answer call) with
        | some failed =>
          rw [hFind] at hDone
          simp at hDone
        | none =>
          rw [List.find?_eq_none] at hFind
          simpa using hFind call hCall

/-- C13: in a run that posts the success message, the primary buffer has
`totalTranscodeSize` bytes, `alphaBuffer` is a second buffer of the same length
when `needsSecondaryAlpha` and null otherwise, and every view passed to
`transcodeImage` is taken from a buffer of `totalTranscodeSize` bytes and lies
within it (`byteOffset + length <= byteLength`). -/
theorem buffers_sized (heap : Heap) (id : Nat) (basisFile : BasisFile)
    (supportedFormats : SupportedFormats) (allowSeparateAlpha : Bool)
    (id' buffer : Nat) (alphaBuffer : Option Nat) (webglFormat : WebGLFormat)
    (mipLevels : List MipLevel) (hasAlpha : Bool)
    (hSuccess : Event.postMessage
        (Message.success id' buffer alphaBuffer webglFormat mipLevels hasAlpha) ∈
      (transcode heap id basisFile supportedFormats allowSeparateAlpha).trace) :
    ∃ basisFormat needsSecondaryAlpha,
      (transcode heap id basisFile supportedFormats allowSeparateAlpha).selected =
        some (some basisFormat, needsSecondaryAlpha) ∧
      (transcode heap id basisFile supportedFormats allowSeparateAlpha).plan =
        some (mipLevels, buffer) ∧
      alphaBuffer = (if needsSecondaryAlpha then some buffer else none) ∧
      ∀ dst imageIndex levelIndex format unused getAlpha,
        Event.transcodeImage dst imageIndex levelIndex format unused getAlpha ∈
          (transcode heap id basisFile supportedFormats allowSeparateAlpha).trace →
        dst.bufferByteLength = buffer ∧ dst.byteOffset + dst.length ≤ dst.bufferByteLength := by
  obtain ⟨basisFormat, hSelected, _, _, hPlan, _, hAlphaBuffer, _, _⟩ :=
    success_posted heap id basisFile supportedFormats allowSeparateAlpha _ _ _ _ _ _ hSuccess
  refine ⟨basisFormat, _, hSelected, hPlan, hAlphaBuffer, ?_⟩
  intro dst imageIndex levelIndex format unused getAlpha hCall
  obtain ⟨basisFormat', needs', ml', total', _, hPlan', hPlanned⟩ :=
    call_in_trace heap id basisFile supportedFormats allowSeparateAlpha
      (Event.transcodeImage dst imageIndex levelIndex format unused getAlpha) rfl hCall
  rw [hPlan] at hPlan'
  simp only [Option.some.injEq, Prod.mk.injEq] at hPlan'
  obtain ⟨hml, htotal⟩ := hPlan'
  subst hml
  subst htotal
  obtain ⟨m, hm, hLength, hOffset, hSize⟩ := plannedCalls_views _ _ _ _ _ _ _ _ _ _ hPlanned
  have hBound := contiguous_bound _ _ _
    (plan_is_contiguous heap id basisFile supportedFormats allowSeparateAlpha _ _ hPlan) m hm
  rw [hLength, hOffset, hSize]
  exact ⟨rfl, hBound.2⟩

/-- C13, the scenario of the specification: a container with alpha on a device
with pvrtc only and `allowSeparateAlpha = true` selects cTFPVRTC1_4_RGB (8)
and posts two buffers of equal length (168 bytes). -/
theorem buffers_sized_witness :
    (transcode plentiful 1 (sampleFile true) onlyPvrtc true).selected = some (some 8, true) ∧
    posted (transcode plentiful 1 (sampleFile true) onlyPvrtc true).trace =
      [Message.success 1 168 (some 168) { format := COMPRESSED_RGB_PVRTC_4BPPV1_IMG }
        [⟨0, 0, 128, 16, 16⟩, ⟨1, 128, 32, 8, 8⟩, ⟨2, 160, 8, 4, 4⟩] true] ∧
    ∃ needsSecondaryAlpha : Bool,
      (some 168 : Option Nat) = (if needsSecondaryAlpha then some 168 else none) := by
  refine ⟨by decide, by decide, ?_⟩
  obtain ⟨_, needs, _, _, hAlphaBuffer, _⟩ :=
    buffers_sized plentiful 1 (sampleFile true) onlyPvrtc true 1 168 (some 168)
      { format := COMPRESSED_RGB_PVRTC_4BPPV1_IMG }
      [⟨0, 0, 128, 16, 16⟩, ⟨1, 128, 32, 8, 8⟩, ⟨2, 160, 8, 4, 4⟩] true (by decide)
  exact ⟨needs, hAlphaBuffer⟩

/-- C19, the claim fails: on a container that reports a size of 0 bytes for
its levels the plan is built with all offsets equal to 0, so consecutive
offsets are not strictly increasing. -/
theorem offsets_not_strictly_increasing :
    (transcode plentiful 1 zeroSizeFile onlyS3tc false).plan =
      some ([⟨0, 0, 0, 16, 16⟩, ⟨1, 0, 0, 8, 8⟩, ⟨2, 0, 0, 4, 4⟩], 0) ∧
    ¬ (∀ mipLevels totalTranscodeSize,
        (transcode plentiful 1 zeroSizeFile onlyS3tc false).plan =
          some (mipLevels, totalTranscodeSize) →
        ∀ i a b, mipLevels[i]? = some a → mipLevels[i + 1]? = some b →
          a.offset < b.offset) := by
  have hPlan : (transcode plentiful 1 zeroSizeFile onlyS3tc false).plan =
      some ([⟨0, 0, 0, 16, 16⟩, ⟨1, 0, 0, 8, 8⟩, ⟨2, 0, 0, 4, 4⟩], 0) := by decide
  refine ⟨hPlan, ?_⟩
  intro h
  have := h _ _ hPlan 0 ⟨0, 0, 0, 16, 16⟩ ⟨1, 0, 0, 8, 8⟩ rfl rfl
  exact absurd this (by decide)

/-- C19 as amended: in the mip-level list built by `transcode` the offsets
never decrease, a descriptor's slice ends exactly where the next one starts
(`offset[i] + size[i] = offset[i+1]`, so no two slices overlap and there is no
gap), and `offset[i] < offset[i+1]` holds exactly when the container reports a
positive size for level `i`. -/
theorem offsets_monotone (heap : Heap) (id : Nat) (basisFile : BasisFile)
    (supportedFormats : SupportedFormats) (allowSeparateAlpha : Bool)
    (mipLevels : List MipLevel) (totalTranscodeSize : Nat)
    (hPlan : (transcode heap id basisFile supportedFormats allowSeparateAlpha).plan =
      some (mipLevels, totalTranscodeSize)) :
    ∀ i a b, mipLevels[i]? = some a → mipLevels[i + 1]? = some b →
      a.offset ≤ b.offset ∧ a.offset + a.size = b.offset ∧
      (a.offset < b.offset ↔ 0 < a.size) := by
  intro i a b ha hb
  have hAdjacent := contiguous_adjacent _ _ _
    (plan_is_contiguous heap id basisFile supportedFormats allowSeparateAlpha _ _ hPlan) i a b ha hb
  omega

/-- C19 as amended, on the sample container (levels of 128, 32 and 8 bytes):
level 0 at offset 0 lies strictly before level 1 at offset 128. -/
theorem offsets_monotone_witness :
    (transcode plentiful 1 (sampleFile false) onlyS3tc false).plan =
      some ([⟨0, 0, 128, 16, 16⟩, ⟨1, 128, 32, 8, 8⟩, ⟨2, 160, 8, 4, 4⟩], 168) ∧
    ((0 : Nat) ≤ 128 ∧ 0 + 128 = 128 ∧ ((0 : Nat) < 128 ↔ 0 < 128)) :=
  ⟨by decide,
   offsets_monotone plentiful 1 (sampleFile false) onlyS3tc false
     [⟨0, 0, 128, 16, 16⟩, ⟨1, 128, 32, 8, 8⟩, ⟨2, 160, 8, 4, 4⟩] 168 (by decide) 0
     ⟨0, 0, 128, 16, 16⟩ ⟨1, 128, 32, 8, 8⟩ rfl rfl⟩

/-- No event of a run is a thrown TypeError. -/
theorem no_type_error (heap : Heap) (id : Nat) (basisFile : BasisFile) (sf : SupportedFormats)
    (asa : Bool) : Event.throwTypeError ∉ (transcode heap id basisFile sf asa).trace := by
  intro h
  by_cases hv : basisFile.getNumImages = 0 ∨ basisFile.getNumLevels IMAGE_INDEX = 0
  · rw [transcode_invalid heap id basisFile sf asa hv] at h
    simp at h
  · have hImages : basisFile.getNumImages ≠ 0 := fun h0 => hv (Or.inl h0)
    have hLevels : basisFile.getNumLevels IMAGE_INDEX ≠ 0 := fun h0 => hv (Or.inr h0)
    cases hStart : basisFile.startTranscoding with
    | false =>
      rw [transcode_start_failed heap id basisFile sf asa hImages hLevels hStart] at h
      simp at h
    | true =>
      cases hSel : (selectFormat basisFile.getHasAlpha sf asa).1 with
      | none =>
        rw [transcode_no_format heap id basisFile sf asa hImages hLevels hStart hSel] at h
        simp at h
      | some basisFormat =>
        obtain ⟨wf, hMap⟩ := selectFormat_mapped _ _ _ _ hSel
        rcases transcode_formatted heap id basisFile sf asa hImages hLevels hStart _ _ hSel
          hMap with ⟨_, hRun⟩ | ⟨_, hRun⟩
        swap
        · rw [hRun] at h
          exact (unallocated_event _
            (gather_trace basisFile basisFormat _ 0 [] 0 [] (by simp)) _ h).2.2.2 rfl
        rw [hRun] at h
        simp only [List.mem_append, List.mem_cons, List.mem_singleton, List.not_mem_nil,
          or_false] at h
        rcases h with ((h | h) | h) | h
        · simp at h
        · have := gather_trace basisFile basisFormat _ 0 [] 0 [] (by simp) _ h
          simp [Event.isQuery] at this
        · have := transcodeLevels_trace basisFile basisFormat _ _ _ _ h
          simp [Event.isTranscodeImage] at this
        · split at h <;> simp at h

/-- C20: every format that the selection chain of `transcode` leaves in
`basisFormat` has an entry in `BASIS_WEBGL_FORMAT_MAP`, so the lookup of line
395 is defined, and no run of `transcode` throws the TypeError of reading
`uncompressed` of undefined. -/
theorem lookup_defined (heap : Heap) (id : Nat) (basisFile : BasisFile)
    (supportedFormats : SupportedFormats) (allowSeparateAlpha : Bool) :
    (∀ basisFormat needsSecondaryAlpha,
      (transcode heap id basisFile supportedFormats allowSeparateAlpha).selected =
        some (some basisFormat, needsSecondaryAlpha) →
      ∃ webglFormat, webglFormatOf basisFormat = some webglFormat) ∧
    Event.throwTypeError ∉
      (transcode heap id basisFile supportedFormats allowSeparateAlpha).trace := by
  refine ⟨?_, no_type_error heap id basisFile supportedFormats allowSeparateAlpha⟩
  intro basisFormat needs hSelected
  obtain ⟨_, _, _, hEq⟩ :=
    selected_reached heap id basisFile supportedFormats allowSeparateAlpha _ hSelected
  exact selectFormat_mapped basisFile.getHasAlpha supportedFormats allowSeparateAlpha
    basisFormat (by rw [← hEq])

/-- C20 on the sample container without alpha and a device without any
compressed format: the selected cTFRGB565 (14) has its entry in the table. -/
theorem lookup_defined_witness :
    (transcode plentiful 1 (sampleFile false) noFormats false).selected = some (some 14, false) ∧
    ∃ webglFormat, webglFormatOf 14 = some webglFormat :=
  ⟨by decide,
   (lookup_defined plentiful 1 (sampleFile false) noFormats false).1 14 false (by decide)⟩

/-! ## The worker's answer to a request -/

/-- The transcoding loop fails with one of its two error texts. -/
theorem transcodeLevels_error (basisFile : BasisFile) (basisFormat : Nat) (needs : Bool)
    (total : Nat) (l : List MipLevel) (e : String)
    (h : (transcodeLevels basisFile basisFormat needs total l).2 = some e) :
    e = "transcodeImage failed" ∨ e = "alpha transcodeImage failed" := by
  rw [transcodeLevels_result] at h
  cases hFind : (plannedCalls basisFormat needs total l).find?
      (fun call => !basisFile.answer call) with
  | none =>
    rw [hFind] at h
    simp at h
  | some failed =>
    rw [hFind] at h
    simp only [Option.map_some', Option.some.injEq] at h
    have hMem := List.mem_of_find?_eq_some hFind
    have hCall := plannedCalls_isTranscodeImage _ _ _ _ failed hMem
    cases failed <;> simp [Event.isTranscodeImage] at hCall
    rename_i dst i lvl f u a
    simp only [failureMessage] at h
    rw [← h]
    split
    · exact Or.inl rfl
    · exact Or.inr rfl

/-- An error message posted by `transcode` carries the request id and one of
the five error texts of the function, none of them empty. -/
theorem transcode_error_text (heap : Heap) (id : Nat) (basisFile : BasisFile) (sf : SupportedFormats)
    (asa : Bool) (X : Nat) (e : String)
    (h : Event.postMessage (Message.error X e) ∈ (transcode heap id basisFile sf asa).trace) :
    X = id ∧ e ≠ "" := by
  by_cases hv : basisFile.getNumImages = 0 ∨ basisFile.getNumLevels IMAGE_INDEX = 0
  · rw [transcode_invalid heap id basisFile sf asa hv] at h
    simp at h
    exact ⟨h.1, by rw [h.2]; decide⟩
  · have hImages : basisFile.getNumImages ≠ 0 := fun h0 => hv (Or.inl h0)
    have hLevels : basisFile.getNumLevels IMAGE_INDEX ≠ 0 := fun h0 => hv (Or.inr h0)
    cases hStart : basisFile.startTranscoding with
    | false =>
      rw [transcode_start_failed heap id basisFile sf asa hImages hLevels hStart] at h
      simp at h
      exact ⟨h.1, by rw [h.2]; decide⟩
    | true =>
      cases hSel : (selectFormat basisFile.getHasAlpha sf asa).1 with
      | none =>
        rw [transcode_no_format heap id basisFile sf asa hImages hLevels hStart hSel] at h
        simp at h
        exact ⟨h.1, by rw [h.2]; decide⟩
      | some basisFormat =>
        obtain ⟨wf, hMap⟩ := selectFormat_mapped _ _ _ _ hSel
        rcases transcode_formatted heap id basisFile sf asa hImages hLevels hStart _ _ hSel
          hMap with ⟨_, hRun⟩ | ⟨_, hRun⟩
        swap
        · rw [hRun] at h
          have := (unallocated_event _
            (gather_trace basisFile basisFormat _ 0 [] 0 [] (by simp)) _ h).1
          simp [Event.isPostMessage] at this
        rw [hRun] at h
        simp only [List.mem_append, List.mem_cons, List.mem_singleton, List.not_mem_nil,
          or_false] at h
        rcases h with ((h | h) | h) | h
        · simp at h
        · have := gather_trace basisFile basisFormat _ 0 [] 0 [] (by simp) _ h
          simp [Event.isQuery] at this
        · have := transcodeLevels_trace basisFile basisFormat _ _ _ _ h
          simp [Event.isTranscodeImage] at this
        · split at h
          · rename_i errorMsg hDone
            simp at h
            have hText := transcodeLevels_error _ _ _ _ _ _ hDone
            refine ⟨h.1, ?_⟩
            rw [h.2]
            rcases hText with hText | hText <;> rw [hText] <;> decide
          · simp at h

theorem fetch_failed_text (status : Nat) (statusText : String) :
    "Fetch failed: " ++ toString status ++ ", " ++ statusText ≠ "" := by
  intro h
  have hLength := congrArg String.length h
  simp only [String.length_append] at hLength
  have h14 : "Fetch failed: ".length = 14 := by decide
  have h0 : "".length = 0 := by decide
  omega

theorem transcodeWhenReady_error_text (env : WorkerEnv) (id : Nat) (arrayBuffer : BasisFile)
    (sf : SupportedFormats) (asa : Bool) (X : Nat) (e : String)
    (h : Event.postMessage (Message.error X e) ∈
      transcodeWhenReady env id arrayBuffer sf asa) :
    X = id ∧ e ≠ "" := by
  unfold transcodeWhenReady at h
  split at h
  · exact transcode_error_text env.heap id arrayBuffer sf asa X e h
  · exact transcode_error_text env.heap id arrayBuffer sf asa X e h
  · simp at h

/-- An error message posted by the worker carries the id of the request and a
text that is not empty. -/
theorem worker_error_text (env : WorkerEnv) (data : Request) (X : Nat) (e : String)
    (h : Event.postMessage (Message.error X e) ∈ Worker.onmessage env data) :
    X = data.id ∧ e ≠ "" := by
  unfold Worker.onmessage at h
  simp only at h
  split at h
  · split at h
    · simp at h
    · split at h
      · split at h
        · simp at h
        · exact transcodeWhenReady_error_text _ _ _ _ _ _ _ h
      · simp only [fail, List.mem_singleton, Event.postMessage.injEq, Message.error.injEq] at h
        exact ⟨h.1, by rw [h.2]; exact fetch_failed_text _ _⟩
  · split at h
    · exact transcodeWhenReady_error_text _ _ _ _ _ _ _ h
    · simp only [fail, List.mem_singleton, Event.postMessage.injEq, Message.error.injEq] at h
      exact ⟨h.1, by rw [h.2]; decide⟩

/-- C16: for an error message that the worker posts for an id that is
pending, the handler logs the error and rejects the promise of that id with
the error text of the message; it does not call `uploadImageData`, it removes
the id from `pendingTextures`, and it leaves every other entry and every other
field of the loader as it was. -/
theorem error_rejects (env : WorkerEnv) (request : Request) (X : Nat) (e : String)
    (hPosted : Event.postMessage (Message.error X e) ∈ Worker.onmessage env request)
    (this : BasisLoader) (pendingTexture : PendingTextureRequest)
    (hPending : this.pendingTextures X = some pendingTexture) :
    (this.onmessage (Message.error X e)).2 =
      [MainEvent.consoleError ("Basis transcode failed: " ++ e), MainEvent.reject X e] ∧
    (∀ event ∈ (this.onmessage (Message.error X e)).2, event.isUpload = false) ∧
    (this.onmessage (Message.error X e)).1.pendingTextures X = none ∧
    (∀ id, id ≠ X →
      (this.onmessage (Message.error X e)).1.pendingTextures id = this.pendingTextures id) ∧
    (this.onmessage (Message.error X e)).1.nextPendingTextureId = this.nextPendingTextureId ∧
    (this.onmessage (Message.error X e)).1.gl = this.gl ∧
    (this.onmessage (Message.error X e)).1.supportedFormats = this.supportedFormats ∧
    (this.onmessage (Message.error X e)).1.allowSeparateAlpha = this.allowSeparateAlpha := by
  have hText := (worker_error_text env request X e hPosted).2
  have hRun : this.onmessage (Message.error X e) =
      ({ this with
         pendingTextures := fun id => if id = X then none else this.pendingTextures id },
       [MainEvent.consoleError ("Basis transcode failed: " ++ e), MainEvent.reject X e]) := by
    unfold BasisLoader.onmessage
    simp only [Message.id, hPending]
    rw [if_pos hText]
  rw [hRun]
  refine ⟨rfl, ?_, by simp, ?_, rfl, rfl, rfl, rfl⟩
  · intro event hEvent
    simp only [List.mem_cons, List.mem_singleton, List.not_mem_nil, or_false] at hEvent
    rcases hEvent with hEvent | hEvent <;> subst hEvent <;> rfl
  · intro id hId
    simp [hId]

/-- C16 on the answer of the worker to a request whose fetch finds nothing
(status 404), handled by a loader that has just issued that request: the
promise of id 1 is rejected with the worker's text and the id is removed. -/
theorem error_rejects_witness :
    Event.postMessage (Message.error 1 "Fetch failed: 404, Not Found") ∈
      Worker.onmessage notFoundEnv urlRequest ∧
    ((BasisLoader.constructor.loadFromUrl "texture.basis").1.onmessage
        (Message.error 1 "Fetch failed: 404, Not Found")).2 =
      [MainEvent.consoleError ("Basis transcode failed: " ++ "Fetch failed: 404, Not Found"),
       MainEvent.reject 1 "Fetch failed: 404, Not Found"] ∧
    ((BasisLoader.constructor.loadFromUrl "texture.basis").1.onmessage
        (Message.error 1 "Fetch failed: 404, Not Found")).1.pendingTextures 1 = none :=
  have h := error_rejects notFoundEnv urlRequest 1 "Fetch failed: 404, Not Found"
    (by decide) (BasisLoader.constructor.loadFromUrl "texture.basis").1
    { gl := none, url := "texture.basis" } rfl
  ⟨by decide, h.1, h.2.2.1⟩

/-- C17, the code at the failing input: for a request with a url whose `fetch`
promise is rejected (network failure) the worker posts no message at all,
since the promise chain of lines 467-481 has no rejection handler; a fetch
that resolves with a status that is not OK does post the one 'Fetch failed'
message. -/
theorem rejected_fetch_posts_nothing :
    offlineEnv.fetch "texture.basis" = none ∧
    posted (Worker.onmessage offlineEnv urlRequest) = [] ∧
    posted (Worker.onmessage notFoundEnv urlRequest) =
      [Message.error 1 "Fetch failed: 404, Not Found"] := by
  refine ⟨rfl, by decide, by decide⟩

/-! ## The main thread -/

theorem sentIds_append (a b : List MainEvent) : sentIds (a ++ b) = sentIds a ++ sentIds b := by
  induction a with
  | nil => rfl
  | cons e rest ih => cases e <;> simp [sentIds, ih]

theorem sentIds_local (l : List MainEvent) (h : ∀ e ∈ l, e.isLocal = true) :
    sentIds l = [] := by
  induction l with
  | nil => rfl
  | cons e rest ih =>
    have he := h e (List.mem_cons_self _ _)
    have hrest := ih (fun x hx => h x (List.mem_cons_of_mem _ hx))
    cases e <;> simp_all [sentIds, MainEvent.isLocal]

theorem settles_local (id : Nat) (l : List MainEvent) (h : ∀ e ∈ l, e.isLocal = true) :
    l.filter (MainEvent.settles id) = [] := by
  rw [List.filter_eq_nil_iff]
  intro e he
  have := h e he
  cases e <;> simp_all [MainEvent.settles, MainEvent.isLocal]

theorem uploadLevels_local (webglFormat : WebGLFormat) (buffer : Nat) (l : List MipLevel) :
    ∀ e ∈ (uploadLevels webglFormat buffer l).1, e.isLocal = true := by
  induction l with
  | nil => intro e he; simp [uploadLevels] at he
  | cons m rest ih =>
    intro e he
    simp only [uploadLevels] at he
    split at he
    · simp only [List.mem_singleton] at he
      subst he; rfl
    · simp only [List.mem_cons] at he
      rcases he with he | he
      · subst he
        split <;> rfl
      · exact ih e he

theorem uploadImageData_local (gl : Option GLContext) (webglFormat : WebGLFormat)
    (buffer : Nat) (l : List MipLevel) :
    ∀ e ∈ (uploadImageData gl webglFormat buffer l).1, e.isLocal = true := by
  intro e he
  unfold uploadImageData at he
  cases gl with
  | none =>
    simp only [List.mem_cons, List.mem_singleton, List.not_mem_nil, or_false] at he
    rcases he with he | he <;> subst he <;> rfl
  | some context =>
    simp only at he
    have hLevels := uploadLevels_local webglFormat buffer l
    split at he
    · simp only [List.mem_append, List.mem_cons, List.mem_singleton, List.not_mem_nil,
        or_false] at he
      rcases he with (he | he) | he
      · rcases he with he | he | he | he | he <;> subst he <;> rfl
      · exact hLevels e he
      · split at he
        · simp only [List.mem_singleton] at he
          subst he; rfl
        · simp at he
    · simp only [List.mem_append, List.mem_cons, List.mem_singleton, List.not_mem_nil,
        or_false] at he
      rcases he with he | he
      · rcases he with he | he | he | he | he <;> subst he <;> rfl
      · exact hLevels e he

theorem uploadImageDataUndefined_local (gl : Option GLContext) :
    ∀ e ∈ uploadImageDataUndefined gl, e.isLocal = true := by
  intro e he
  cases gl with
  | none =>
    simp only [uploadImageDataUndefined, List.mem_cons, List.mem_singleton, List.not_mem_nil,
      or_false] at he
    rcases he with he | he <;> subst he <;> rfl
  | some context =>
    simp only [uploadImageDataUndefined, List.mem_cons, List.mem_singleton, List.not_mem_nil,
      or_false] at he
    rcases he with he | he | he | he | he <;> subst he <;> rfl

theorem uploadAlphaTexture_local (gl : Option GLContext) (webglFormat : WebGLFormat)
    (alphaBuffer : Option Nat) (l : List MipLevel) :
    ∀ e ∈ (uploadAlphaTexture gl webglFormat alphaBuffer l).1, e.isLocal = true := by
  intro e he
  cases alphaBuffer with
  | none => simp [uploadAlphaTexture] at he
  | some alphaBytes => exact uploadImageData_local _ _ _ _ e he

/-- A message for an id that is not pending changes nothing and only logs. -/
theorem onmessage_absent (this : BasisLoader) (data : Message)
    (h : this.pendingTextures data.id = none) :
    (this.onmessage data).1 = this ∧
    ∀ e ∈ (this.onmessage data).2, e.isConsoleError = true := by
  unfold BasisLoader.onmessage
  rw [h]
  refine ⟨rfl, ?_⟩
  intro e he
  simp only [List.mem_append, List.mem_singleton] at he
  rcases he with he | he
  · cases data with
    | error id error =>
      simp only at he
      split at he
      · simp only [List.mem_singleton] at he
        subst he; rfl
      · simp at he
    | success id buffer alphaBuffer webglFormat mipLevels hasAlpha => simp at he
  · subst he; rfl

/-- The handler only removes the id of the message from `pendingTextures`. -/
theorem onmessage_state (this : BasisLoader) (data : Message) :
    (this.onmessage data).1.nextPendingTextureId = this.nextPendingTextureId ∧
    ∀ id, (this.onmessage data).1.pendingTextures id =
      if id = data.id then none else this.pendingTextures id := by
  cases hPending : this.pendingTextures data.id with
  | none =>
    rw [(onmessage_absent this data hPending).1]
    refine ⟨rfl, ?_⟩
    intro id
    split
    · rename_i hid
      rw [hid, hPending]
    · rfl
  | some pendingTexture =>
    unfold BasisLoader.onmessage
    rw [hPending]
    cases data with
    | error id error =>
      simp only
      split <;> exact ⟨rfl, fun _ => rfl⟩
    | success id buffer alphaBuffer webglFormat mipLevels hasAlpha =>
      simp only
      split
      · exact ⟨rfl, fun _ => rfl⟩
      · split
        · exact ⟨rfl, fun _ => rfl⟩
        · split <;> exact ⟨rfl, fun _ => rfl⟩

/-- The events of the handler are local ones, followed at most by the one
event that settles the promise of the message's id, which was pending. -/
theorem onmessage_events (this : BasisLoader) (data : Message) :
    ∃ locals tail, (this.onmessage data).2 = locals ++ tail ∧
      (∀ e ∈ locals, e.isLocal = true) ∧
      (tail = [] ∨
        (this.pendingTextures data.id ≠ none ∧
          ((∃ result, tail = [MainEvent.resolve data.id result]) ∨
           (∃ reason, tail = [MainEvent.reject data.id reason])))) := by
  cases hPending : this.pendingTextures data.id with
  | none =>
    refine ⟨(this.onmessage data).2, [], by simp, ?_, Or.inl rfl⟩
    intro e he
    have := (onmessage_absent this data hPending).2 e he
    cases e <;> simp_all [MainEvent.isConsoleError, MainEvent.isLocal]
  | some pendingTexture =>
    unfold BasisLoader.onmessage
    rw [hPending]
    cases data with
    | error id error =>
      simp only
      split
      · refine ⟨[MainEvent.consoleError ("Basis transcode failed: " ++ error)],
          [MainEvent.reject id error], rfl, ?_, Or.inr ⟨by simp, Or.inr ⟨error, rfl⟩⟩⟩
        intro e he
        simp only [List.mem_singleton] at he
        subst he; rfl
      · exact ⟨uploadImageDataUndefined pendingTexture.gl, [], by simp,
          uploadImageDataUndefined_local _, Or.inl rfl⟩
    | success id buffer alphaBuffer webglFormat mipLevels hasAlpha =>
      simp only
      have hFirst := uploadImageData_local pendingTexture.gl webglFormat buffer mipLevels
      have hBoth : ∀ e ∈ (uploadImageData pendingTexture.gl webglFormat buffer mipLevels).1 ++
          (uploadAlphaTexture pendingTexture.gl webglFormat alphaBuffer mipLevels).1,
          e.isLocal = true := by
        intro e he
        rw [List.mem_append] at he
        rcases he with he | he
        · exact hFirst e he
        · exact uploadAlphaTexture_local _ _ _ _ e he
      split
      · exact ⟨_, [], by simp, hFirst, Or.inl rfl⟩
      · split
        · exact ⟨_, [], by simp, hBoth, Or.inl rfl⟩
        · split
          · refine ⟨(uploadImageData pendingTexture.gl webglFormat buffer []).1 ++
              (uploadAlphaTexture pendingTexture.gl webglFormat alphaBuffer []).1 ++
              [MainEvent.throwTypeError], [], by simp, ?_, Or.inl rfl⟩
            intro e he
            rw [List.mem_append] at he
            rcases he with he | he
            · exact hBoth e he
            · simp only [List.mem_singleton] at he
              subst he; rfl
          · exact ⟨_, _, rfl, hBoth, Or.inr ⟨by simp, Or.inl ⟨_, rfl⟩⟩⟩
theorem settles_tail (X id : Nat) (tail : List MainEvent)
    (h : (∃ result, tail = [MainEvent.resolve id result]) ∨
      (∃ reason, tail = [MainEvent.reject id reason])) :
    (tail.filter (MainEvent.settles X)).length ≤ 1 ∧
    (X ≠ id → tail.filter (MainEvent.settles X) = []) ∧ sentIds tail = [] := by
  have hLength : (tail.filter (MainEvent.settles X)).length ≤ 1 := by
    have hLe := List.length_filter_le (MainEvent.settles X) tail
    rcases h with ⟨result, h⟩ | ⟨reason, h⟩ <;> subst h <;> simpa using hLe
  refine ⟨hLength, ?_, ?_⟩
  · intro hX
    have hb : (id == X) = false := by
      rw [beq_eq_false_iff_ne]
      exact fun h' => hX h'.symm
    rcases h with ⟨result, h⟩ | ⟨reason, h⟩ <;> subst h <;>
      simp [List.filter, MainEvent.settles, hb]
  · rcases h with ⟨result, h⟩ | ⟨reason, h⟩ <;> subst h <;> rfl

theorem setWebGLContext_state (this : BasisLoader) (gl : Option GLContext) :
    (this.setWebGLContext gl).pendingTextures = this.pendingTextures ∧
    (this.setWebGLContext gl).nextPendingTextureId = this.nextPendingTextureId := by
  unfold BasisLoader.setWebGLContext
  split
  · split <;> exact ⟨rfl, rfl⟩
  · exact ⟨rfl, rfl⟩

/-- The handler keeps the invariant. -/
theorem invariant_onmessage (this : BasisLoader) (events : List MainEvent) (data : Message)
    (h : LoaderInvariant this events) :
    LoaderInvariant (this.onmessage data).1 (events ++ (this.onmessage data).2) := by
  obtain ⟨h1, h2, h3, h4, h5, h6⟩ := h
  obtain ⟨hNext, hPending⟩ := onmessage_state this data
  obtain ⟨locals, tail, hEvents, hLocals, hTail⟩ := onmessage_events this data
  have hKept : ∀ id, (this.onmessage data).1.pendingTextures id ≠ none →
      id ≠ data.id ∧ this.pendingTextures id ≠ none := by
    intro id hid
    rw [hPending id] at hid
    by_cases hEq : id = data.id
    · simp [hEq] at hid
    · simp only [hEq, if_false] at hid
      exact ⟨hEq, hid⟩
  have hSent : sentIds (this.onmessage data).2 = [] := by
    rw [hEvents, sentIds_append, sentIds_local locals hLocals]
    rcases hTail with hTail | ⟨_, hTail⟩
    · rw [hTail]; rfl
    · rw [(settles_tail 0 data.id tail hTail).2.2]; rfl
  have hFilter : ∀ X, (this.onmessage data).2.filter (MainEvent.settles X) =
      tail.filter (MainEvent.settles X) := by
    intro X
    rw [hEvents, List.filter_append, settles_local X locals hLocals, List.nil_append]
  refine ⟨?_, ?_, ?_, ?_, ?_, ?_⟩
  · rw [hNext]; exact h1
  · intro id hid
    rw [hNext]
    exact h2 id (hKept id hid).2
  · rw [sentIds_append, hSent, hNext, List.append_nil]
    exact h3
  · intro X
    rw [List.filter_append, List.length_append, hFilter X]
    rcases hTail with hTail | ⟨hWas, hTail⟩
    · rw [hTail]
      simpa using h4 X
    · by_cases hX : X = data.id
      · rw [hX, h5 data.id hWas]
        simpa using (settles_tail data.id data.id tail hTail).1
      · rw [(settles_tail X data.id tail hTail).2.1 hX]
        simpa using h4 X
  · intro X hX
    obtain ⟨hNe, hOld⟩ := hKept X hX
    rw [List.filter_append, hFilter X, h5 X hOld]
    rcases hTail with hTail | ⟨_, hTail⟩
    · rw [hTail]; rfl
    · rw [(settles_tail X data.id tail hTail).2.1 hNe]; rfl
  · intro X hX
    rw [hNext] at hX
    rw [List.filter_append, hFilter X, h6 X hX]
    rcases hTail with hTail | ⟨hWas, hTail⟩
    · rw [hTail]; rfl
    · have hBound := (h2 data.id hWas).2
      have hNe : X ≠ data.id := by omega
      rw [(settles_tail X data.id tail hTail).2.1 hNe]; rfl

/-- The method `loadFromUrl` keeps the invariant. -/
theorem invariant_loadFromUrl (this : BasisLoader) (events : List MainEvent) (url : String)
    (h : LoaderInvariant this events) :
    LoaderInvariant (this.loadFromUrl url).1 (events ++ (this.loadFromUrl url).2) := by
  obtain ⟨h1, h2, h3, h4, h5, h6⟩ := h
  have hN : (this.loadFromUrl url).1.nextPendingTextureId = this.nextPendingTextureId + 1 := rfl
  have hP : ∀ id, (this.loadFromUrl url).1.pendingTextures id ≠ none →
      id = this.nextPendingTextureId ∨ this.pendingTextures id ≠ none := by
    intro id hid
    by_cases hEq : id = this.nextPendingTextureId
    · exact Or.inl hEq
    · right
      simpa [BasisLoader.loadFromUrl, hEq] using hid
  have hE : (this.loadFromUrl url).2 =
      [MainEvent.postMessage this.nextPendingTextureId url this.allowSeparateAlpha
        this.supportedFormats] := rfl
  have hF : ∀ X, (events ++ (this.loadFromUrl url).2).filter (MainEvent.settles X) =
      events.filter (MainEvent.settles X) := by
    intro X
    rw [hE, List.filter_append]
    simp [List.filter, MainEvent.settles]
  refine ⟨by omega, ?_, ?_, ?_, ?_, ?_⟩
  · intro id hid
    rw [hN]
    rcases hP id hid with hEq | hOld
    · omega
    · have := h2 id hOld
      omega
  · rw [sentIds_append, h3, hE, hN]
    simp only [sentIds, Nat.add_sub_cancel]
    obtain ⟨n, hn⟩ : ∃ n, this.nextPendingTextureId = n + 1 :=
      ⟨this.nextPendingTextureId - 1, by omega⟩
    rw [hn, Nat.add_sub_cancel, List.range'_1_concat, Nat.add_comm 1 n]
  · intro X
    rw [hF X]
    exact h4 X
  · intro X hX
    rw [hF X]
    rcases hP X hX with hEq | hOld
    · exact h6 X (by omega)
    · exact h5 X hOld
  · intro X hX
    rw [hN] at hX
    rw [hF X]
    exact h6 X (by omega)

/-- Every action keeps the invariant. -/
theorem invariant_step (this : BasisLoader) (events : List MainEvent) (action : Action)
    (h : LoaderInvariant this events) :
    LoaderInvariant (this.step action).1 (events ++ (this.step action).2) := by
  cases action with
  | loadFromUrl url => exact invariant_loadFromUrl this events url h
  | receive data => exact invariant_onmessage this events data h
  | setWebGLContext gl =>
    simp only [BasisLoader.step, List.append_nil]
    obtain ⟨hp, hn⟩ := setWebGLContext_state this gl
    unfold LoaderInvariant
    rw [hp, hn]
    exact h
  | setAllowSeparateAlpha value =>
    simp only [BasisLoader.step, List.append_nil]
    exact h

/-- Every sequence of actions keeps the invariant. -/
theorem invariant_run (actions : List Action) (this : BasisLoader) (events : List MainEvent)
    (h : LoaderInvariant this events) :
    LoaderInvariant (this.run actions).1 (events ++ (this.run actions).2) := by
  induction actions generalizing this events with
  | nil => simpa [BasisLoader.run] using h
  | cons action rest ih =>
    simp only [BasisLoader.run]
    rw [← List.append_assoc]
    exact ih _ _ (invariant_step this events action h)

theorem invariant_constructor : LoaderInvariant BasisLoader.constructor [] := by
  refine ⟨by decide, ?_, rfl, ?_, ?_, ?_⟩
  · intro id hid
    exact absurd rfl hid
  · intro id; simp
  · intro id _; rfl
  · intro id _; rfl

/-- The invariant holds after every sequence of actions on a new loader. -/
theorem invariant_reached (actions : List Action) :
    LoaderInvariant (BasisLoader.constructor.run actions).1
      (BasisLoader.constructor.run actions).2 := by
  simpa using invariant_run actions BasisLoader.constructor [] invariant_constructor

theorem run_append (this : BasisLoader) (a b : List Action) :
    this.run (a ++ b) =
      (((this.run a).1.run b).1, (this.run a).2 ++ ((this.run a).1.run b).2) := by
  induction a generalizing this with
  | nil => simp [BasisLoader.run]
  | cons action rest ih =>
    rw [List.cons_append]
    simp only [BasisLoader.run]
    rw [ih, List.append_assoc]

/-- An id that has been issued and is no longer pending never becomes pending
again. -/
theorem absent_run (actions : List Action) (this : BasisLoader) (X : Nat)
    (hAbsent : this.pendingTextures X = none) (hIssued : X < this.nextPendingTextureId) :
    (this.run actions).1.pendingTextures X = none ∧
    X < (this.run actions).1.nextPendingTextureId := by
  induction actions generalizing this with
  | nil => exact ⟨hAbsent, hIssued⟩
  | cons action rest ih =>
    simp only [BasisLoader.run]
    apply ih
    · cases action with
      | loadFromUrl url =>
        simp only [BasisLoader.step, BasisLoader.loadFromUrl]
        have : ¬ X = this.nextPendingTextureId := by omega
        simp [this, hAbsent]
      | receive data =>
        simp only [BasisLoader.step]
        rw [(onmessage_state this data).2 X]
        split
        · rfl
        · exact hAbsent
      | setWebGLContext gl =>
        simp only [BasisLoader.step]
        rw [(setWebGLContext_state this gl).1]
        exact hAbsent
      | setAllowSeparateAlpha value => exact hAbsent
    · cases action with
      | loadFromUrl url =>
        have hN : (this.step (Action.loadFromUrl url)).1.nextPendingTextureId =
            this.nextPendingTextureId + 1 := rfl
        omega
      | receive data =>
        simp only [BasisLoader.step]
        rw [(onmessage_state this data).1]
        exact hIssued
      | setWebGLContext gl =>
        simp only [BasisLoader.step]
        rw [(setWebGLContext_state this gl).2]
        exact hIssued
      | setAllowSeparateAlpha value => exact hIssued
/-- C14: after every sequence of actions on a new `BasisLoader` (calls of
`loadFromUrl` and `setWebGLContext`, assignments to `allowSeparateAlpha`,
worker messages of any kind), the ids sent to the worker are 1, 2, 3, ... in
the order of the calls, so they increase strictly; the next id is one more
than the number of ids sent; every key of `pendingTextures` is less than
`nextPendingTextureId`; so the id issued next is not the key of a pending
entry. -/
theorem ids_increasing (actions : List Action) :
    sentIds (BasisLoader.constructor.run actions).2 =
      List.range' 1 (sentIds (BasisLoader.constructor.run actions).2).length ∧
    List.Pairwise (fun a b => a < b) (sentIds (BasisLoader.constructor.run actions).2) ∧
    (BasisLoader.constructor.run actions).1.nextPendingTextureId =
      (sentIds (BasisLoader.constructor.run actions).2).length + 1 ∧
    (∀ id, (BasisLoader.constructor.run actions).1.pendingTextures id ≠ none →
      id < (BasisLoader.constructor.run actions).1.nextPendingTextureId) ∧
    (BasisLoader.constructor.run actions).1.pendingTextures
      (BasisLoader.constructor.run actions).1.nextPendingTextureId = none := by
  obtain ⟨h1, h2, h3, _, _, _⟩ := invariant_reached actions
  have hLength : (sentIds (BasisLoader.constructor.run actions).2).length =
      (BasisLoader.constructor.run actions).1.nextPendingTextureId - 1 := by
    rw [h3, List.length_range']
  refine ⟨?_, ?_, by omega, fun id hid => (h2 id hid).2, ?_⟩
  · rw [hLength]
    exact h3
  · rw [h3]
    exact List.pairwise_lt_range' 1 _
  · by_contra hPending
    have := (h2 _ hPending).2
    omega

/-- C14 on the sample actions: the two calls of `loadFromUrl` send the ids 1
and 2, the next id is 3, and the pending id 2 is less than it. -/
theorem ids_increasing_witness :
    sentIds (BasisLoader.constructor.run sampleActions).2 = [1, 2] ∧
    (BasisLoader.constructor.run sampleActions).1.nextPendingTextureId = 3 ∧
    2 < (BasisLoader.constructor.run sampleActions).1.nextPendingTextureId :=
  ⟨by decide, by decide,
   (ids_increasing sampleActions).2.2.2.1 2 (by decide)⟩

/-- C15: take any sequence of actions on a new `BasisLoader` and any id X.  If
the handler has processed a message for X after X was issued, or if X was
never issued, then handling one more message with id X leaves the loader as it
is (so `pendingTextures` too) and only logs: it calls neither `resolve`,
`reject` nor `uploadImageData`.  And in the whole sequence the promise of X is
settled (resolved or rejected) at most once. -/
theorem settled_at_most_once (actions : List Action) (X : Nat) :
    (∀ before data after, actions = before ++ Action.receive data :: after →
      data.id = X → Issued X (BasisLoader.constructor.run before).2 →
      ∀ later : Message, later.id = X →
        ((BasisLoader.constructor.run actions).1.onmessage later).1 =
          (BasisLoader.constructor.run actions).1 ∧
        ∀ e ∈ ((BasisLoader.constructor.run actions).1.onmessage later).2,
          e.isConsoleError = true) ∧
    (¬ Issued X (BasisLoader.constructor.run actions).2 →
      ∀ later : Message, later.id = X →
        ((BasisLoader.constructor.run actions).1.onmessage later).1 =
          (BasisLoader.constructor.run actions).1 ∧
        ∀ e ∈ ((BasisLoader.constructor.run actions).1.onmessage later).2,
          e.isConsoleError = true) ∧
    ((BasisLoader.constructor.run actions).2.filter (MainEvent.settles X)).length ≤ 1 := by
  refine ⟨?_, ?_, (invariant_reached actions).2.2.2.1 X⟩
  · intro before data after hSplit hId hIssued later hLater
    obtain ⟨h1, _, h3, _, _, _⟩ := invariant_reached before
    unfold Issued at hIssued
    rw [h3, List.mem_range'_1] at hIssued
    have hBound : X < (BasisLoader.constructor.run before).1.nextPendingTextureId := by omega
    have hStep : ((BasisLoader.constructor.run before).1.onmessage data).1.pendingTextures X =
          none ∧
        X < ((BasisLoader.constructor.run before).1.onmessage data).1.nextPendingTextureId := by
      obtain ⟨hNext, hPending⟩ := onmessage_state (BasisLoader.constructor.run before).1 data
      rw [hNext, hPending X, if_pos hId.symm]
      exact ⟨rfl, hBound⟩
    have hEnd : (BasisLoader.constructor.run actions).1.pendingTextures X = none := by
      rw [hSplit, run_append]
      simp only [BasisLoader.run, BasisLoader.step]
      exact (absent_run after _ X hStep.1 hStep.2).1
    apply onmessage_absent
    rw [hLater]
    exact hEnd
  · intro hNever later hLater
    obtain ⟨h1, h2, h3, _, _, _⟩ := invariant_reached actions
    unfold Issued at hNever
    rw [h3, List.mem_range'_1] at hNever
    apply onmessage_absent
    rw [hLater]
    by_contra hPending
    have := h2 X hPending
    omega

/-- C15 on the sample actions, in which request 1 has been rejected: one more
message for id 1 only logs, and the promise of request 1 has been settled at
most once. -/
theorem settled_at_most_once_witness :
    (∀ e ∈ ((BasisLoader.constructor.run sampleActions).1.onmessage
        (Message.error 1 "Invalid Basis data")).2, e.isConsoleError = true) ∧
    ((BasisLoader.constructor.run sampleActions).2.filter (MainEvent.settles 1)).length ≤ 1 :=
  ⟨((settled_at_most_once sampleActions 1).1
      [Action.setWebGLContext (some s3tcContext), Action.loadFromUrl "a.basis",
        Action.loadFromUrl "b.basis"]
      (Message.error 1 "Invalid Basis data") [] rfl rfl (by unfold Issued; decide)
      (Message.error 1 "Invalid Basis data") rfl).2,
   (settled_at_most_once sampleActions 1).2.2⟩

/-! ## From the worker's success message to the resolved result -/

theorem untilFirstFailure_all (answer : Event → Bool) (l : List Event)
    (h : l.find? (fun call => !answer call) = none) : untilFirstFailure answer l = l := by
  induction l with
  | nil => rfl
  | cons c rest ih =>
    rw [List.find?_cons] at h
    cases hc : answer c with
    | false => simp [hc] at h
    | true =>
      simp only [hc, Bool.not_true] at h
      simp only [untilFirstFailure, hc, if_true]
      rw [ih h]

theorem primary_count (basisFormat : Nat) (needs : Bool) (total : Nat) (l : List MipLevel) :
    ((plannedCalls basisFormat needs total l).filter Event.isPrimaryCall).length = l.length := by
  induction l with
  | nil => rfl
  | cons m rest ih =>
    cases needs <;>
      simp [plannedCalls, List.filter, Event.isPrimaryCall, ih]

theorem filter_primary_queries (l : List Event) (h : ∀ e ∈ l, e.isQuery = true) :
    l.filter Event.isPrimaryCall = [] := by
  rw [List.filter_eq_nil_iff]
  intro e he
  have := h e he
  cases e <;> simp_all [Event.isQuery, Event.isPrimaryCall]

/-- A run that posts the success message made one primary call per level of
its plan, and its plan has the levels the container reports. -/
theorem success_levels (heap : Heap) (id : Nat) (basisFile : BasisFile) (sf : SupportedFormats) (asa : Bool)
    (id' buffer : Nat) (alphaBuffer : Option Nat) (webglFormat : WebGLFormat)
    (mipLevels : List MipLevel) (hasAlpha : Bool)
    (h : Event.postMessage (Message.success id' buffer alphaBuffer webglFormat mipLevels hasAlpha)
      ∈ (transcode heap id basisFile sf asa).trace) :
    ∃ basisFormat,
      ((transcode heap id basisFile sf asa).trace.filter Event.isPrimaryCall).length =
        mipLevels.length ∧
      mipLevels.length =
        (if webglFormat.uncompressed then 1 else basisFile.getNumLevels IMAGE_INDEX) ∧
      basisFile.getNumLevels IMAGE_INDEX ≠ 0 ∧
      Described basisFile basisFormat mipLevels ∧
      Contiguous 0 mipLevels buffer := by
  obtain ⟨basisFormat, hSelected, hSel, hMap, hPlan, hDone, _, _, _⟩ :=
    success_posted heap id basisFile sf asa _ _ _ _ _ _ h
  obtain ⟨hImages, hLevels, hStart, _⟩ := selected_reached heap id basisFile sf asa _ hSelected
  have hContiguous := plan_is_contiguous heap id basisFile sf asa _ _ hPlan
  have hAlloc : allocated heap (selectFormat basisFile.getHasAlpha sf asa).2
      (gatherMipLevels basisFile basisFormat
        (if webglFormat.uncompressed then 1 else basisFile.getNumLevels IMAGE_INDEX)
        0 [] 0 []).2.1 = true := by
    rcases transcode_formatted heap id basisFile sf asa hImages hLevels hStart _ _ hSel
      hMap with ⟨hAllocated, _⟩ | ⟨_, hThrown⟩
    · exact hAllocated
    · rw [hThrown] at h
      have := (unallocated_event _
        (gather_trace basisFile basisFormat _ 0 [] 0 [] (by simp)) _ h).1
      simp [Event.isPostMessage] at this
  have hRun := transcode_planned heap id basisFile sf asa hImages hLevels hStart _ _ hSel hMap
    hAlloc
  rw [hRun] at hPlan
  simp only [Option.some.injEq, Prod.mk.injEq] at hPlan
  obtain ⟨hml, hbuffer⟩ := hPlan
  have hGather := gather_described basisFile basisFormat
    (if webglFormat.uncompressed then 1 else basisFile.getNumLevels IMAGE_INDEX) 0 [] 0 [] rfl
    (by intro i m hm; simp at hm)
  rw [hml] at hGather
  have hQueries := gather_trace basisFile basisFormat
    (if webglFormat.uncompressed = true then 1 else basisFile.getNumLevels IMAGE_INDEX)
    0 [] 0 [] (by simp)
  refine ⟨basisFormat, ?_, by simpa using hGather.1, hLevels, hGather.2, hContiguous⟩
  rw [hRun]
  simp only
  rw [hml, hbuffer, hDone, transcodeLevels_calls]
  rw [transcodeLevels_result] at hDone
  have hNone : (plannedCalls basisFormat (selectFormat basisFile.getHasAlpha sf asa).2 buffer
      mipLevels).find? (fun call => !basisFile.answer call) = none := by
    cases hFind : (plannedCalls basisFormat (selectFormat basisFile.getHasAlpha sf asa).2 buffer
        mipLevels).find? (fun call => !basisFile.answer call) with
    | none => rfl
    | some failed => rw [hFind] at hDone; simp at hDone
  rw [untilFirstFailure_all _ _ hNone]
  simp only [List.filter_append, filter_primary_queries _ hQueries, List.length_append,
    primary_count]
  simp [List.filter, Event.isPrimaryCall]

theorem uploadLevels_ok (webglFormat : WebGLFormat) (buffer : Nat) (l : List MipLevel)
    (h : ∀ m ∈ l, levelDataOf webglFormat buffer m ≠ none) :
    (uploadLevels webglFormat buffer l).2 = true := by
  induction l with
  | nil => rfl
  | cons m rest ih =>
    simp only [uploadLevels]
    cases hData : levelDataOf webglFormat buffer m with
    | none => exact absurd hData (h m (List.mem_cons_self _ _))
    | some levelData =>
      simp only
      exact ih (fun x hx => h x (List.mem_cons_of_mem _ hx))

/-- Every level of a contiguous plan has its view on the buffer; for an
uncompressed format the plan holds one level, at offset 0. -/
theorem levelData_ok (webglFormat : WebGLFormat) (buffer : Nat) (l : List MipLevel)
    (hContiguous : Contiguous 0 l buffer)
    (hSingle : webglFormat.uncompressed = true → l.length = 1) :
    ∀ m ∈ l, levelDataOf webglFormat buffer m ≠ none := by
  intro m hm
  have hBound := (contiguous_bound l 0 buffer hContiguous m hm).2
  unfold levelDataOf
  cases hU : webglFormat.uncompressed with
  | false => simp [hBound]
  | true =>
    have hLength := hSingle hU
    have hOffset : m.offset = 0 := by
      cases l with
      | nil => simp at hm
      | cons a rest =>
        cases rest with
        | nil =>
          simp only [List.mem_singleton] at hm
          subst hm
          exact hContiguous.1
        | cons b rest' => simp at hLength
    have hHalf : 2 * (m.size / 2) ≤ m.size := Nat.mul_div_le m.size 2
    simp only [Bool.not_true, Bool.false_eq_true, if_false]
    split
    · rw [if_pos ⟨by omega, by omega⟩]
      simp
    · simp

theorem uploadImageData_ok (context : GLContext) (webglFormat : WebGLFormat) (buffer : Nat)
    (l : List MipLevel) (h : ∀ m ∈ l, levelDataOf webglFormat buffer m ≠ none) :
    (uploadImageData (some context) webglFormat buffer l).2 =
      some { webglFormat := webglFormat, buffer := buffer, mipLevels := l } := by
  unfold uploadImageData
  simp only [uploadLevels_ok webglFormat buffer l h, if_true]

/-- The result a success message can be resolved with. -/
theorem onmessage_resolve (this : BasisLoader) (id buffer : Nat) (alphaBuffer : Option Nat)
    (webglFormat : WebGLFormat) (mipLevels : List MipLevel) (hasAlpha : Bool)
    (X : Nat) (result : LoadResult)
    (h : MainEvent.resolve X result ∈
      (this.onmessage (Message.success id buffer alphaBuffer webglFormat mipLevels hasAlpha)).2) :
    X = id ∧ result.mipLevels = mipLevels.length ∧
    (∃ first, mipLevels[0]? = some first ∧ result.width = first.width ∧
      result.height = first.height) ∧
    result.alpha = hasAlpha ∧ (result.alphaTexture ≠ none ↔ alphaBuffer ≠ none) := by
  cases hPending : this.pendingTextures id with
  | none =>
    have := (onmessage_absent this
      (Message.success id buffer alphaBuffer webglFormat mipLevels hasAlpha) hPending).2 _ h
    simp [MainEvent.isConsoleError] at this
  | some pendingTexture =>
    unfold BasisLoader.onmessage at h
    simp only [Message.id, hPending] at h
    have hFirst := uploadImageData_local pendingTexture.gl webglFormat buffer mipLevels
    have hSecond := uploadAlphaTexture_local pendingTexture.gl webglFormat alphaBuffer mipLevels
    have hNotLocal : ∀ l : List MainEvent, (∀ e ∈ l, e.isLocal = true) →
        MainEvent.resolve X result ∉ l := by
      intro l hl hIn
      have := hl _ hIn
      simp [MainEvent.isLocal] at this
    split at h
    · exact absurd h (hNotLocal _ hFirst)
    · split at h
      · rw [List.mem_append] at h
        rcases h with h | h
        · exact absurd h (hNotLocal _ hFirst)
        · exact absurd h (hNotLocal _ hSecond)
      · rename_i alphaTexture hAlpha
        split at h
        · simp only [List.mem_append, List.mem_singleton] at h
          rcases h with (h | h) | h
          · exact absurd h (hNotLocal _ hFirst)
          · exact absurd h (hNotLocal _ hSecond)
          · simp at h
        · simp only [List.mem_append, List.mem_singleton] at h
          rcases h with (h | h) | h
          · exact absurd h (hNotLocal _ hFirst)
          · exact absurd h (hNotLocal _ hSecond)
          · simp only [MainEvent.resolve.injEq] at h
            obtain ⟨hX, hResult⟩ := h
            subst hResult
            refine ⟨hX, rfl, ⟨_, List.getElem?_cons_zero, rfl, rfl⟩, rfl, ?_⟩
            cases alphaBuffer with
            | none =>
              simp only [uploadAlphaTexture, Option.some.injEq] at hAlpha
              simp [← hAlpha]
            | some alphaBytes =>
              simp only [uploadAlphaTexture] at hAlpha
              cases hUp : (uploadImageData pendingTexture.gl webglFormat alphaBytes _).2 with
              | none => rw [hUp] at hAlpha; simp at hAlpha
              | some t =>
                rw [hUp] at hAlpha
                simp only [Option.map_some', Option.some.injEq] at hAlpha
                simp [← hAlpha]
/-- With a WebGL context, views that fit and at least one level, the handler
resolves the promise of a pending id. -/
theorem onmessage_resolves (this : BasisLoader) (id buffer : Nat) (alphaBuffer : Option Nat)
    (webglFormat : WebGLFormat) (mipLevels : List MipLevel) (hasAlpha : Bool)
    (pendingTexture : PendingTextureRequest) (context : GLContext)
    (hPending : this.pendingTextures id = some pendingTexture)
    (hGl : pendingTexture.gl = some context)
    (hOk : ∀ m ∈ mipLevels, levelDataOf webglFormat buffer m ≠ none)
    (hAlphaOk : ∀ alphaBytes, alphaBuffer = some alphaBytes →
      ∀ m ∈ mipLevels, levelDataOf webglFormat alphaBytes m ≠ none)
    (hLevels : mipLevels ≠ []) :
    ∃ result, MainEvent.resolve id result ∈
      (this.onmessage
        (Message.success id buffer alphaBuffer webglFormat mipLevels hasAlpha)).2 := by
  unfold BasisLoader.onmessage
  simp only [Message.id, hPending, hGl, uploadImageData_ok context webglFormat buffer _ hOk]
  cases alphaBuffer with
  | none =>
    cases mipLevels with
    | nil => exact absurd rfl hLevels
    | cons first rest =>
      simp only [uploadAlphaTexture]
      exact ⟨_, List.mem_append_right _ (List.mem_singleton.mpr rfl)⟩
  | some alphaBytes =>
    cases mipLevels with
    | nil => exact absurd rfl hLevels
    | cons first rest =>
      simp only [uploadAlphaTexture,
        uploadImageData_ok context webglFormat alphaBytes _ (hAlphaOk alphaBytes rfl),
        Option.map_some']
      exact ⟨_, List.mem_append_right _ (List.mem_singleton.mpr rfl)⟩

/-- C18: for every success message that `transcode` posts, `mipLevels` is not
empty and has one descriptor per primary `transcodeImage` call of the run.
Whenever the handler of the main thread resolves a promise with that message,
the result has `mipLevels` equal to that number of levels, the width and
height that the container reports for image 0 at level 0, `alpha` equal to
`getHasAlpha()`, and an `alphaTexture` that is not null exactly when the
message has an `alphaBuffer`.  And the handler does resolve the promise when
the id of the message is pending and its request has a WebGL context. -/
theorem success_resolves (heap : Heap) (id : Nat) (basisFile : BasisFile)
    (supportedFormats : SupportedFormats) (allowSeparateAlpha : Bool)
    (id' buffer : Nat) (alphaBuffer : Option Nat) (webglFormat : WebGLFormat)
    (mipLevels : List MipLevel) (hasAlpha : Bool)
    (hSuccess : Event.postMessage
        (Message.success id' buffer alphaBuffer webglFormat mipLevels hasAlpha) ∈
      (transcode heap id basisFile supportedFormats allowSeparateAlpha).trace) :
    mipLevels ≠ [] ∧
    ((transcode heap id basisFile supportedFormats allowSeparateAlpha).trace.filter
      Event.isPrimaryCall).length = mipLevels.length ∧
    (∀ (this : BasisLoader) (X : Nat) (result : LoadResult),
      MainEvent.resolve X result ∈
        (this.onmessage
          (Message.success id' buffer alphaBuffer webglFormat mipLevels hasAlpha)).2 →
      X = id ∧
      result.mipLevels = mipLevels.length ∧
      result.width = basisFile.getImageWidth 0 0 ∧
      result.height = basisFile.getImageHeight 0 0 ∧
      result.alpha = basisFile.getHasAlpha ∧
      (result.alphaTexture ≠ none ↔ alphaBuffer ≠ none)) ∧
    (∀ (this : BasisLoader) (pendingTexture : PendingTextureRequest) (context : GLContext),
      this.pendingTextures id' = some pendingTexture → pendingTexture.gl = some context →
      ∃ result, MainEvent.resolve id' result ∈
        (this.onmessage
          (Message.success id' buffer alphaBuffer webglFormat mipLevels hasAlpha)).2) := by
  obtain ⟨basisFormat, hCount, hLength, hLevels, hDescribed, hContiguous⟩ :=
    success_levels heap id basisFile supportedFormats allowSeparateAlpha _ _ _ _ _ _ hSuccess
  obtain ⟨_, _, _, _, _, _, hAlphaBuffer, hId, hHasAlpha⟩ :=
    success_posted heap id basisFile supportedFormats allowSeparateAlpha _ _ _ _ _ _ hSuccess
  have hNonempty : mipLevels ≠ [] := by
    intro hEmpty
    rw [hEmpty] at hLength
    simp only [List.length_nil] at hLength
    split at hLength
    · omega
    · exact hLevels hLength.symm
  have hSingle : webglFormat.uncompressed = true → mipLevels.length = 1 := by
    intro hU
    rw [hLength, if_pos hU]
  have hOk := levelData_ok webglFormat buffer mipLevels hContiguous hSingle
  refine ⟨hNonempty, hCount, ?_, ?_⟩
  · intro this X result hResolve
    obtain ⟨hX, hLevelsEq, ⟨first, hFirst, hWidth, hHeight⟩, hAlpha, hTexture⟩ :=
      onmessage_resolve this _ _ _ _ _ _ X result hResolve
    obtain ⟨_, _, hW, hH⟩ := hDescribed 0 first hFirst
    refine ⟨by rw [hX, hId], hLevelsEq, ?_, ?_, by rw [hAlpha, hHasAlpha], hTexture⟩
    · rw [hWidth, hW]; rfl
    · rw [hHeight, hH]; rfl
  · intro this pendingTexture context hPending hGl
    refine onmessage_resolves this _ _ _ _ _ _ pendingTexture context hPending hGl hOk ?_
      hNonempty
    intro alphaBytes hAlphaBytes
    rw [hAlphaBuffer] at hAlphaBytes
    split at hAlphaBytes
    · simp only [Option.some.injEq] at hAlphaBytes
      rw [← hAlphaBytes]
      exact hOk
    · simp at hAlphaBytes

/-- C18 on the sample container without alpha on a device with s3tc only: the
success message has three levels and no alpha buffer, and a loader that has
issued the request with a WebGL context resolves it with three levels of 16 by
16 at the top, no alpha and no alpha texture. -/
theorem success_resolves_witness :
    posted (transcode plentiful 1 (sampleFile false) onlyS3tc false).trace =
      [Message.success 1 168 none { format := COMPRESSED_RGB_S3TC_DXT1_EXT }
        [⟨0, 0, 128, 16, 16⟩, ⟨1, 128, 32, 8, 8⟩, ⟨2, 160, 8, 4, 4⟩] false] ∧
    ∃ result,
      MainEvent.resolve 1 result ∈
        (((BasisLoader.constructor.setWebGLContext (some s3tcContext)).loadFromUrl
            "a.basis").1.onmessage
          (Message.success 1 168 none { format := COMPRESSED_RGB_S3TC_DXT1_EXT }
            [⟨0, 0, 128, 16, 16⟩, ⟨1, 128, 32, 8, 8⟩, ⟨2, 160, 8, 4, 4⟩] false)).2 ∧
      result.mipLevels = 3 ∧ result.width = 16 ∧ result.height = 16 ∧
      result.alpha = false ∧ result.alphaTexture = none := by
  have h := success_resolves plentiful 1 (sampleFile false) onlyS3tc false 1 168 none
    { format := COMPRESSED_RGB_S3TC_DXT1_EXT }
    [⟨0, 0, 128, 16, 16⟩, ⟨1, 128, 32, 8, 8⟩, ⟨2, 160, 8, 4, 4⟩] false (by decide)
  obtain ⟨_, _, hResult, hResolves⟩ := h
  obtain ⟨result, hIn⟩ := hResolves
    ((BasisLoader.constructor.setWebGLContext (some s3tcContext)).loadFromUrl "a.basis").1
    { gl := some s3tcContext, url := "a.basis" } s3tcContext rfl rfl
  obtain ⟨_, hLevels, hWidth, hHeight, hAlpha, hTexture⟩ := hResult _ 1 result hIn
  refine ⟨by decide, result, hIn, hLevels, hWidth, hHeight, hAlpha, ?_⟩
  by_contra hSome
  exact absurd rfl (hTexture.mp hSome)

/-! ## When no format is selected -/

/-- The chain leaves `basisFormat` undefined exactly in the last branch of its
alpha half. -/
theorem selectFormat_none_iff (hasAlpha : Bool) (sf : SupportedFormats) (asa : Bool) :
    (selectFormat hasAlpha sf asa).1 = none ↔
      (hasAlpha = true ∧ sf.etc2 = false ∧ sf.bptc = false ∧ sf.s3tc = false ∧
        sf.astc = false ∧ sf.pvrtc = false ∧ ¬ (sf.etc1 = true ∧ asa = true)) := by
  rw [selectFormat_eq]
  obtain ⟨s3tc, etc1, etc2, pvrtc, astc, bptc⟩ := sf
  cases hasAlpha <;> cases asa <;> cases s3tc <;> cases etc1 <;> cases etc2 <;>
    cases pvrtc <;> cases astc <;> cases bptc <;> simp

/-- The loop over a plan with at least one level makes the primary call of the
first level. -/
theorem first_call_made (basisFile : BasisFile) (basisFormat : Nat) (needs : Bool)
    (total : Nat) (first : MipLevel) (rest : List MipLevel) :
    Event.transcodeImage ⟨BufferName.transcodeData, total, first.offset, first.size⟩
        0 first.level basisFormat 1 0 ∈
      (transcodeLevels basisFile basisFormat needs total (first :: rest)).1 := by
  rw [transcodeLevels_calls]
  simp only [plannedCalls, untilFirstFailure]
  split
  · exact List.mem_cons_self _ _
  · exact List.mem_singleton.mpr rfl

/-- C21, the claim fails: the sample container without alpha whose one level
has a transcoded size of 2^53 bytes, on a device with s3tc only, is valid,
starts transcoding and is not in the case of the error; the format
cTFBC1_RGB (2) is selected and the plan is built, but the allocation of line
420 throws, so the transcoding step is not reached: no `transcodeImage` call
is made. -/
theorem transcoding_not_reached :
    hugeFile.getNumImages ≠ 0 ∧ hugeFile.getNumLevels 0 ≠ 0 ∧
    hugeFile.startTranscoding = true ∧
    ¬ (hugeFile.getHasAlpha = true ∧ onlyS3tc.etc2 = false ∧ onlyS3tc.bptc = false ∧
        onlyS3tc.s3tc = false ∧ onlyS3tc.astc = false ∧ onlyS3tc.pvrtc = false ∧
        ¬ (onlyS3tc.etc1 = true ∧ false = true)) ∧
    (transcode plentiful 1 hugeFile onlyS3tc false).selected = some (some 2, false) ∧
    (transcode plentiful 1 hugeFile onlyS3tc false).plan =
      some ([⟨0, 0, 2 ^ 53, 16, 16⟩], 2 ^ 53) ∧
    Event.transcodeImage ⟨BufferName.transcodeData, 2 ^ 53, 0, 2 ^ 53⟩ 0 0 2 1 0 ∉
      (transcode plentiful 1 hugeFile onlyS3tc false).trace ∧
    (transcode plentiful 1 hugeFile onlyS3tc false).trace.filter Event.isTranscodeImage = [] ∧
    (transcode plentiful 1 hugeFile onlyS3tc false).trace.getLast? =
      some Event.throwRangeError := by
  decide

/-- C21 as amended: on a valid container on which `startTranscoding` succeeds,
the one message of the run is the error 'No supported transcode formats' if
and only if the container has alpha, none of etc2, bptc, s3tc, astc and pvrtc
is supported, and etc1 is not supported together with `allowSeparateAlpha`.
In every other case a format is selected, the plan is built with at least one
level, no message with that error text is posted, and, provided the output
buffers of `totalTranscodeSize` bytes can be allocated, the primary
`transcodeImage` call of level 0 is made. -/
theorem no_format_error_iff (heap : Heap) (id : Nat) (basisFile : BasisFile)
    (supportedFormats : SupportedFormats) (allowSeparateAlpha : Bool)
    (hImages : basisFile.getNumImages ≠ 0)
    (hLevels : basisFile.getNumLevels 0 ≠ 0)
    (hStart : basisFile.startTranscoding = true) :
    (posted (transcode heap id basisFile supportedFormats allowSeparateAlpha).trace =
        [Message.error id "No supported transcode formats"] ↔
      (basisFile.getHasAlpha = true ∧ supportedFormats.etc2 = false ∧
        supportedFormats.bptc = false ∧ supportedFormats.s3tc = false ∧
        supportedFormats.astc = false ∧ supportedFormats.pvrtc = false ∧
        ¬ (supportedFormats.etc1 = true ∧ allowSeparateAlpha = true))) ∧
    (¬ (basisFile.getHasAlpha = true ∧ supportedFormats.etc2 = false ∧
        supportedFormats.bptc = false ∧ supportedFormats.s3tc = false ∧
        supportedFormats.astc = false ∧ supportedFormats.pvrtc = false ∧
        ¬ (supportedFormats.etc1 = true ∧ allowSeparateAlpha = true)) →
      ∃ basisFormat needsSecondaryAlpha mipLevels totalTranscodeSize,
        (transcode heap id basisFile supportedFormats allowSeparateAlpha).selected =
          some (some basisFormat, needsSecondaryAlpha) ∧
        (transcode heap id basisFile supportedFormats allowSeparateAlpha).plan =
          some (mipLevels, totalTranscodeSize) ∧
        mipLevels ≠ [] ∧
        (allocated heap needsSecondaryAlpha totalTranscodeSize = true →
          Event.transcodeImage
              ⟨BufferName.transcodeData, totalTranscodeSize, 0,
                basisFile.getImageTranscodedSizeInBytes 0 0 basisFormat⟩
              0 0 basisFormat 1 0 ∈
            (transcode heap id basisFile supportedFormats allowSeparateAlpha).trace) ∧
        ∀ X, Event.postMessage (Message.error X "No supported transcode formats") ∉
          (transcode heap id basisFile supportedFormats allowSeparateAlpha).trace) := by
  have hPlanned : (¬ (basisFile.getHasAlpha = true ∧ supportedFormats.etc2 = false ∧
        supportedFormats.bptc = false ∧ supportedFormats.s3tc = false ∧
        supportedFormats.astc = false ∧ supportedFormats.pvrtc = false ∧
        ¬ (supportedFormats.etc1 = true ∧ allowSeparateAlpha = true)) →
      ∃ basisFormat needsSecondaryAlpha mipLevels totalTranscodeSize,
        (transcode heap id basisFile supportedFormats allowSeparateAlpha).selected =
          some (some basisFormat, needsSecondaryAlpha) ∧
        (transcode heap id basisFile supportedFormats allowSeparateAlpha).plan =
          some (mipLevels, totalTranscodeSize) ∧
        mipLevels ≠ [] ∧
        (allocated heap needsSecondaryAlpha totalTranscodeSize = true →
          Event.transcodeImage
              ⟨BufferName.transcodeData, totalTranscodeSize, 0,
                basisFile.getImageTranscodedSizeInBytes 0 0 basisFormat⟩
              0 0 basisFormat 1 0 ∈
            (transcode heap id basisFile supportedFormats allowSeparateAlpha).trace) ∧
        ∀ X, Event.postMessage (Message.error X "No supported transcode formats") ∉
          (transcode heap id basisFile supportedFormats allowSeparateAlpha).trace) := by
    intro hCond
    rw [← selectFormat_none_iff] at hCond
    cases hSel : (selectFormat basisFile.getHasAlpha supportedFormats allowSeparateAlpha).1 with
    | none => exact absurd hSel hCond
    | some basisFormat =>
      obtain ⟨wf, hMap⟩ := selectFormat_mapped _ _ _ _ hSel
      have hFields := transcode_fields heap id basisFile supportedFormats allowSeparateAlpha
        hImages hLevels hStart _ _ hSel hMap
      have hRuns := transcode_formatted heap id basisFile supportedFormats allowSeparateAlpha
        hImages hLevels hStart _ _ hSel hMap
      dsimp only at hRuns
      have hGather := gather_described basisFile basisFormat
        (if wf.uncompressed then 1 else basisFile.getNumLevels IMAGE_INDEX) 0 [] 0 [] rfl
        (by intro i m hm; simp at hm)
      have hContiguous := gather_contiguous basisFile basisFormat
        (if wf.uncompressed then 1 else basisFile.getNumLevels IMAGE_INDEX) 0 [] 0 [] rfl
      have hQueries := gather_trace basisFile basisFormat
        (if wf.uncompressed = true then 1 else basisFile.getNumLevels IMAGE_INDEX)
        0 [] 0 [] (by simp)
      generalize hG : gatherMipLevels basisFile basisFormat
        (if wf.uncompressed = true then 1 else basisFile.getNumLevels IMAGE_INDEX) 0 [] 0 [] =
        gathered at hFields hRuns hGather hContiguous hQueries
      have hLength : gathered.1.length ≠ 0 := by
        rw [hGather.1]
        simp only [List.length_nil, Nat.zero_add]
        split
        · exact Nat.one_ne_zero
        · exact hLevels
      cases hList : gathered.1 with
      | nil => rw [hList] at hLength; exact absurd rfl hLength
      | cons first rest =>
        obtain ⟨hLevel, hSize, _, _⟩ := hGather.2 0 first (by rw [hList]; exact List.getElem?_cons_zero)
        have hOffset : first.offset = 0 := by
          rw [hList] at hContiguous
          exact hContiguous.1
        have hCall := first_call_made basisFile basisFormat
          (selectFormat basisFile.getHasAlpha supportedFormats allowSeparateAlpha).2
          gathered.2.1 first rest
        rw [hOffset, hLevel, hSize] at hCall
        refine ⟨basisFormat,
          (selectFormat basisFile.getHasAlpha supportedFormats allowSeparateAlpha).2,
          first :: rest, gathered.2.1, ?_, ?_, List.cons_ne_nil _ _, ?_, ?_⟩
        · rw [hFields.1, ← hSel]
        · rw [hFields.2, hList]
        · intro hAlloc
          rcases hRuns with ⟨_, hRun⟩ | ⟨hNot, _⟩
          · rw [hRun]
            simp only
            rw [hList]
            exact List.mem_append_left _ (List.mem_append_right _ hCall)
          · rw [hNot] at hAlloc
            exact absurd hAlloc (by decide)
        · intro X hIn
          rcases hRuns with ⟨_, hRun⟩ | ⟨_, hRun⟩
          swap
          · rw [hRun] at hIn
            have := (unallocated_event _ hQueries _ hIn).1
            simp [Event.isPostMessage] at this
          rw [hRun] at hIn
          simp only [List.mem_append, List.mem_cons, List.mem_singleton, List.not_mem_nil,
            or_false] at hIn
          rcases hIn with ((hIn | hIn) | hIn) | hIn
          · simp at hIn
          · have := hQueries _ hIn
            simp [Event.isQuery] at this
          · have := transcodeLevels_trace basisFile basisFormat _ _ _ _ hIn
            simp [Event.isTranscodeImage] at this
          · split at hIn
            · rename_i errorMsg hDone
              simp only [List.mem_cons, List.mem_singleton, List.not_mem_nil, or_false,
                reduceCtorEq, Event.postMessage.injEq, Message.error.injEq] at hIn
              have hText := transcodeLevels_error _ _ _ _ _ _ hDone
              rw [← hIn.2] at hText
              rcases hText with hText | hText <;> exact absurd hText (by decide)
            · simp at hIn
  refine ⟨⟨?_, ?_⟩, hPlanned⟩
  · intro hPosted
    by_contra hCond
    obtain ⟨_, _, _, _, _, _, _, _, hNever⟩ := hPlanned hCond
    obtain ⟨calls, hQuiet, hShape⟩ :=
      transcode_shape heap id basisFile supportedFormats allowSeparateAlpha
    rcases hShape with ⟨errorMsg, hTrace⟩ | ⟨buffer, alphaBuffer, wf, ml, hTrace⟩ | hTrace
    · rw [hTrace, posted_append, posted_quiet calls hQuiet] at hPosted
      simp only [posted, List.nil_append, List.cons.injEq, Message.error.injEq, true_and,
        and_true] at hPosted
      apply hNever id
      rw [hTrace, hPosted]
      simp
    · rw [hTrace, posted_append, posted_quiet calls hQuiet] at hPosted
      simp [posted] at hPosted
    · rw [hTrace, posted_append, posted_quiet calls hQuiet] at hPosted
      simp [posted] at hPosted
  · intro hCond
    rw [← selectFormat_none_iff] at hCond
    rw [transcode_no_format heap id basisFile supportedFormats allowSeparateAlpha hImages hLevels
      hStart hCond]
    rfl

/-- C21 as amended, on the sample container with alpha and a device without
any compressed format: the run posts 'No supported transcode formats'. -/
theorem no_format_error_iff_witness :
    posted (transcode plentiful 1 (sampleFile true) noFormats false).trace =
      [Message.error 1 "No supported transcode formats"] :=
  (no_format_error_iff plentiful 1 (sampleFile true) noFormats false (by decide) (by decide) rfl).1.mpr
    ⟨rfl, rfl, rfl, rfl, rfl, rfl, by decide⟩

end BasisLoader
